import Mathlib

/-!
# sipahi: a validating DNS proxy

A shallow embedding of `sipahi.go`: the fingerprint functions
(`toMd5`, `generateReqKey`, `generateValidationKey`), the two name mappers
(`resolveDomainFromCname`, `resolveCnameFromDomian`) and the request state
loop of `proxyServe`, followed by theorems about them.

Conventions.
* A DNS message is the record `Msg`; resource records are the inductive `RR`
  whose constructors are the Go struct types the program touches (`*dns.A`,
  `*dns.CNAME`, `*dns.OPT`) plus `Other` for every other record type.
* A Go type assertion, an index out of range and a nil dereference end the handler
  through the deferred `recover`; they are modelled as `none` of an `Option`
  (functions) or as the exit `Exit.panicked` (state loop).
* The operations of the packages the program imports (MD5 and hex, the text
  forms `String()`, the wire codec `Pack`/`Unpack`, `SetReply`) are fields of
  the record `Lib`, so every theorem quantified over `lib` holds for every
  behaviour of those packages.  `stdLib` is one concrete library (real MD5,
  the text layout of the DNS package, a length-prefixed codec) used to
  evaluate the program on concrete inputs.
* Unsigned 64-bit counters wrap (`AddUint64`); `uint32(ttl)` and
  `time.Second * time.Duration(n)` are computed modulo `2^32` and `2^64`.
-/

namespace Sipahi

/-! ## Data model -/

/-- Wire bytes (`[]byte`). -/
abbrev Bytes := List Nat

/-- Value of `dns.TypeA`. -/
def TypeA : Nat := 1
/-- Value of `dns.TypeCNAME`. -/
def TypeCNAME : Nat := 5
/-- Value of `dns.TypeAAAA`. -/
def TypeAAAA : Nat := 28
/-- Value of `dns.TypeOPT`. -/
def TypeOPT : Nat := 41
/-- Value of `dns.ClassINET`. -/
def ClassINET : Nat := 1
/-- Value of `dns.EDNS0COOKIE`. -/
def EDNS0COOKIE : Nat := 10
/-- Value of `dns.OpcodeQuery`. -/
def OpcodeQuery : Nat := 0
/-- Value of `dns.RcodeSuccess`. -/
def RcodeSuccess : Nat := 0
/-- Value of `dns.RcodeNameError`. -/
def RcodeNameError : Nat := 3
/-- Value of `dns.RcodeRefused`. -/
def RcodeRefused : Nat := 5

/-- A question (`dns.Question`). -/
structure Question where
  Name : String
  Qtype : Nat
  Qclass : Nat
deriving DecidableEq, Repr

/-- The header of a resource record (`dns.RR_Header`). -/
structure RR_Header where
  Name : String
  Rrtype : Nat
  Class : Nat
  Ttl : Nat
  Rdlength : Nat
deriving DecidableEq, Repr

/-- An EDNS0 option: `Code` is what `Option()` returns, `Data` its payload as text. -/
structure EDNS0 where
  Code : Nat
  Data : String
deriving DecidableEq, Repr

/-- A resource record (`dns.RR`): the dynamic type is the constructor. -/
inductive RR where
  | A (Hdr : RR_Header) (A : String)
  | CNAME (Hdr : RR_Header) (Target : String)
  | OPT (Hdr : RR_Header) (Option : List EDNS0)
  | Other (Hdr : RR_Header) (Rdata : String)
deriving DecidableEq, Repr

/-- The header of a record (`rr.Header()`). -/
def RR.Header : RR → RR_Header
  | RR.A h _ => h
  | RR.CNAME h _ => h
  | RR.OPT h _ => h
  | RR.Other h _ => h

/-- The assignment `rr.Header().Name = name`. -/
def RR.setName (name : String) : RR → RR
  | RR.A h a => RR.A { h with Name := name } a
  | RR.CNAME h t => RR.CNAME { h with Name := name } t
  | RR.OPT h o => RR.OPT { h with Name := name } o
  | RR.Other h d => RR.Other { h with Name := name } d

/-- Whether the dynamic type of the record is `*dns.CNAME`. -/
def RR.isCNAME : RR → Bool
  | RR.CNAME _ _ => true
  | _ => false

/-- Whether the dynamic type of the record is `*dns.OPT`. -/
def RR.isOPT : RR → Bool
  | RR.OPT _ _ => true
  | _ => false

/-- A DNS message (`dns.Msg`, with the fields of `dns.MsgHdr` inlined). -/
structure Msg where
  Id : Nat := 0
  Response : Bool := false
  Opcode : Nat := 0
  Authoritative : Bool := false
  Truncated : Bool := false
  RecursionDesired : Bool := false
  RecursionAvailable : Bool := false
  Zero : Bool := false
  AuthenticatedData : Bool := false
  CheckingDisabled : Bool := false
  Rcode : Nat := 0
  Compress : Bool := false
  Question : List Question := []
  Answer : List RR := []
  Ns : List RR := []
  Extra : List RR := []
deriving DecidableEq, Repr

/-- The client side of a request (`dns.ResponseWriter`): `remoteAddr` is
`w.RemoteAddr().String()`, `network` is `w.RemoteAddr().Network()`, and
`writeFails` tells whether `w.Write` returns an error. -/
structure ResponseWriter where
  remoteAddr : String
  network : String
  writeFails : Bool := false
deriving DecidableEq, Repr

/-- The imported packages: `crypto/md5` with `encoding/hex`, and `miekg/dns`. -/
structure Lib where
  /-- The text `hex.EncodeToString(md5(data))`. -/
  md5hex : String → String
  /-- The text form `(*dns.Msg).String()`. -/
  msgString : Msg → String
  /-- The text form `dns.RR.String()`. -/
  rrString : RR → String
  /-- The wire form `(*dns.Msg).Pack()`; `none` is a returned error. -/
  pack : Msg → Option Bytes
  /-- The message a fresh `&dns.Msg{}` holds after `Unpack(data)` (its error is ignored). -/
  unpack : Bytes → Msg
  /-- The message a fresh `new(dns.Msg)` holds after `SetReply(request)`. -/
  setReply : Msg → Msg

/-- The test `strings.Contains(s, substr)`. -/
def stringsContains (s substr : String) : Bool :=
  decide (substr.data <:+: s.data)

/-- The expression `strings.Split(s, ":")[0]`: the text before the first colon. -/
def splitColonHead (s : String) : String :=
  String.mk (s.data.takeWhile (fun c => c != ':'))

/-! ## Fingerprints -/

/-- Source: `toMd5`. -/
def toMd5 (lib : Lib) (data : String) : String :=
  lib.md5hex data

/-- The inner loop of `generateReqKey`: the position of the first COOKIE option,
counted in `pos`. -/
def cookiePos : List EDNS0 → Nat → Option Nat
  | [], _ => none
  | ednsOption :: rest, pos =>
    if ednsOption.Code = EDNS0COOKIE then some pos else cookiePos rest (pos + 1)

/-- The effect of the inner loop of `generateReqKey` on `opt.Option`:
`append(opt.Option[:pos], opt.Option[pos+1:]...)` at the first COOKIE option. -/
def stripCookie (opts : List EDNS0) : List EDNS0 :=
  match cookiePos opts 0 with
  | some pos => opts.take pos ++ opts.drop (pos + 1)
  | none => opts

/-- The outer loop of `generateReqKey` over `req.Extra`; `none` when the type
assertion `extra.(*dns.OPT)` fails. -/
def stripCookies : List RR → Option (List RR)
  | [] => some []
  | extra :: rest =>
    if extra.Header.Rrtype ≠ TypeOPT then (stripCookies rest).map (fun r => extra :: r)
    else
      match extra with
      | RR.OPT h opts => (stripCookies rest).map (fun r => RR.OPT h (stripCookie opts) :: r)
      | _ => none

/-- Source: `generateReqKey`.  Returns the key and the request as the call
leaves it (the function works on `*dns.Msg`); `none` is a panic. -/
def generateReqKey (lib : Lib) (req : Msg) : Option (String × Msg) :=
  let id := req.Id
  let req := { req with Id := 0 }
  match (if req.Extra.length ≠ 0 then stripCookies req.Extra else some req.Extra) with
  | none => none
  | some extra =>
    let req := { req with Extra := extra }
    let str := lib.msgString req
    let key := toMd5 lib str
    some (key, { req with Id := id })

/-- The text `generateValidationKey` feeds to the hash. -/
def validationKeyText (lib : Lib) (req : Msg) (w : ResponseWriter) : String :=
  let newReq : Msg := { Question := req.Question }
  lib.msgString newReq ++ splitColonHead w.remoteAddr ++ w.network

/-- Source: `generateValidationKey`. -/
def generateValidationKey (lib : Lib) (req : Msg) (w : ResponseWriter) : String :=
  toMd5 lib (validationKeyText lib req w)

/-! ## Name mappers -/

/-- The inner loop of `resolveDomainFromCname`: the first answer whose text
contains `q.Name` gives the question its owner name. -/
def firstAnswerFor (lib : Lib) (q : Question) : List RR → Option Question
  | [] => none
  | a :: rest =>
    if stringsContains (lib.rrString a) q.Name then some { q with Name := a.Header.Name }
    else firstAnswerFor lib q rest

/-- Source: `resolveDomainFromCname`. -/
def resolveDomainFromCname (lib : Lib) (questions : List Question) (answers : List RR) :
    List Question :=
  questions.filterMap (fun q => firstAnswerFor lib q answers)

/-- The inner loop of `resolveCnameFromDomian` for one answer: the answer as the
loop leaves it and whether it was appended to `newAns`; `none` when the type
assertion `(cname).(*dns.CNAME)` fails. -/
def renameAnswer (ans : RR) : List RR → Option (RR × Bool)
  | [] => some (ans, false)
  | cname :: rest =>
    if ans.Header.Name = cname.Header.Name then
      match cname with
      | RR.CNAME _ target => some (ans.setName target, true)
      | _ => none
    else renameAnswer ans rest

/-- Source: `resolveCnameFromDomian`.  The first component is `answers` after the
call (the records are renamed in place), the second the returned `newAns`. -/
def resolveCnameFromDomian : List RR → List RR → Option (List RR × List RR)
  | [], _ => some ([], [])
  | ans :: rest, cnameMap =>
    match renameAnswer ans cnameMap with
    | none => none
    | some (ans', hit) =>
      match resolveCnameFromDomian rest cnameMap with
      | none => none
      | some (out, newAns) => some (ans' :: out, if hit then ans' :: newAns else newAns)

/-! ## Process-wide state -/

/-- Two-complement wrap of an integer to `int64`. -/
def wrapInt64 (x : Int) : Int :=
  (x + 9223372036854775808) % 18446744073709551616 - 9223372036854775808

/-- The expression `time.Second * time.Duration(n)`, in nanoseconds. -/
def secondsDuration (n : Int) : Int :=
  wrapInt64 (1000000000 * n)

/-- The conversion `uint32(n)` of an `int64`. -/
def uint32 (n : Int) : Nat :=
  (n % 4294967296).toNat

/-- The addition `atomic.AddUint64(&counter, delta)`. -/
def AddUint64 (counter delta : Nat) : Nat :=
  (counter + delta) % 18446744073709551616

/-- A cache item: the stored bytes and the duration `Set` was given. -/
structure Item where
  Object : Bytes
  Duration : Int
deriving DecidableEq, Repr

/-- An expiring key-value store (`cache.Cache`), as the list of its live items. -/
structure Cache where
  items : List (String × Item)
deriving DecidableEq, Repr

/-- The lookup `c.Get(k)` followed by the assertion `.([]byte)`. -/
def Cache.Get (c : Cache) (k : String) : Option Bytes :=
  (c.items.lookup k).map Item.Object

/-- The insertion `c.Set(k, x, d)`: replaces the item under `k`. -/
def Cache.Set (c : Cache) (k : String) (x : Bytes) (d : Int) : Cache :=
  { items := (k, { Object := x, Duration := d }) :: c.items.filter (fun e => e.1 != k) }

/-- The package-level variables of `sipahi.go` a request reads and writes. -/
structure Globals where
  respcache : Cache
  validatedcache : Cache
  validitycache : Cache
  totalRequestCount : Nat
  respCacheHitCount : Nat
  valReqCount : Nat
  valErrCount : Nat
  totalDnsQueryCount : Nat
  failedDnsQueryCount : Nat
  resolvedDnsQueryCount : Nat
  nxDomainCount : Nat
  refusedCount : Nat
  totalErrorCount : Nat
deriving DecidableEq, Repr

/-- The flags a request reads, and the upstream list `DNS` built by `init`
(each entry is the pair `dnsData[0]`, `dnsData[1]`: address and protocol). -/
structure Flags where
  ENCACHE : Bool
  ipv6 : Bool
  ttl : Int
  revalidation : Int
  DNS : List (String × String)

/-- The values the handler's variable `err` takes. -/
inductive Err where
  | pack
  | invalidReq (asked stored : Question)
  | exchange (e : String)
  | write
deriving DecidableEq, Repr

/-- How the handler stands: still in the state loop, left by `return`, or left
by a panic caught by the deferred `recover`. -/
inductive Exit where
  | running
  | returned
  | panicked
deriving DecidableEq, Repr

/-- The upstream servers: the result of the `n`-th call `client.Exchange(req, dns)` of
a request, given the client (`"udp"` or `"tcp"`), the address and the query. -/
abbrev Exchange := Nat → String → String → Msg → Except String Msg

/-! ## The request state loop -/

/-- State constant of the source. -/
def FILTER_REQ : Nat := 0
/-- State constant of the source. -/
def PARSE_REQ : Nat := 1
/-- State constant of the source. -/
def RESP_CACHE_CHECK : Nat := 2
/-- State constant of the source. -/
def VALIDATE : Nat := 3
/-- State constant of the source. -/
def VALIDITY_CHECK : Nat := 4
/-- State constant of the source. -/
def PERFORM_DNS : Nat := 5
/-- State constant of the source. -/
def ADD_RESP_CACHE : Nat := 6
/-- State constant of the source. -/
def SEND_RESP : Nat := 7
/-- State constant of the source. -/
def END : Nat := 8

/-- The variables of one run of `proxyServe`: the request, the handler's local
variables, the package-level variables, and what the run did to the outside
(`written`: the arguments of `w.Write`; `upstream`: client, address and query of
every `client.Exchange`). -/
structure Ctx where
  req : Msg
  reqKey : String
  validationKey : String
  m : Option Msg
  err : Option Err
  data : Bytes
  id : Nat
  questions : List Question
  actualQuestion : List Question
  backupAnswer : List RR
  cachedAns : List RR
  answers : List RR
  reqState : Nat
  complete : Bool
  g : Globals
  written : List Bytes
  upstream : List (String × String × Msg)
  exit : Exit

/-- What the challenge loop of `VALIDITY_CHECK` accumulates. -/
structure Challenge where
  questions : List Question
  answers : List RR
  validationNeeded : Bool
deriving DecidableEq, Repr

/-- The sentinel record built for a root question. -/
def aRecord (ttl : Int) (q : Question) : RR :=
  RR.A { Name := q.Name, Rrtype := TypeA, Class := ClassINET, Ttl := uint32 ttl, Rdlength := 0 }
    "10.40.221.132"

/-- The CNAME record built for a non-root question. -/
def cnRecord (ttl : Int) (ldns_key : String) (q : Question) : RR :=
  RR.CNAME { Name := q.Name, Rrtype := TypeCNAME, Class := ClassINET, Ttl := uint32 ttl,
             Rdlength := 0 }
    (ldns_key ++ "." ++ q.Name)

/-- One pass of the loop `for _, q := range req.Question` of `VALIDITY_CHECK`. -/
def challengeStep (ttl : Int) (ldns_key : String) (err : Option Err) (b : Challenge)
    (q : Question) : Challenge :=
  if q.Name = "." then { b with answers := b.answers ++ [aRecord ttl q] }
  else if err.isSome then b
  else
    { questions := b.questions ++ [{ q with Name := ldns_key ++ "." ++ q.Name }],
      answers := b.answers ++ [cnRecord ttl ldns_key q],
      validationNeeded := true }

/-- The loop `for _, q := range req.Question` of `VALIDITY_CHECK`. -/
def challengeLoop (ttl : Int) (ldns_key : String) (err : Option Err) (b : Challenge)
    (qs : List Question) : Challenge :=
  qs.foldl (challengeStep ttl ldns_key err) b

/-- The reply message `m` that `VALIDITY_CHECK` builds from the request and the
answers of the challenge loop. -/
def challengeReply (lib : Lib) (req : Msg) (answers : List RR) : Msg :=
  let m := lib.setReply req
  let m := { m with RecursionAvailable := false, Response := true, Question := [] }
  { m with Answer := answers, Question := req.Question,
           RecursionDesired := req.RecursionDesired, RecursionAvailable := false }

/-- The `switch responseCode` of `PERFORM_DNS`. -/
def classifyRcode (g : Globals) (responseCode : Nat) : Globals :=
  if responseCode = RcodeRefused then
    { g with refusedCount := AddUint64 g.refusedCount 1,
             totalErrorCount := AddUint64 g.totalErrorCount 1 }
  else if responseCode = RcodeNameError then
    { g with nxDomainCount := AddUint64 g.nxDomainCount 1,
             totalErrorCount := AddUint64 g.totalErrorCount 1 }
  else if responseCode = RcodeSuccess then
    { g with resolvedDnsQueryCount := AddUint64 g.resolvedDnsQueryCount 1 }
  else
    { g with totalErrorCount := AddUint64 g.totalErrorCount 1 }

/-- The variables the upstream loop of `PERFORM_DNS` assigns: `m`, `err`, the two query
counters, and the record of the exchanges made. -/
structure Dispatch where
  m : Option Msg
  err : Option Err
  totalDnsQueryCount : Nat
  failedDnsQueryCount : Nat
  upstream : List (String × String × Msg)

/-- The loop `for _, dnsData := range DNS` of `PERFORM_DNS`, sending `req`. -/
def dispatch (x : Exchange) (req : Msg) : List (String × String) → Dispatch → Dispatch
  | [], d => d
  | dnsData :: rest, d =>
    let dns := dnsData.1
    let proto := dnsData.2
    let client := if proto = "tcp" then "tcp" else "udp"
    let n := d.upstream.length
    let d := { d with totalDnsQueryCount := AddUint64 d.totalDnsQueryCount 1,
                      upstream := d.upstream ++ [(client, dns, req)] }
    match x n client dns req with
    | Except.ok r =>
      let d := { d with m := some r, err := none }
      if r.Answer.length > 0 then d
      else dispatch x req rest
        { d with failedDnsQueryCount := AddUint64 d.failedDnsQueryCount 1 }
    | Except.error e =>
      dispatch x req rest
        { d with m := none, err := some (Err.exchange e),
                 failedDnsQueryCount := AddUint64 d.failedDnsQueryCount 1 }

/-- Source: `case END` falling through to `default`. -/
def caseEND (c : Ctx) : Ctx :=
  { c with complete := true }

/-- Source: `case SEND_RESP`. -/
def caseSEND_RESP (w : ResponseWriter) (c : Ctx) : Ctx :=
  caseEND { c with written := c.written ++ [c.data],
                   err := if w.writeFails then some Err.write else none,
                   reqState := END }

/-- Source: `case ADD_RESP_CACHE`. -/
def caseADD_RESP_CACHE (lib : Lib) (cfg : Flags) (w : ResponseWriter) (c : Ctx) : Ctx :=
  if cfg.ENCACHE then
    match c.m with
    | none => { c with exit := Exit.panicked }
    | some m =>
      let m := { m with Id := 0 }
      let cttl : Int :=
        match m.Answer with
        | [] => 0
        | a :: _ => if (a.Header.Ttl : Int) < 0 then 0 else (a.Header.Ttl : Int)
      let m := { m with Question := c.req.Question, Answer := c.backupAnswer }
      match lib.pack m with
      | none => { c with m := some m, reqState := END }
      | some rdata =>
        caseSEND_RESP w
          { c with g := { c.g with respcache := c.g.respcache.Set c.reqKey rdata
                                                 (secondsDuration cttl) },
                   m := some { m with Id := c.id },
                   reqState := SEND_RESP }
  else caseSEND_RESP w { c with reqState := SEND_RESP }

/-- Source: `case PERFORM_DNS`. -/
def casePERFORM_DNS (lib : Lib) (cfg : Flags) (w : ResponseWriter) (x : Exchange)
    (c : Ctx) : Ctx :=
  let c := { c with req := { c.req with RecursionDesired := true, Id := 0 } }
  match generateReqKey lib c.req with
  | none => { c with exit := Exit.panicked }
  | some (key, req) =>
    let c := { c with reqKey := key, req := { req with Id := c.id } }
    let d := dispatch x c.req cfg.DNS
      { m := c.m, err := c.err, totalDnsQueryCount := c.g.totalDnsQueryCount,
        failedDnsQueryCount := c.g.failedDnsQueryCount, upstream := c.upstream }
    let c := { c with m := d.m, err := d.err,
                      g := { c.g with totalDnsQueryCount := d.totalDnsQueryCount,
                                      failedDnsQueryCount := d.failedDnsQueryCount },
                      upstream := d.upstream }
    if c.err.isSome then { c with reqState := END }
    else
      match c.m with
      | none => { c with exit := Exit.panicked }
      | some m =>
        let c := { c with g := classifyRcode c.g m.Rcode }
        let m := { m with RecursionAvailable := false, Question := c.actualQuestion }
        let c := { c with backupAnswer := m.Answer, m := some m }
        match resolveCnameFromDomian m.Answer c.cachedAns with
        | none => { c with exit := Exit.panicked }
        | some (answers, _) =>
          let m := { m with Answer := answers }
          match lib.pack m with
          | none => { c with m := some m, data := [], err := some Err.pack, reqState := END }
          | some data =>
            caseADD_RESP_CACHE lib cfg w
              { c with m := some m, data := data, err := none, reqState := ADD_RESP_CACHE }

/-- Source: `case VALIDITY_CHECK`. -/
def caseVALIDITY_CHECK (lib : Lib) (cfg : Flags) (w : ResponseWriter) (c : Ctx) : Ctx :=
  let c := { c with data := match c.g.validatedcache.Get c.validationKey with
                            | some reply => reply
                            | none => c.data }
  if c.data.length > 0 then { c with reqState := PERFORM_DNS }
  else
    let ldns_key := toMd5 lib (w.remoteAddr ++ w.network)
    let b := challengeLoop cfg.ttl ldns_key c.err
      { questions := [], answers := c.answers, validationNeeded := false } c.req.Question
    let m := challengeReply lib c.req b.answers
    let c := { c with questions := b.questions, answers := b.answers }
    let c :=
      if b.validationNeeded then
        let req := { c.req with Question := b.questions, Answer := b.answers,
                                Opcode := OpcodeQuery, Id := 0 }
        let validationKey := generateValidationKey lib req w
        let req := { req with Id := c.id }
        let data := (lib.pack req).getD []
        { c with req := req, validationKey := validationKey, data := data,
                 g := { c.g with validitycache := c.g.validitycache.Set validationKey data
                                                    (secondsDuration cfg.ttl) } }
      else c
    match lib.pack m with
    | none => { c with data := [], err := some Err.pack, reqState := END }
    | some data => { c with data := data, err := none, reqState := SEND_RESP }

/-- Source: `case VALIDATE`. -/
def caseVALIDATE (lib : Lib) (cfg : Flags) (w : ResponseWriter) (c : Ctx) : Ctx :=
  let c := { c with data := match c.g.validitycache.Get c.validationKey with
                            | some earlierreq => earlierreq
                            | none => c.data }
  if c.data.length = 0 then { c with reqState := VALIDITY_CHECK }
  else
    let m := lib.unpack c.data
    let c := { c with m := some m }
    match c.req.Question.head?, m.Question.head? with
    | some q0, some m0 =>
      if q0 ≠ m0 then
        { c with err := some (Err.invalidReq q0 m0),
                 g := { c.g with valErrCount := AddUint64 c.g.valErrCount 1 },
                 reqState := END }
      else
        let c := { c with actualQuestion := c.actualQuestion ++ c.req.Question,
                          cachedAns := c.cachedAns ++ m.Answer }
        let req := { c.req with Question := resolveDomainFromCname lib c.req.Question m.Answer }
        let validatedRequesterKey := generateValidationKey lib req w
        { c with req := req,
                 g := { c.g with
                        validatedcache := c.g.validatedcache.Set validatedRequesterKey c.data
                                            (secondsDuration cfg.revalidation),
                        valReqCount := AddUint64 c.g.valReqCount 1 },
                 reqState := PERFORM_DNS }
    | _, _ => { c with exit := Exit.panicked }

/-- Source: `case RESP_CACHE_CHECK`. -/
def caseRESP_CACHE_CHECK (lib : Lib) (cfg : Flags) (w : ResponseWriter) (c : Ctx) : Ctx :=
  if cfg.ENCACHE then
    let c := { c with data := match c.g.respcache.Get c.reqKey with
                              | some reply => reply
                              | none => c.data }
    if c.data.length > 0 then
      let m := { lib.unpack c.data with Id := c.id }
      match lib.pack m with
      | none => { c with m := some m, data := [], err := some Err.pack, reqState := END }
      | some data =>
        { c with m := some m, data := data, err := none,
                 g := { c.g with respCacheHitCount := AddUint64 c.g.respCacheHitCount 1 },
                 reqState := SEND_RESP }
    else caseVALIDATE lib cfg w { c with reqState := VALIDATE }
  else caseVALIDATE lib cfg w { c with reqState := VALIDATE }

/-- Source: `case PARSE_REQ`. -/
def casePARSE_REQ (lib : Lib) (cfg : Flags) (w : ResponseWriter) (c : Ctx) : Ctx :=
  let c := { c with id := c.req.Id, req := { c.req with Id := 0 } }
  let c := { c with validationKey := generateValidationKey lib c.req w }
  match generateReqKey lib c.req with
  | none => { c with exit := Exit.panicked }
  | some (key, req) =>
    caseRESP_CACHE_CHECK lib cfg w
      { c with reqKey := key, req := { req with Id := c.id }, reqState := RESP_CACHE_CHECK }

/-- The questions `FILTER_REQ` keeps: all but the AAAA ones unless `-6` is set. -/
def filterQuestions (cfg : Flags) (qs : List Question) : List Question :=
  qs.filter (fun q => q.Qtype != TypeAAAA || cfg.ipv6)

/-- Source: `case FILTER_REQ` (the text list `query` is only printed and is left out). -/
def caseFILTER_REQ (lib : Lib) (cfg : Flags) (w : ResponseWriter) (c : Ctx) : Ctx :=
  if c.req.Response = true then { c with exit := Exit.returned }
  else
    let c := { c with questions := c.questions ++ filterQuestions cfg c.req.Question }
    if c.questions.length = 0 then { c with exit := Exit.returned }
    else
      casePARSE_REQ lib cfg w
        { c with req := { c.req with Question := c.questions }, reqState := PARSE_REQ }

/-- One pass of `for !complete` of `proxyServe`: the `switch reqState` with its
fallthroughs. -/
def iteration (lib : Lib) (cfg : Flags) (w : ResponseWriter) (x : Exchange) (c : Ctx) : Ctx :=
  if c.reqState = FILTER_REQ then caseFILTER_REQ lib cfg w c
  else if c.reqState = PARSE_REQ then casePARSE_REQ lib cfg w c
  else if c.reqState = RESP_CACHE_CHECK then caseRESP_CACHE_CHECK lib cfg w c
  else if c.reqState = VALIDATE then caseVALIDATE lib cfg w c
  else if c.reqState = VALIDITY_CHECK then caseVALIDITY_CHECK lib cfg w c
  else if c.reqState = PERFORM_DNS then casePERFORM_DNS lib cfg w x c
  else if c.reqState = ADD_RESP_CACHE then caseADD_RESP_CACHE lib cfg w c
  else if c.reqState = SEND_RESP then caseSEND_RESP w c
  else if c.reqState = END then caseEND c
  else { c with complete := true }

/-- Whether the handler has left the state loop. -/
def Ctx.finished (c : Ctx) : Bool :=
  c.complete || c.exit != Exit.running

/-- The loop `for !complete` of `proxyServe`, run for at most `fuel` passes. -/
def stateWheel (step : Ctx → Ctx) : Nat → Ctx → Option Ctx
  | 0, c => if c.finished then some c else none
  | fuel + 1, c => if c.finished then some c else stateWheel step fuel (step c)

/-- The variables of `proxyServe` on entry to the state loop. -/
def enter (g : Globals) (req : Msg) : Ctx :=
  { req := req, reqKey := "", validationKey := "", m := none, err := none, data := [],
    id := 0, questions := [], actualQuestion := [], backupAnswer := [], cachedAns := [],
    answers := [], reqState := FILTER_REQ, complete := false,
    g := { g with totalRequestCount := AddUint64 g.totalRequestCount 1 },
    written := [], upstream := [], exit := Exit.running }

/-- Source: `proxyServe`, run with `fuel` passes of the state loop; `none` when
the fuel runs out. -/
def proxyServe (lib : Lib) (cfg : Flags) (w : ResponseWriter) (x : Exchange) (fuel : Nat)
    (g : Globals) (req : Msg) : Option Ctx :=
  stateWheel (iteration lib cfg w x) fuel (enter g req)

/-! ## A concrete library

`stdLib` instantiates `Lib`: MD5 as in RFC 1321, the text layout the DNS package
prints, and a length-prefixed encoding in place of the DNS wire format.  It is used
to run the program on concrete requests. -/

namespace Md5

/-- Per-round left-rotation amounts. -/
def shifts : List Nat :=
  [7, 12, 17, 22, 7, 12, 17, 22, 7, 12, 17, 22, 7, 12, 17, 22,
   5, 9, 14, 20, 5, 9, 14, 20, 5, 9, 14, 20, 5, 9, 14, 20,
   4, 11, 16, 23, 4, 11, 16, 23, 4, 11, 16, 23, 4, 11, 16, 23,
   6, 10, 15, 21, 6, 10, 15, 21, 6, 10, 15, 21, 6, 10, 15, 21]

/-- The constants `floor(2^32 * |sin(i + 1)|)`. -/
def sines : List Nat :=
  [0xd76aa478, 0xe8c7b756, 0x242070db, 0xc1bdceee, 0xf57c0faf, 0x4787c62a, 0xa8304613,
   0xfd469501, 0x698098d8, 0x8b44f7af, 0xffff5bb1, 0x895cd7be, 0x6b901122, 0xfd987193,
   0xa679438e, 0x49b40821, 0xf61e2562, 0xc040b340, 0x265e5a51, 0xe9b6c7aa, 0xd62f105d,
   0x02441453, 0xd8a1e681, 0xe7d3fbc8, 0x21e1cde6, 0xc33707d6, 0xf4d50d87, 0x455a14ed,
   0xa9e3e905, 0xfcefa3f8, 0x676f02d9, 0x8d2a4c8a, 0xfffa3942, 0x8771f681, 0x6d9d6122,
   0xfde5380c, 0xa4beea44, 0x4bdecfa9, 0xf6bb4b60, 0xbebfbc70, 0x289b7ec6, 0xeaa127fa,
   0xd4ef3085, 0x04881d05, 0xd9d4d039, 0xe6db99e5, 0x1fa27cf8, 0xc4ac5665, 0xf4292244,
   0x432aff97, 0xab9423a7, 0xfc93a039, 0x655b59c3, 0x8f0ccc92, 0xffeff47d, 0x85845dd1,
   0x6fa87e4f, 0xfe2ce6e0, 0xa3014314, 0x4e0811a1, 0xf7537e82, 0xbd3af235, 0x2ad7d2bb,
   0xeb86d391]

/-- Reduction to 32 bits. -/
def w32 (x : Nat) : Nat := x % 4294967296

/-- Left rotation of a 32-bit word. -/
def rotl (x c : Nat) : Nat := w32 ((x <<< c) ||| (x >>> (32 - c)))

/-- Bitwise complement of a 32-bit word. -/
def not32 (x : Nat) : Nat := 4294967295 - w32 x

/-- The four chaining words. -/
structure St where
  a : Nat
  b : Nat
  c : Nat
  d : Nat

/-- The round function and the index of the message word of round `i`. -/
def mix (i b c d : Nat) : Nat × Nat :=
  if i < 16 then ((b &&& c) ||| (not32 b &&& d), i)
  else if i < 32 then ((d &&& b) ||| (not32 d &&& c), (5 * i + 1) % 16)
  else if i < 48 then (b ^^^ c ^^^ d, (3 * i + 5) % 16)
  else (c ^^^ (b ||| not32 d), (7 * i) % 16)

/-- Round `i` on the words `ws` of a block. -/
def round (ws : List Nat) (s : St) (i : Nat) : St :=
  let fg := mix i s.b s.c s.d
  let f := w32 (fg.1 + s.a + sines.getD i 0 + ws.getD fg.2 0)
  { a := s.d, d := s.c, c := s.b, b := w32 (s.b + rotl f (shifts.getD i 0)) }

/-- A little-endian word of four bytes. -/
def leWord (bs : List Nat) : Nat :=
  bs.getD 0 0 + 256 * bs.getD 1 0 + 65536 * bs.getD 2 0 + 16777216 * bs.getD 3 0

/-- The sixteen words of a 64-byte block. -/
def blockWords (blk : List Nat) : List Nat :=
  (List.range 16).map (fun j => leWord ((blk.drop (4 * j)).take 4))

/-- The compression of one block. -/
def block (s : St) (blk : List Nat) : St :=
  let t := (List.range 64).foldl (round (blockWords blk)) s
  { a := w32 (s.a + t.a), b := w32 (s.b + t.b), c := w32 (s.c + t.c), d := w32 (s.d + t.d) }

/-- The `n` low bytes of `x`, little-endian. -/
def leBytes (n : Nat) (x : Nat) : List Nat :=
  (List.range n).map (fun j => (x >>> (8 * j)) % 256)

/-- The padded message. -/
def pad (msg : List Nat) : List Nat :=
  msg ++ [128] ++ List.replicate ((119 - msg.length % 64) % 64) 0
    ++ leBytes 8 ((8 * msg.length) % 18446744073709551616)

/-- The compression of `n` consecutive blocks. -/
def blocks : Nat → List Nat → St → St
  | 0, _, s => s
  | n + 1, bs, s => blocks n (bs.drop 64) (block s (bs.take 64))

/-- The 16-byte digest. -/
def sum (msg : List Nat) : List Nat :=
  let p := pad msg
  let s := blocks (p.length / 64) p
    { a := 0x67452301, b := 0xefcdab89, c := 0x98badcfe, d := 0x10325476 }
  leBytes 4 s.a ++ leBytes 4 s.b ++ leBytes 4 s.c ++ leBytes 4 s.d

end Md5

/-- A hexadecimal digit. -/
def hexDigit (n : Nat) : Char :=
  "0123456789abcdef".data.getD n '0'

/-- The text `hex.EncodeToString(bs)`. -/
def hexEncode (bs : List Nat) : String :=
  String.mk (bs.flatMap (fun b => [hexDigit (b / 16), hexDigit (b % 16)]))

/-- The UTF-8 bytes of a character. -/
def utf8 (c : Char) : List Nat :=
  let n := c.toNat
  if n < 128 then [n]
  else if n < 2048 then [192 + n / 64, 128 + n % 64]
  else if n < 65536 then [224 + n / 4096, 128 + (n / 64) % 64, 128 + n % 64]
  else [240 + n / 262144, 128 + (n / 4096) % 64, 128 + (n / 64) % 64, 128 + n % 64]

/-- The bytes `[]byte(s)`. -/
def bytesOf (s : String) : List Nat :=
  s.data.flatMap utf8

/-- The text `hex.EncodeToString(md5(data))`. -/
def stdMd5hex (data : String) : String :=
  hexEncode (Md5.sum (bytesOf data))

/-- The mnemonic of a record type. -/
def typeName (t : Nat) : String :=
  if t = 1 then "A" else if t = 2 then "NS" else if t = 5 then "CNAME"
  else if t = 15 then "MX" else if t = 16 then "TXT" else if t = 28 then "AAAA"
  else if t = 41 then "OPT" else "TYPE" ++ toString t

/-- The mnemonic of a class. -/
def className (c : Nat) : String :=
  if c = 1 then "IN" else "CLASS" ++ toString c

/-- The text of a record header: owner, TTL, class and type, tab-separated. -/
def hdrString (h : RR_Header) : String :=
  (if h.Rrtype = TypeOPT then ";" else "") ++ h.Name ++ "\t" ++ toString h.Ttl ++ "\t"
    ++ className h.Class ++ "\t" ++ typeName h.Rrtype ++ "\t"

/-- The text of an EDNS0 option inside the OPT pseudo-section. -/
def optionString (o : EDNS0) : String :=
  if o.Code = EDNS0COOKIE then "\n; COOKIE: " ++ o.Data
  else "\n; OPTION " ++ toString o.Code ++ ": " ++ o.Data

/-- The text of a record. -/
def stdRrString : RR → String
  | RR.A h a => hdrString h ++ a
  | RR.CNAME h target => hdrString h ++ target
  | RR.OPT h opts =>
    "\n;; OPT PSEUDOSECTION:\n; EDNS: version 0; flags: ; udp: " ++ toString h.Class
      ++ String.join (opts.map optionString)
  | RR.Other h rdata => hdrString h ++ rdata

/-- The text of a question. -/
def questionString (q : Question) : String :=
  ";" ++ q.Name ++ "\t" ++ className q.Qclass ++ "\t" ++ " " ++ typeName q.Qtype

/-- The text of a section: a title followed by one line per entry. -/
def sectionString (title : String) (lines : List String) : String :=
  if lines.length > 0 then "\n;; " ++ title ++ " SECTION:\n"
    ++ String.join (lines.map (fun l => l ++ "\n"))
  else ""

/-- The text of a message: header line, flags, counts, then the four sections. -/
def stdMsgString (m : Msg) : String :=
  ";; opcode: " ++ (if m.Opcode = 0 then "QUERY" else "OPCODE" ++ toString m.Opcode)
    ++ ", status: " ++ (if m.Rcode = 0 then "NOERROR" else if m.Rcode = 3 then "NXDOMAIN"
                        else if m.Rcode = 5 then "REFUSED" else "RCODE" ++ toString m.Rcode)
    ++ ", id: " ++ toString m.Id ++ "\n;; flags:"
    ++ (if m.Response then " qr" else "") ++ (if m.Authoritative then " aa" else "")
    ++ (if m.Truncated then " tc" else "") ++ (if m.RecursionDesired then " rd" else "")
    ++ (if m.RecursionAvailable then " ra" else "") ++ (if m.Zero then " z" else "")
    ++ (if m.AuthenticatedData then " ad" else "")
    ++ (if m.CheckingDisabled then " cd" else "") ++ "; "
    ++ "QUERY: " ++ toString m.Question.length ++ ", ANSWER: " ++ toString m.Answer.length
    ++ ", AUTHORITY: " ++ toString m.Ns.length ++ ", ADDITIONAL: "
    ++ toString m.Extra.length ++ "\n"
    ++ sectionString "QUESTION" (m.Question.map questionString)
    ++ sectionString "ANSWER" (m.Answer.map stdRrString)
    ++ sectionString "AUTHORITY" (m.Ns.map stdRrString)
    ++ sectionString "ADDITIONAL" (m.Extra.map stdRrString)

/-- Encoding of a text: its length, then its characters. -/
def encStr (s : String) : Bytes :=
  s.length :: s.data.map Char.toNat

/-- Decoding of a text, with the remaining input. -/
def decStr : Bytes → String × Bytes
  | [] => ("", [])
  | n :: t => (String.mk ((t.take n).map Char.ofNat), t.drop n)

/-- Encoding of a flag. -/
def encBool (b : Bool) : Nat := if b then 1 else 0

/-- Encoding of a question. -/
def encQuestion (q : Question) : Bytes :=
  encStr q.Name ++ [q.Qtype, q.Qclass]

/-- Decoding of a question. -/
def decQuestion (bs : Bytes) : Question × Bytes :=
  let r := decStr bs
  ({ Name := r.1, Qtype := r.2.getD 0 0, Qclass := r.2.getD 1 0 }, r.2.drop 2)

/-- Encoding of a record header. -/
def encHdr (h : RR_Header) : Bytes :=
  encStr h.Name ++ [h.Rrtype, h.Class, h.Ttl, h.Rdlength]

/-- Decoding of a record header. -/
def decHdr (bs : Bytes) : RR_Header × Bytes :=
  let r := decStr bs
  ({ Name := r.1, Rrtype := r.2.getD 0 0, Class := r.2.getD 1 0, Ttl := r.2.getD 2 0,
     Rdlength := r.2.getD 3 0 }, r.2.drop 4)

/-- Decoding of `n` consecutive items. -/
def decMany {α : Type} (dec : Bytes → α × Bytes) : Nat → Bytes → List α × Bytes
  | 0, bs => ([], bs)
  | n + 1, bs =>
    let r := dec bs
    let rs := decMany dec n r.2
    (r.1 :: rs.1, rs.2)

/-- Encoding of an EDNS0 option. -/
def encOption (o : EDNS0) : Bytes :=
  o.Code :: encStr o.Data

/-- Decoding of an EDNS0 option. -/
def decOption : Bytes → EDNS0 × Bytes
  | [] => ({ Code := 0, Data := "" }, [])
  | code :: t => let r := decStr t; ({ Code := code, Data := r.1 }, r.2)

/-- Encoding of a record: a tag for the dynamic type, the header, the data. -/
def encRR : RR → Bytes
  | RR.A h a => 0 :: encHdr h ++ encStr a
  | RR.CNAME h target => 1 :: encHdr h ++ encStr target
  | RR.OPT h opts => 2 :: encHdr h ++ (opts.length :: opts.flatMap encOption)
  | RR.Other h rdata => 3 :: encHdr h ++ encStr rdata

/-- Decoding of a record. -/
def decRR : Bytes → RR × Bytes
  | [] => (RR.Other { Name := "", Rrtype := 0, Class := 0, Ttl := 0, Rdlength := 0 } "", [])
  | tag :: t =>
    let h := decHdr t
    if tag = 0 then let r := decStr h.2; (RR.A h.1 r.1, r.2)
    else if tag = 1 then let r := decStr h.2; (RR.CNAME h.1 r.1, r.2)
    else if tag = 2 then
      let r := decMany decOption (h.2.getD 0 0) (h.2.drop 1)
      (RR.OPT h.1 r.1, r.2)
    else let r := decStr h.2; (RR.Other h.1 r.1, r.2)

/-- Encoding of a message. -/
def encMsg (m : Msg) : Bytes :=
  [m.Id, encBool m.Response, m.Opcode, encBool m.Authoritative, encBool m.Truncated,
   encBool m.RecursionDesired, encBool m.RecursionAvailable, encBool m.Zero,
   encBool m.AuthenticatedData, encBool m.CheckingDisabled, m.Rcode]
    ++ (m.Question.length :: m.Question.flatMap encQuestion)
    ++ (m.Answer.length :: m.Answer.flatMap encRR)
    ++ (m.Ns.length :: m.Ns.flatMap encRR)
    ++ (m.Extra.length :: m.Extra.flatMap encRR)

/-- Decoding of a message; input that is too short decodes to default fields. -/
def stdUnpack (bs : Bytes) : Msg :=
  let qs := decMany decQuestion (bs.getD 11 0) (bs.drop 12)
  let an := decMany decRR (qs.2.getD 0 0) (qs.2.drop 1)
  let ns := decMany decRR (an.2.getD 0 0) (an.2.drop 1)
  let ex := decMany decRR (ns.2.getD 0 0) (ns.2.drop 1)
  { Id := bs.getD 0 0, Response := bs.getD 1 0 != 0, Opcode := bs.getD 2 0,
    Authoritative := bs.getD 3 0 != 0, Truncated := bs.getD 4 0 != 0,
    RecursionDesired := bs.getD 5 0 != 0, RecursionAvailable := bs.getD 6 0 != 0,
    Zero := bs.getD 7 0 != 0, AuthenticatedData := bs.getD 8 0 != 0,
    CheckingDisabled := bs.getD 9 0 != 0, Rcode := bs.getD 10 0,
    Question := qs.1, Answer := an.1, Ns := ns.1, Extra := ex.1 }

/-- The names a message carries: of its questions and of its records. -/
def msgNames (m : Msg) : List String :=
  m.Question.map Question.Name
    ++ (m.Answer ++ m.Ns ++ m.Extra).flatMap
      (fun r => match r with
        | RR.CNAME h target => [h.Name, target]
        | other => [other.Header.Name])

/-- Packing fails on a name longer than 255 characters, as the wire format does. -/
def stdPack (m : Msg) : Option Bytes :=
  if (msgNames m).all (fun n => n.length ≤ 255) then some (encMsg m) else none

/-- The reply skeleton `SetReply` builds from a request. -/
def stdSetReply (request : Msg) : Msg :=
  let m : Msg := { Id := request.Id, Response := true, Opcode := request.Opcode,
                   Rcode := RcodeSuccess }
  let m := if m.Opcode = OpcodeQuery then
      { m with RecursionDesired := request.RecursionDesired,
               CheckingDisabled := request.CheckingDisabled }
    else m
  match request.Question with
  | [] => m
  | q :: _ => { m with Question := [q] }

/-- The concrete library. -/
def stdLib : Lib :=
  { md5hex := stdMd5hex, msgString := stdMsgString, rrString := stdRrString,
    pack := stdPack, unpack := stdUnpack, setReply := stdSetReply }

/-! ## Concrete requests

The data of the end-to-end scenarios: one client, the default flags, one upstream that
answers every question with an A record. -/

/-- The client `192.0.2.1`, source port 5353, over UDP. -/
def exClient : ResponseWriter :=
  { remoteAddr := "192.0.2.1:5353", network := "udp" }

/-- The default flags with one upstream. -/
def exFlags : Flags :=
  { ENCACHE := true, ipv6 := false, ttl := 1800, revalidation := 1800,
    DNS := [("8.8.8.8:53", "udp")] }

/-- An upstream that answers each question with the address `93.184.216.34`, TTL 300. -/
def exUpstream : Exchange :=
  fun _ _ _ req => Except.ok
    { req with Response := true, RecursionAvailable := true,
               Answer := req.Question.map (fun q =>
                 RR.A { Name := q.Name, Rrtype := TypeA, Class := ClassINET, Ttl := 300,
                        Rdlength := 4 } "93.184.216.34") }

/-- Empty caches and zero counters. -/
def exGlobals : Globals :=
  { respcache := { items := [] }, validatedcache := { items := [] },
    validitycache := { items := [] }, totalRequestCount := 0, respCacheHitCount := 0,
    valReqCount := 0, valErrCount := 0, totalDnsQueryCount := 0, failedDnsQueryCount := 0,
    resolvedDnsQueryCount := 0, nxDomainCount := 0, refusedCount := 0, totalErrorCount := 0 }

/-- The question `A example.com.`. -/
def exQuestion : Question :=
  { Name := "example.com.", Qtype := TypeA, Qclass := ClassINET }

/-- The LDNS key of `exClient`: the MD5 of `192.0.2.1:5353udp`. -/
def exKey : String := "85462a1336ecece9460a1f47828ccf6e"

/-- Upstream answers for `example.com.` and `other.net.`. -/
def exAnswers : List RR :=
  [RR.A { Name := "example.com.", Rrtype := TypeA, Class := ClassINET, Ttl := 300,
          Rdlength := 4 } "93.184.216.34",
   RR.A { Name := "other.net.", Rrtype := TypeA, Class := ClassINET, Ttl := 300,
          Rdlength := 4 } "198.51.100.7"]

/-! ## Vocabulary of the statements -/

/-- Whether an EDNS0 option is a COOKIE option. -/
def EDNS0.isCookie (o : EDNS0) : Bool :=
  o.Code == EDNS0COOKIE

/-- A record as the parser of the DNS package builds it: its header says OPT exactly when
its dynamic type is `*dns.OPT`. -/
def RR.wellTyped (r : RR) : Bool :=
  decide (r.Header.Rrtype = TypeOPT) == r.isOPT

/-- A message whose additional records are all well typed. -/
def Msg.wellTyped (m : Msg) : Bool :=
  m.Extra.all RR.wellTyped

/-- A record with the first COOKIE option of an OPT record removed. -/
def RR.eraseFirstCookie : RR → RR
  | RR.OPT h opts => RR.OPT h (opts.eraseP EDNS0.isCookie)
  | r => r

/-- A record with every COOKIE option of an OPT record removed. -/
def RR.withoutCookies : RR → RR
  | RR.OPT h opts => RR.OPT h (opts.filter (fun o => !o.isCookie))
  | r => r

/-- A message with its ID zeroed and every EDNS0 COOKIE option removed. -/
def Msg.withoutIdAndCookies (m : Msg) : Msg :=
  { m with Id := 0, Extra := m.Extra.map RR.withoutCookies }

/-- Two messages that are identical except for their ID and their EDNS0 COOKIE options. -/
def identicalUpToIdAndCookies (q q' : Msg) : Prop :=
  q.withoutIdAndCookies = q'.withoutIdAndCookies

/-- A message in which every OPT record carries at most one COOKIE option. -/
def Msg.singleCookie (m : Msg) : Bool :=
  m.Extra.all (fun r => match r with
    | RR.OPT _ opts => decide ((opts.filter EDNS0.isCookie).length ≤ 1)
    | _ => true)

/-- The header of an OPT record announcing a 4096-byte UDP payload. -/
def exOptHdr : RR_Header :=
  { Name := ".", Rrtype := TypeOPT, Class := 4096, Ttl := 0, Rdlength := 12 }

/-- A COOKIE option. -/
def exCookie : EDNS0 :=
  { Code := EDNS0COOKIE, Data := "24a5ac4f2b1c3d4e" }

/-- A query for `A example.com.` carrying one COOKIE option. -/
def exCookieQuery : Msg :=
  { Id := 4660, RecursionDesired := true, Question := [exQuestion],
    Extra := [RR.OPT exOptHdr [exCookie]] }

/-- The same query carrying two COOKIE options in its OPT record. -/
def exTwoCookieQuery : Msg :=
  { Id := 4660, RecursionDesired := true, Question := [exQuestion],
    Extra := [RR.OPT exOptHdr [exCookie, { Code := EDNS0COOKIE, Data := "24ffffffffffffff" }]] }

/-- The same query with another ID and no COOKIE option. -/
def exNoCookieQuery : Msg :=
  { Id := 9, RecursionDesired := true, Question := [exQuestion],
    Extra := [RR.OPT exOptHdr []] }

/-- An IPv6 client, `2001:db8::1`, source port 5353, over UDP. -/
def exClientV6a : ResponseWriter :=
  { remoteAddr := "[2001:db8::1]:5353", network := "udp" }

/-- Another IPv6 client, `2001:db8::2`, source port 5353, over UDP. -/
def exClientV6b : ResponseWriter :=
  { remoteAddr := "[2001:db8::2]:5353", network := "udp" }

/-- The questions `A example.com.uk.` and `A example.com.`. -/
def exPrefixQuestions : List Question :=
  [{ Name := "example.com.uk.", Qtype := TypeA, Qclass := ClassINET },
   { Name := "example.com.", Qtype := TypeA, Qclass := ClassINET }]

/-- The LDNS key of a client: the value of `ldns_key` in `VALIDITY_CHECK`. -/
def ldnsKey (lib : Lib) (w : ResponseWriter) : String :=
  toMd5 lib (w.remoteAddr ++ w.network)

/-- The expected follow-up question of a challenged question: its name replaced by the
CNAME target. -/
def challengeQuestion (ldns_key : String) (q : Question) : Question :=
  { q with Name := ldns_key ++ "." ++ q.Name }

/-- The answer record the challenge loop builds for a question. -/
def challengeRecord (ttl : Int) (ldns_key : String) (q : Question) : RR :=
  if q.Name = "." then aRecord ttl q else cnRecord ttl ldns_key q

/-- The empty accumulator of the challenge loop. -/
def noChallenge : Challenge :=
  { questions := [], answers := [], validationNeeded := false }

/-- The request as `FILTER_REQ` and `PARSE_REQ` leave it: the questions filtered and the
first COOKIE option of each OPT record removed. -/
def parsedReq (cfg : Flags) (req : Msg) : Msg :=
  { req with Question := filterQuestions cfg req.Question,
             Extra := req.Extra.map RR.eraseFirstCookie }

/-- The request key `PARSE_REQ` computes. -/
def parsedReqKey (lib : Lib) (cfg : Flags) (req : Msg) : String :=
  toMd5 lib (lib.msgString { parsedReq cfg req with Id := 0 })

/-- The validation key `PARSE_REQ` computes. -/
def parsedValidationKey (lib : Lib) (cfg : Flags) (w : ResponseWriter) (req : Msg) : String :=
  generateValidationKey lib (parsedReq cfg req) w

/-- The bytes a lookup leaves in `data` when `data` was empty: empty for an absent key. -/
def Cache.bytes (c : Cache) (k : String) : Bytes :=
  (c.Get k).getD []

/-- The variables of the handler after a first pass that missed the response cache and
found no pending challenge: the state is `VALIDITY_CHECK`. -/
def afterParse (lib : Lib) (cfg : Flags) (w : ResponseWriter) (g : Globals) (req : Msg) : Ctx :=
  { enter g req with
    req := parsedReq cfg req,
    reqKey := parsedReqKey lib cfg req,
    validationKey := parsedValidationKey lib cfg w req,
    id := req.Id,
    questions := filterQuestions cfg req.Question,
    reqState := VALIDITY_CHECK }

/-- The outcome of the challenge loop for a request from client `w`. -/
def challengeOf (lib : Lib) (cfg : Flags) (w : ResponseWriter) (req : Msg) : Challenge :=
  challengeLoop cfg.ttl (ldnsKey lib w) none noChallenge (filterQuestions cfg req.Question)

/-- The message `VALIDITY_CHECK` packs for the pending-challenge cache: the request with the
follow-up questions as its questions and the challenge answers as its answers. -/
def pendingMsg (lib : Lib) (cfg : Flags) (w : ResponseWriter) (req : Msg) : Msg :=
  { parsedReq cfg req with
    Question := (challengeOf lib cfg w req).questions,
    Answer := (challengeOf lib cfg w req).answers,
    Opcode := OpcodeQuery }

/-- The key under which `VALIDITY_CHECK` stores the pending challenge. -/
def pendingKey (lib : Lib) (cfg : Flags) (w : ResponseWriter) (req : Msg) : String :=
  generateValidationKey lib (pendingMsg lib cfg w req) w

/-- The challenge reply `VALIDITY_CHECK` packs for the client. -/
def replyOf (lib : Lib) (cfg : Flags) (w : ResponseWriter) (req : Msg) : Msg :=
  challengeReply lib (parsedReq cfg req) (challengeOf lib cfg w req).answers

/-- A query with two questions of the same name: `A example.com.` and `MX example.com.`. -/
def exTwoTypeQuery : Msg :=
  { Id := 7, RecursionDesired := true,
    Question := [exQuestion, { Name := "example.com.", Qtype := 15, Qclass := ClassINET }] }

/-- A query with a root question and a non-root question: `A .` and `A example.com.`. -/
def exMixedQuery : Msg :=
  { Id := 8, RecursionDesired := true,
    Question := [{ Name := ".", Qtype := TypeA, Qclass := ClassINET }, exQuestion] }

/-- The query `A example.com.`. -/
def exQuery : Msg :=
  { Id := 7, RecursionDesired := true, Question := [exQuestion] }

/-- The empty caches with one validated-client entry for `exClient` and `A example.com.`. -/
def exValidatedGlobals : Globals :=
  { exGlobals with
    validatedcache := exGlobals.validatedcache.Set
      (parsedValidationKey stdLib exFlags exClient exQuery) [1] (secondsDuration 1800) }

/-- The same client as `exClient` on another source port. -/
def exClientOtherPort : ResponseWriter :=
  { remoteAddr := "192.0.2.1:40000", network := "udp" }

/-- The process-wide state after `exClient` was challenged for `exQuery`. -/
def exChallengedGlobals : Globals :=
  ((proxyServe stdLib exFlags exClient exUpstream 3 exGlobals exQuery).map Ctx.g).getD exGlobals

/-- The follow-up query: the expected follow-up questions of `exQuery`. -/
def exFollowUp : Msg :=
  { Id := 21, RecursionDesired := true,
    Question := (challengeOf stdLib exFlags exClient exQuery).questions }

/-- The bytes stored in the pending-challenge cache for `exQuery`. -/
def exPendingBytes : Bytes :=
  (stdLib.pack (pendingMsg stdLib exFlags exClient exQuery)).getD []

/-- The process-wide state after the follow-up query of `exClient` was served. -/
def exFollowedGlobals : Globals :=
  ((proxyServe stdLib exFlags exClient exUpstream 4 exChallengedGlobals exFollowUp).map
    Ctx.g).getD exChallengedGlobals

/-- The query `A other.com.`. -/
def exOtherQuery : Msg :=
  { Id := 22, RecursionDesired := true,
    Question := [{ Name := "other.com.", Qtype := TypeA, Qclass := ClassINET }] }

/-- The query `A example.com.` once more, without the recursion-desired flag. -/
def exRepeatQuery : Msg :=
  { Id := 23, RecursionDesired := false, Question := [exQuestion] }

/-- The query `AAAA example.com.`. -/
def exV6Query : Msg :=
  { Id := 31, RecursionDesired := true,
    Question := [{ Name := "example.com.", Qtype := TypeAAAA, Qclass := ClassINET }] }

/-- A cached answer for `A example.com.`, as stored with ID 0. -/
def exCachedMsg : Msg :=
  { Id := 0, Response := true, RecursionDesired := true,
    Question := [exQuestion],
    Answer := [RR.A { Name := "example.com.", Rrtype := TypeA, Class := ClassINET, Ttl := 300,
                      Rdlength := 4 } "93.184.216.34"] }

/-- Empty caches except for a response-cache entry under the request key of `exQuery`. -/
def exCachedGlobals : Globals :=
  { exGlobals with
    respcache := exGlobals.respcache.Set (parsedReqKey stdLib exFlags exQuery)
      ((stdLib.pack exCachedMsg).getD []) (secondsDuration 300) }

/-- A pending-challenge message whose first question is `A other.com.`. -/
def exOtherPending : Msg :=
  { Id := 5, Question := [{ Name := "other.com.", Qtype := TypeA, Qclass := ClassINET }] }

/-- Empty caches except for a pending-challenge entry, under the validation key of `exQuery`
from `exClient`, whose first question is not the one of `exQuery`. -/
def exMismatchGlobals : Globals :=
  { exGlobals with
    validitycache := exGlobals.validitycache.Set
      (parsedValidationKey stdLib exFlags exClient exQuery)
      ((stdLib.pack exOtherPending).getD []) (secondsDuration 1800) }

/-- The state `exMismatchGlobals` with a response-cache entry for `exQuery` as well. -/
def exMismatchCachedGlobals : Globals :=
  { exMismatchGlobals with respcache := exCachedGlobals.respcache }

/-- The root query `A .`. -/
def exRootQuery : Msg :=
  { Id := 41, RecursionDesired := true,
    Question := [{ Name := ".", Qtype := TypeA, Qclass := ClassINET }] }

/-- The record `dispatch` keeps of the exchange with one endpoint: the client (`"tcp"` for a
`tcp` endpoint, `"udp"` otherwise), the address and the query. -/
def exchangeLog (req : Msg) (dnsData : String × String) : String × String × Msg :=
  (if dnsData.2 = "tcp" then "tcp" else "udp", dnsData.1, req)

/-- The result of the `n`-th exchange of a request when it goes to the endpoint `dnsData`. -/
def attemptReply (x : Exchange) (req : Msg) (n : Nat) (dnsData : String × String) :
    Except String Msg :=
  x n (if dnsData.2 = "tcp" then "tcp" else "udp") dnsData.1 req

/-- A failing attempt: a transport error, or a reply with an empty Answer section. -/
def attemptFails (x : Exchange) (req : Msg) (n : Nat) (dnsData : String × String) : Bool :=
  match attemptReply x req n dnsData with
  | Except.ok r => r.Answer.length == 0
  | Except.error _ => true

/-- Two upstreams, the second over TCP. -/
def exTwoUpstreams : List (String × String) :=
  [("8.8.8.8:53", "udp"), ("8.8.4.4:53", "tcp")]

/-- An upstream whose first exchange of a request times out and whose later exchanges answer
each question with the address `93.184.216.34`. -/
def exSecondAnswers : Exchange :=
  fun n client addr req =>
    if n = 0 then Except.error "i/o timeout" else exUpstream n client addr req

/-- An upstream whose every exchange times out. -/
def exTimeout : Exchange :=
  fun _ _ _ _ => Except.error "i/o timeout"

/-- The variables of the upstream loop at the start of a request. -/
def exDispatch : Dispatch :=
  { m := none, err := none, totalDnsQueryCount := 0, failedDnsQueryCount := 0, upstream := [] }

/-- The variables of the upstream loop on entry to `PERFORM_DNS`. -/
def loopEntry (c : Ctx) : Dispatch :=
  { m := c.m, err := c.err, totalDnsQueryCount := c.g.totalDnsQueryCount,
    failedDnsQueryCount := c.g.failedDnsQueryCount, upstream := c.upstream }

/-- The value `ADD_RESP_CACHE` gives `cttl`: the TTL of the first answer, 0 without one. -/
def firstTtl (answers : List RR) : Int :=
  match answers with
  | [] => 0
  | a :: _ => if (a.Header.Ttl : Int) < 0 then 0 else (a.Header.Ttl : Int)

/-- The message `PERFORM_DNS` packs for the client: the upstream reply `up` with recursion
not available, the questions `actualQuestion` and the answers as the CNAME rewrite leaves
them. -/
def clientReply (up : Msg) (actualQuestion : List Question) (answers : List RR) : Msg :=
  { up with RecursionAvailable := false, Question := actualQuestion, Answer := answers }

/-- The message `ADD_RESP_CACHE` packs for the response cache: the upstream reply `up` with
ID 0, recursion not available, the questions of the outgoing query and the answers as
received. -/
def cacheMsg (up : Msg) (questions : List Question) : Msg :=
  { up with Id := 0, RecursionAvailable := false, Question := questions }

/-- The upstream loop's variables agree with the last exchange on record: `m` is its reply
and `err` is nil when it returned a reply, `m` is nil and `err` its error otherwise. -/
def Dispatch.reflectsLast (x : Exchange) (req : Msg) (d : Dispatch) : Prop :=
  ∃ client addr, d.upstream.getLast? = some (client, addr, req)
    ∧ (∀ r, x (d.upstream.length - 1) client addr req = Except.ok r →
        d.m = some r ∧ d.err = none)
    ∧ (∀ e, x (d.upstream.length - 1) client addr req = Except.error e →
        d.m = none ∧ d.err = some (Err.exchange e))

/-- Nothing of the upstream side has changed between two points of a request: the response
cache, the record of exchanges and the six query counters. -/
def Ctx.sameUpstream (c c' : Ctx) : Prop :=
  c'.g.respcache = c.g.respcache
    ∧ c'.upstream = c.upstream
    ∧ c'.g.totalDnsQueryCount = c.g.totalDnsQueryCount
    ∧ c'.g.failedDnsQueryCount = c.g.failedDnsQueryCount
    ∧ c'.g.resolvedDnsQueryCount = c.g.resolvedDnsQueryCount
    ∧ c'.g.nxDomainCount = c.g.nxDomainCount
    ∧ c'.g.refusedCount = c.g.refusedCount
    ∧ c'.g.totalErrorCount = c.g.totalErrorCount

/-- An upstream whose every exchange returns a reply with an empty Answer section and no
transport error. -/
def exNoData : Exchange :=
  fun _ _ _ req =>
    Except.ok { req with Response := true, RecursionAvailable := true, Answer := [] }

/-- An upstream whose every exchange returns NXDOMAIN: no answers, response code 3. -/
def exNxDomain : Exchange :=
  fun _ _ _ req =>
    Except.ok { req with Response := true, RecursionAvailable := true,
                         Rcode := RcodeNameError, Answer := [] }

/-- An upstream whose every exchange returns REFUSED: no answers, response code 5. -/
def exRefused : Exchange :=
  fun _ _ _ req =>
    Except.ok { req with Response := true, RecursionAvailable := true,
                         Rcode := RcodeRefused, Answer := [] }

/-- The query `A example.com.` without the recursion-desired flag. -/
def exNoRdQuery : Msg :=
  { Id := 7, RecursionDesired := false, Question := [exQuestion] }

/-- The process-wide state after the validated client `exClient` was served `exNoRdQuery`. -/
def exNoRdServedGlobals : Globals :=
  ((proxyServe stdLib exFlags exClient exUpstream 4 exValidatedGlobals exNoRdQuery).map
    Ctx.g).getD exValidatedGlobals

/-- The flags of `exFlags` with the challenge TTL flag set to `-1`. -/
def exNegTtlFlags : Flags :=
  { exFlags with ttl := -1 }

/-! # Theorems -/

/-! ## The name mappers -/

theorem renameAnswer_no_match (ans : RR) (cnameMap : List RR)
    (h : ∀ c ∈ cnameMap, c.Header.Name ≠ ans.Header.Name) :
    renameAnswer ans cnameMap = some (ans, false) := by
  induction cnameMap with
  | nil => rfl
  | cons c rest ih =>
    have hc : ¬ ans.Header.Name = c.Header.Name := fun e => h c (List.mem_cons_self _ _) e.symm
    simp only [renameAnswer, hc, if_false]
    exact ih (fun d hd => h d (List.mem_cons_of_mem _ hd))

theorem renameAnswer_first_match (ans : RR) (pre post : List RR) (hdr : RR_Header)
    (target : String) (hname : hdr.Name = ans.Header.Name)
    (h : ∀ c ∈ pre, c.Header.Name ≠ ans.Header.Name) :
    renameAnswer ans (pre ++ RR.CNAME hdr target :: post) = some (ans.setName target, true) := by
  induction pre with
  | nil => simp [renameAnswer, RR.Header, hname]
  | cons c rest ih =>
    have hc : ¬ ans.Header.Name = c.Header.Name := fun e => h c (List.mem_cons_self _ _) e.symm
    simp only [List.cons_append, renameAnswer, hc, if_false]
    exact ih (fun d hd => h d (List.mem_cons_of_mem _ hd))

theorem renameAnswer_total (ans : RR) (cnameMap : List RR)
    (hc : ∀ c ∈ cnameMap, c.isCNAME = true) :
    ∃ r, renameAnswer ans cnameMap = some r := by
  induction cnameMap with
  | nil => exact ⟨_, rfl⟩
  | cons c rest ih =>
    by_cases hn : ans.Header.Name = c.Header.Name
    · have hcc := hc c (List.mem_cons_self _ _)
      cases c <;> simp [RR.isCNAME] at hcc
      simp [renameAnswer, hn]
    · simp only [renameAnswer, hn, if_false]
      exact ih (fun d hd => hc d (List.mem_cons_of_mem _ hd))

theorem resolveCnameFromDomian_forall₂ (answers cnameMap : List RR)
    (hc : ∀ c ∈ cnameMap, c.isCNAME = true) :
    ∃ out newAns, resolveCnameFromDomian answers cnameMap = some (out, newAns)
      ∧ List.Forall₂ (fun a o => ∃ hit, renameAnswer a cnameMap = some (o, hit)) answers out := by
  induction answers with
  | nil => exact ⟨[], [], rfl, List.Forall₂.nil⟩
  | cons a rest ih =>
    obtain ⟨out, newAns, hr, hf⟩ := ih
    obtain ⟨⟨o, hit⟩, ho⟩ := renameAnswer_total a cnameMap hc
    refine ⟨o :: out, if hit then o :: newAns else newAns, ?_, List.Forall₂.cons ⟨hit, ho⟩ hf⟩
    simp [resolveCnameFromDomian, ho, hr]

/-- C4. `resolveCnameFromDomian`, applied to upstream answers with a list of CNAME records,
returns (does not panic) and leaves an answer list `out` of the same length and order:
an answer whose owner name is the owner of some CNAME of the list carries the target of the
first such CNAME as its owner name, every other answer is unchanged; with an empty list
all answers are unchanged. -/
theorem resolveCnameFromDomian_rewrites (answers cnameMap : List RR)
    (hc : ∀ c ∈ cnameMap, c.isCNAME = true) :
    ∃ out newAns, resolveCnameFromDomian answers cnameMap = some (out, newAns)
      ∧ out.length = answers.length
      ∧ (∀ (i : Nat) (a : RR), answers[i]? = some a →
          (∀ c ∈ cnameMap, c.Header.Name ≠ a.Header.Name) → out[i]? = some a)
      ∧ (∀ (i : Nat) (a : RR) (pre post : List RR) (hdr : RR_Header) (target : String), answers[i]? = some a →
          cnameMap = pre ++ RR.CNAME hdr target :: post → hdr.Name = a.Header.Name →
          (∀ c ∈ pre, c.Header.Name ≠ a.Header.Name) → out[i]? = some (a.setName target))
      ∧ (cnameMap = [] → out = answers) := by
  obtain ⟨out, newAns, hr, hf⟩ := resolveCnameFromDomian_forall₂ answers cnameMap hc
  have hlen : out.length = answers.length := hf.length_eq.symm
  have key : ∀ (i : Nat) (a : RR), answers[i]? = some a →
      ∃ o hit, out[i]? = some o ∧ renameAnswer a cnameMap = some (o, hit) := by
    intro i a hi
    have hlt : i < answers.length := by
      rcases Nat.lt_or_ge i answers.length with h | h
      · exact h
      · rw [List.getElem?_eq_none h] at hi; cases hi
    have hlt' : i < out.length := hlen ▸ hlt
    have := List.Forall₂.get hf hlt hlt'
    obtain ⟨hit, hh⟩ := this
    have ha : answers[i] = a := by
      rw [List.getElem?_eq_getElem hlt] at hi; exact Option.some.inj hi
    refine ⟨out[i], hit, List.getElem?_eq_getElem hlt', ?_⟩
    simpa [List.get_eq_getElem, ha] using hh
  refine ⟨out, newAns, hr, hlen, ?_, ?_, ?_⟩
  · intro i a hi hno
    obtain ⟨o, hit, ho, hren⟩ := key i a hi
    rw [renameAnswer_no_match a cnameMap hno] at hren
    cases hren; exact ho
  · intro i a pre post hdr target hi hcm hname hno
    obtain ⟨o, hit, ho, hren⟩ := key i a hi
    rw [hcm, renameAnswer_first_match a pre post hdr target hname hno] at hren
    cases hren; exact ho
  · intro he
    subst he
    apply List.ext_getElem? 
    intro i
    cases hi : answers[i]? with
    | none =>
      have : answers.length ≤ i := by
        rcases Nat.lt_or_ge i answers.length with h | h
        · rw [List.getElem?_eq_getElem h] at hi; cases hi
        · exact h
      exact List.getElem?_eq_none (hlen ▸ this)
    | some a =>
      obtain ⟨o, hit, ho, hren⟩ := key i a hi
      simp [renameAnswer] at hren
      rw [ho, hren.1]


theorem resolveCnameFromDomian_rewrites_witness :
    (∀ c ∈ [cnRecord 1800 exKey exQuestion], c.isCNAME = true)
      ∧ ∃ out newAns,
          resolveCnameFromDomian exAnswers [cnRecord 1800 exKey exQuestion] = some (out, newAns)
          ∧ out.length = exAnswers.length :=
  ⟨by decide,
   (resolveCnameFromDomian_rewrites exAnswers [cnRecord 1800 exKey exQuestion]
      (by decide)).imp
     (fun _ h => h.imp (fun _ h' => ⟨h'.1, h'.2.1⟩))⟩

/-! ## The request key -/

theorem cookiePos_shift (opts : List EDNS0) (pos : Nat) :
    cookiePos opts pos = (cookiePos opts 0).map (fun p => p + pos) := by
  induction opts generalizing pos with
  | nil => rfl
  | cons o rest ih =>
    by_cases h : o.Code = EDNS0COOKIE
    · simp [cookiePos, h]
    · simp only [cookiePos, h, if_false]
      rw [ih (pos + 1), ih (0 + 1)]
      cases cookiePos rest 0 <;> simp [Nat.add_comm, Nat.add_left_comm]

theorem stripCookie_cons (o : EDNS0) (rest : List EDNS0) :
    stripCookie (o :: rest) = if o.isCookie then rest else o :: stripCookie rest := by
  by_cases h : o.Code = EDNS0COOKIE
  · simp [stripCookie, cookiePos, h, EDNS0.isCookie]
  · have hb : o.isCookie = false := by simp [EDNS0.isCookie, h]
    simp only [stripCookie, cookiePos, h, if_false, hb]
    rw [cookiePos_shift rest (0 + 1)]
    cases cookiePos rest 0 <;> simp

theorem stripCookie_eq_eraseP (opts : List EDNS0) :
    stripCookie opts = opts.eraseP EDNS0.isCookie := by
  induction opts with
  | nil => rfl
  | cons o rest ih =>
    rw [stripCookie_cons, List.eraseP_cons, ih]
    cases o.isCookie <;> simp

theorem eraseP_eq_filter_of_single (opts : List EDNS0)
    (h : (opts.filter EDNS0.isCookie).length ≤ 1) :
    opts.eraseP EDNS0.isCookie = opts.filter (fun o => !o.isCookie) := by
  induction opts with
  | nil => rfl
  | cons o rest ih =>
    rw [List.eraseP_cons]
    cases ho : o.isCookie
    · simp only [List.filter_cons, ho] at h ⊢
      simp [ih h]
    · simp only [List.filter_cons, ho] at h ⊢
      have h0 : (rest.filter EDNS0.isCookie).length = 0 := by
        simp at h ⊢; simpa using h
      have hnone : ∀ x ∈ rest, x.isCookie = false := by
        intro x hx
        by_contra hne
        have : x ∈ rest.filter EDNS0.isCookie := List.mem_filter.mpr ⟨hx, by simpa using hne⟩
        rw [List.length_eq_zero.mp h0] at this
        cases this
      simp
      symm
      rw [List.filter_eq_self]
      intro x hx
      simp [hnone x hx]

theorem stripCookies_wellTyped (extra : List RR) (h : extra.all RR.wellTyped = true) :
    stripCookies extra = some (extra.map RR.eraseFirstCookie) := by
  induction extra with
  | nil => rfl
  | cons r rest ih =>
    simp only [List.all_cons, Bool.and_eq_true] at h
    have ihr := ih h.2
    have hr := h.1
    cases r <;>
      simp_all [stripCookies, RR.wellTyped, RR.isOPT, RR.Header, RR.eraseFirstCookie,
        stripCookie_eq_eraseP]

theorem generateReqKey_wellTyped (lib : Lib) (req : Msg) (h : req.wellTyped = true) :
    generateReqKey lib req
      = some (toMd5 lib (lib.msgString
                { req with Id := 0, Extra := req.Extra.map RR.eraseFirstCookie }),
              { req with Extra := req.Extra.map RR.eraseFirstCookie }) := by
  have hs := stripCookies_wellTyped req.Extra h
  unfold generateReqKey
  by_cases he : req.Extra.length ≠ 0
  · simp [he, hs]
  · have : req.Extra = [] := by
      simpa using he
    simp [this]

theorem map_eraseFirstCookie_of_no_cookie (extra : List RR)
    (h : ∀ r ∈ extra, ∀ hdr opts, r = RR.OPT hdr opts → ∀ o ∈ opts, o.isCookie = false) :
    extra.map RR.eraseFirstCookie = extra := by
  induction extra with
  | nil => rfl
  | cons r rest ih =>
    have hr : r.eraseFirstCookie = r := by
      cases r with
      | OPT hdr opts =>
        have := h (RR.OPT hdr opts) (List.mem_cons_self _ _) hdr opts rfl
        simp only [RR.eraseFirstCookie]
        rw [List.eraseP_of_forall_not]
        intro o ho
        simp [this o ho]
      | _ => rfl
    rw [List.map_cons, hr, ih (fun r' hr' => h r' (List.mem_cons_of_mem _ hr'))]

/-- C9 (amended). On a well-typed request `generateReqKey` returns; it restores the message ID
and leaves every field other than the additional records as it was; in every OPT record the
first COOKIE option is removed and not put back, the other options keep their order; a
request without COOKIE option is left unchanged. -/
theorem generateReqKey_leaves_request (lib : Lib) (req : Msg) (h : req.wellTyped = true) :
    ∃ key req', generateReqKey lib req = some (key, req')
      ∧ req' = { req with Extra := req.Extra.map RR.eraseFirstCookie }
      ∧ req'.Id = req.Id
      ∧ ((∀ r ∈ req.Extra, ∀ hdr opts, r = RR.OPT hdr opts → ∀ o ∈ opts, o.isCookie = false)
          → req' = req) := by
  refine ⟨_, _, generateReqKey_wellTyped lib req h, rfl, rfl, ?_⟩
  intro hno
  rw [map_eraseFirstCookie_of_no_cookie req.Extra hno]

theorem generateReqKey_leaves_request_witness :
    exCookieQuery.wellTyped = true
      ∧ ∃ key req', generateReqKey stdLib exCookieQuery = some (key, req')
          ∧ req'.Id = exCookieQuery.Id :=
  ⟨by decide,
   (generateReqKey_leaves_request stdLib exCookieQuery (by decide)).imp
     (fun _ h => h.imp (fun _ h' => ⟨h'.1, h'.2.2.1⟩))⟩

set_option maxRecDepth 100000 in
/-- C9 (counterexample). A request with one COOKIE option comes back from `generateReqKey`
without it. -/
theorem generateReqKey_drops_cookie :
    exCookieQuery.Extra = [RR.OPT exOptHdr [exCookie]]
      ∧ (generateReqKey stdLib exCookieQuery).map (fun r => r.2.Extra)
          = some [RR.OPT exOptHdr []] := by
  decide!

theorem map_eraseFirstCookie_eq_withoutCookies (extra : List RR)
    (h : (extra.all (fun r => match r with
      | RR.OPT _ opts => decide ((opts.filter EDNS0.isCookie).length ≤ 1)
      | _ => true)) = true) :
    extra.map RR.eraseFirstCookie = extra.map RR.withoutCookies := by
  induction extra with
  | nil => rfl
  | cons r rest ih =>
    simp only [List.all_cons, Bool.and_eq_true] at h
    rw [List.map_cons, List.map_cons, ih h.2]
    congr 1
    cases r with
    | OPT hdr opts =>
      have h1 := h.1
      simp only [decide_eq_true_eq] at h1
      simp only [RR.eraseFirstCookie, RR.withoutCookies, eraseP_eq_filter_of_single opts h1]
    | _ => rfl

/-- C8 (amended). For well-typed queries `q` and `q'` that are identical except for their
message ID and their EDNS0 COOKIE options, and whose OPT records carry at most one COOKIE
option each, `generateReqKey` returns the same key. -/
theorem generateReqKey_eq_of_identical (lib : Lib) (q q' : Msg)
    (hwt : q.wellTyped = true) (hwt' : q'.wellTyped = true)
    (hone : q.singleCookie = true) (hone' : q'.singleCookie = true)
    (hid : identicalUpToIdAndCookies q q') :
    ∃ key r r', generateReqKey lib q = some (key, r) ∧ generateReqKey lib q' = some (key, r') := by
  have e : ({ q with Id := 0, Extra := q.Extra.map RR.eraseFirstCookie } : Msg)
      = { q' with Id := 0, Extra := q'.Extra.map RR.eraseFirstCookie } := by
    rw [map_eraseFirstCookie_eq_withoutCookies q.Extra hone,
      map_eraseFirstCookie_eq_withoutCookies q'.Extra hone']
    exact hid
  refine ⟨_, _, { q' with Extra := q'.Extra.map RR.eraseFirstCookie },
    generateReqKey_wellTyped lib q hwt, ?_⟩
  rw [generateReqKey_wellTyped lib q' hwt', e]

set_option maxRecDepth 100000 in
theorem generateReqKey_eq_of_identical_witness :
    identicalUpToIdAndCookies exCookieQuery exNoCookieQuery
      ∧ ∃ key r r', generateReqKey stdLib exCookieQuery = some (key, r)
          ∧ generateReqKey stdLib exNoCookieQuery = some (key, r') :=
  ⟨by unfold identicalUpToIdAndCookies; decide!,
   generateReqKey_eq_of_identical stdLib exCookieQuery exNoCookieQuery (by decide) (by decide)
     (by decide) (by decide) (by unfold identicalUpToIdAndCookies; decide!)⟩

set_option maxRecDepth 100000 in
/-- C8 (counterexample). Two queries that differ only in their ID and their COOKIE options,
one of them with two COOKIE options in its OPT record, get different request keys. -/
theorem generateReqKey_two_cookies_differ :
    identicalUpToIdAndCookies exTwoCookieQuery exNoCookieQuery
      ∧ (generateReqKey stdLib exTwoCookieQuery).map Prod.fst
          ≠ (generateReqKey stdLib exNoCookieQuery).map Prod.fst := by
  refine ⟨by unfold identicalUpToIdAndCookies; decide!, ?_⟩
  decide!

/-! ## The validation key -/

/-- C10 (the code at the failing input). For two IPv6 clients with different hosts the text
before the first colon of the remote address is `[2001` for both, so the validation keys of
any request are equal. -/
theorem generateValidationKey_ipv6_collision (lib : Lib) (req : Msg) :
    exClientV6a.remoteAddr ≠ exClientV6b.remoteAddr
      ∧ splitColonHead exClientV6a.remoteAddr = "[2001"
      ∧ splitColonHead exClientV6b.remoteAddr = "[2001"
      ∧ validationKeyText lib req exClientV6a = validationKeyText lib req exClientV6b
      ∧ generateValidationKey lib req exClientV6a = generateValidationKey lib req exClientV6b := by
  have ha : splitColonHead exClientV6a.remoteAddr = "[2001" := by decide
  have hb : splitColonHead exClientV6b.remoteAddr = "[2001" := by decide
  have ht : validationKeyText lib req exClientV6a = validationKeyText lib req exClientV6b := by
    simp only [validationKeyText, ha, hb]
    rfl
  exact ⟨by decide, ha, hb, ht, by simp only [generateValidationKey, ht]⟩

theorem validationKeyText_ne_of_host_ne (lib : Lib) (req : Msg) (w₁ w₂ : ResponseWriter)
    (hhost : splitColonHead w₁.remoteAddr ≠ splitColonHead w₂.remoteAddr)
    (hnet : w₁.network = w₂.network) :
    validationKeyText lib req w₁ ≠ validationKeyText lib req w₂ := by
  intro h
  apply hhost
  simp only [validationKeyText, hnet] at h
  have h' := congrArg String.data h
  simp only [String.data_append] at h'
  have h2 := List.append_cancel_right h'
  have h3 := List.append_cancel_left h2
  exact String.ext h3

/-! ## The challenge loop and the question mapper -/

theorem challengeLoop_closed (ttl : Int) (key : String) (b : Challenge) (qs : List Question) :
    challengeLoop ttl key none b qs
      = { questions := b.questions
            ++ (qs.filter (fun q => q.Name != ".")).map (challengeQuestion key),
          answers := b.answers ++ qs.map (challengeRecord ttl key),
          validationNeeded := b.validationNeeded || qs.any (fun q => q.Name != ".") } := by
  induction qs generalizing b with
  | nil => simp [challengeLoop]
  | cons q rest ih =>
    have hstep : challengeLoop ttl key none b (q :: rest)
        = challengeLoop ttl key none (challengeStep ttl key none b q) rest := rfl
    rw [hstep, ih]
    by_cases hq : q.Name = "."
    · simp [challengeStep, hq, challengeRecord]
    · simp [challengeStep, hq, challengeRecord, challengeQuestion]

theorem challengeLoop_nonroot (ttl : Int) (key : String) (qs : List Question)
    (hroot : ∀ q ∈ qs, q.Name ≠ ".") :
    challengeLoop ttl key none noChallenge qs
      = { questions := qs.map (challengeQuestion key),
          answers := qs.map (cnRecord ttl key),
          validationNeeded := qs.any (fun q => q.Name != ".") } := by
  rw [challengeLoop_closed]
  have hf : qs.filter (fun q => q.Name != ".") = qs := by
    rw [List.filter_eq_self]
    intro q hq
    simpa using hroot q hq
  have hm : qs.map (challengeRecord ttl key) = qs.map (cnRecord ttl key) := by
    apply List.map_congr_left
    intro q hq
    simp [challengeRecord, hroot q hq]
  simp [noChallenge, hf, hm]

theorem firstAnswerFor_append (lib : Lib) (q : Question) (name : String) (pre post : List RR)
    (x : RR)
    (hpre : ∀ a ∈ pre, stringsContains (lib.rrString a) q.Name = true → a.Header.Name = name)
    (hx : stringsContains (lib.rrString x) q.Name = true) (hname : x.Header.Name = name) :
    firstAnswerFor lib q (pre ++ x :: post) = some { q with Name := name } := by
  induction pre with
  | nil => simp [firstAnswerFor, hx, hname]
  | cons a rest ih =>
    have ih' := ih (fun b hb => hpre b (List.mem_cons_of_mem _ hb))
    by_cases ha : stringsContains (lib.rrString a) q.Name = true
    · simp [firstAnswerFor, ha, hpre a (List.mem_cons_self _ _) ha]
    · simp only [List.cons_append, firstAnswerFor, ha]
      exact ih'

/-- C3 (amended). Round trip between the challenge loop and `resolveDomainFromCname`: for a
list `Q` of non-root questions and any client, when the text of each CNAME record contains
its target and no challenge label occurs in the text of the CNAME record of an earlier
question that has a different name (as in every single-question list),
`resolveDomainFromCname` applied to the follow-up questions and the CNAME answers the loop
builds for `Q` returns `Q` itself. -/
theorem resolveDomainFromCname_roundtrip (lib : Lib) (ttl : Int) (w : ResponseWriter)
    (Q : List Question)
    (hroot : ∀ q ∈ Q, q.Name ≠ ".")
    (hprint : ∀ q ∈ Q, stringsContains (lib.rrString (cnRecord ttl (ldnsKey lib w) q))
        (ldnsKey lib w ++ "." ++ q.Name) = true)
    (hclash : Q.Pairwise (fun q₁ q₂ =>
        stringsContains (lib.rrString (cnRecord ttl (ldnsKey lib w) q₁))
          (ldnsKey lib w ++ "." ++ q₂.Name) = true → q₁.Name = q₂.Name)) :
    resolveDomainFromCname lib
        (challengeLoop ttl (ldnsKey lib w) none noChallenge Q).questions
        (challengeLoop ttl (ldnsKey lib w) none noChallenge Q).answers
      = Q := by
  rw [challengeLoop_nonroot ttl _ Q hroot]
  simp only [resolveDomainFromCname, List.filterMap_map]
  have hall : ∀ q ∈ Q,
      ((fun q' => firstAnswerFor lib q' (Q.map (cnRecord ttl (ldnsKey lib w))))
        ∘ challengeQuestion (ldnsKey lib w)) q = some q := by
    intro q hq
    obtain ⟨s, t, hst⟩ := List.append_of_mem hq
    have hp := hclash
    rw [hst, List.pairwise_append] at hp
    have hs : ∀ a ∈ s, stringsContains (lib.rrString (cnRecord ttl (ldnsKey lib w) a))
        (ldnsKey lib w ++ "." ++ q.Name) = true → a.Name = q.Name :=
      fun a ha => hp.2.2 a ha q (List.mem_cons_self _ _)
    have hmap : Q.map (cnRecord ttl (ldnsKey lib w))
        = s.map (cnRecord ttl (ldnsKey lib w))
          ++ cnRecord ttl (ldnsKey lib w) q :: t.map (cnRecord ttl (ldnsKey lib w)) := by
      rw [hst]; simp
    simp only [Function.comp]
    rw [hmap, firstAnswerFor_append lib (challengeQuestion (ldnsKey lib w) q) q.Name]
    · rfl
    · intro a ha hc
      obtain ⟨q₁, hq₁, rfl⟩ := List.mem_map.mp ha
      exact hs q₁ hq₁ hc
    · exact hprint q hq
    · rfl
  rw [List.filterMap_congr hall, List.filterMap_some]

set_option maxRecDepth 100000 in
theorem resolveDomainFromCname_roundtrip_witness :
    resolveDomainFromCname stdLib
        (challengeLoop 1800 (ldnsKey stdLib exClient) none noChallenge [exQuestion]).questions
        (challengeLoop 1800 (ldnsKey stdLib exClient) none noChallenge [exQuestion]).answers
      = [exQuestion] :=
  resolveDomainFromCname_roundtrip stdLib 1800 exClient [exQuestion] (by decide)
    (by decide!) (List.pairwise_singleton _ _)

set_option maxRecDepth 100000 in
/-- C3 (counterexample). For the questions `A example.com.uk.` and `A example.com.` the
challenge label of the second is part of the text of the first CNAME record, and
`resolveDomainFromCname` maps both follow-up questions to `example.com.uk.`. -/
theorem resolveDomainFromCname_not_roundtrip :
    (∀ q ∈ exPrefixQuestions, q.Name ≠ ".")
      ∧ resolveDomainFromCname stdLib
          (challengeLoop 1800 (ldnsKey stdLib exClient) none noChallenge
            exPrefixQuestions).questions
          (challengeLoop 1800 (ldnsKey stdLib exClient) none noChallenge
            exPrefixQuestions).answers
        = [{ Name := "example.com.uk.", Qtype := TypeA, Qclass := ClassINET },
           { Name := "example.com.uk.", Qtype := TypeA, Qclass := ClassINET }]
      ∧ resolveDomainFromCname stdLib
          (challengeLoop 1800 (ldnsKey stdLib exClient) none noChallenge
            exPrefixQuestions).questions
          (challengeLoop 1800 (ldnsKey stdLib exClient) none noChallenge
            exPrefixQuestions).answers
        ≠ exPrefixQuestions := by
  refine ⟨by decide, ?_, ?_⟩ <;> decide!

/-! ## The state loop: first pass -/

theorem match_get_eq_bytes (c : Cache) (k : String) :
    (match c.Get k with
      | some reply => reply
      | none => ([] : Bytes)) = c.bytes k := by
  unfold Cache.bytes
  cases c.Get k <;> rfl

theorem generateReqKey_of_extra (lib : Lib) (req : Msg)
    (h : req.Extra.all RR.wellTyped = true) :
    generateReqKey lib req
      = some (toMd5 lib (lib.msgString
                { req with Id := 0, Extra := req.Extra.map RR.eraseFirstCookie }),
              { req with Extra := req.Extra.map RR.eraseFirstCookie }) :=
  generateReqKey_wellTyped lib req h

theorem iteration_first_miss (lib : Lib) (cfg : Flags) (w : ResponseWriter) (x : Exchange)
    (g : Globals) (req : Msg)
    (hresp : req.Response = false)
    (hq : filterQuestions cfg req.Question ≠ [])
    (hwt : req.wellTyped = true)
    (hrc : cfg.ENCACHE = true → g.respcache.bytes (parsedReqKey lib cfg req) = [])
    (hpc : g.validitycache.bytes (parsedValidationKey lib cfg w req) = []) :
    iteration lib cfg w x (enter g req) = afterParse lib cfg w g req := by
  have hwt' : req.Extra.all RR.wellTyped = true := hwt
  simp only [parsedReqKey, parsedReq, parsedValidationKey, generateValidationKey,
    validationKeyText, hresp] at hrc hpc
  by_cases hen : cfg.ENCACHE = true
  · have hrc' := hrc hen
    simp [iteration, enter, FILTER_REQ, caseFILTER_REQ, hresp, hq, casePARSE_REQ,
      generateReqKey_of_extra, hwt', caseRESP_CACHE_CHECK, caseVALIDATE, hen,
      match_get_eq_bytes, hrc', hpc, generateValidationKey, validationKeyText,
      afterParse, parsedReq, parsedReqKey, parsedValidationKey]
  · simp [iteration, enter, FILTER_REQ, caseFILTER_REQ, hresp, hq, casePARSE_REQ,
      generateReqKey_of_extra, hwt', caseRESP_CACHE_CHECK, caseVALIDATE, hen,
      match_get_eq_bytes, hpc, generateValidationKey, validationKeyText,
      afterParse, parsedReq, parsedReqKey, parsedValidationKey]

/-! ## The state loop: the challenge path -/

theorem stateWheel_finished (step : Ctx → Ctx) (fuel : Nat) (c : Ctx) (h : c.finished = true) :
    stateWheel step fuel c = some c := by
  cases fuel <;> simp [stateWheel, h]

theorem stateWheel_step (step : Ctx → Ctx) (fuel : Nat) (c : Ctx) (h : c.finished = false) :
    stateWheel step (fuel + 1) c = stateWheel step fuel (step c) := by
  simp [stateWheel, h]

theorem proxyServe_challenge (lib : Lib) (cfg : Flags) (w : ResponseWriter) (x : Exchange)
    (g : Globals) (req : Msg) (fuel : Nat) (hfuel : 3 ≤ fuel)
    (hresp : req.Response = false)
    (hq : filterQuestions cfg req.Question ≠ [])
    (hwt : req.wellTyped = true)
    (hrc : cfg.ENCACHE = true → g.respcache.bytes (parsedReqKey lib cfg req) = [])
    (hpc : g.validitycache.bytes (parsedValidationKey lib cfg w req) = [])
    (hvc : g.validatedcache.bytes (parsedValidationKey lib cfg w req) = []) :
    ∃ r, proxyServe lib cfg w x fuel g req = some r
      ∧ r.written = (lib.pack (replyOf lib cfg w req)).toList
      ∧ r.upstream = []
      ∧ r.answers = (challengeOf lib cfg w req).answers
      ∧ r.g.validitycache
          = (if (challengeOf lib cfg w req).validationNeeded then
              g.validitycache.Set (pendingKey lib cfg w req)
                ((lib.pack (pendingMsg lib cfg w req)).getD []) (secondsDuration cfg.ttl)
             else g.validitycache)
      ∧ r.g.validatedcache = g.validatedcache
      ∧ r.g.respcache = g.respcache := by
  obtain ⟨n, rfl⟩ := Nat.exists_eq_add_of_le hfuel
  have h1 := iteration_first_miss lib cfg w x g req hresp hq hwt hrc hpc
  have e0 : (enter g req).finished = false := rfl
  have e1 : (afterParse lib cfg w g req).finished = false := rfl
  rw [proxyServe, show 3 + n = (n + 1 + 1) + 1 by omega, stateWheel_step _ _ _ e0, h1,
    stateWheel_step _ _ _ e1]
  have h2 : iteration lib cfg w x (afterParse lib cfg w g req)
      = caseVALIDITY_CHECK lib cfg w (afterParse lib cfg w g req) := by
    simp [iteration, afterParse, FILTER_REQ, PARSE_REQ, RESP_CACHE_CHECK, VALIDATE,
      VALIDITY_CHECK]
  rw [h2]
  have hloop : challengeLoop cfg.ttl (toMd5 lib (w.remoteAddr ++ w.network)) none
      { questions := [], answers := [], validationNeeded := false }
      (filterQuestions cfg req.Question) = challengeOf lib cfg w req := rfl
  have key : (caseVALIDITY_CHECK lib cfg w (afterParse lib cfg w g req)).finished = false
      ∧ (iteration lib cfg w x
          (caseVALIDITY_CHECK lib cfg w (afterParse lib cfg w g req))).finished = true
      ∧ (iteration lib cfg w x
          (caseVALIDITY_CHECK lib cfg w (afterParse lib cfg w g req))).written
        = (lib.pack (replyOf lib cfg w req)).toList
      ∧ (iteration lib cfg w x
          (caseVALIDITY_CHECK lib cfg w (afterParse lib cfg w g req))).upstream = []
      ∧ (iteration lib cfg w x
          (caseVALIDITY_CHECK lib cfg w (afterParse lib cfg w g req))).answers
        = (challengeOf lib cfg w req).answers
      ∧ (iteration lib cfg w x
          (caseVALIDITY_CHECK lib cfg w (afterParse lib cfg w g req))).g.validitycache
        = (if (challengeOf lib cfg w req).validationNeeded then
            g.validitycache.Set (pendingKey lib cfg w req)
              ((lib.pack (pendingMsg lib cfg w req)).getD []) (secondsDuration cfg.ttl)
           else g.validitycache)
      ∧ (iteration lib cfg w x
          (caseVALIDITY_CHECK lib cfg w (afterParse lib cfg w g req))).g.validatedcache
        = g.validatedcache
      ∧ (iteration lib cfg w x
          (caseVALIDITY_CHECK lib cfg w (afterParse lib cfg w g req))).g.respcache
        = g.respcache := by
    cases hp : lib.pack (replyOf lib cfg w req) <;>
    cases hv : (challengeOf lib cfg w req).validationNeeded <;>
    · have hp' := hp
      simp only [replyOf, parsedReq] at hp'
      simp [caseVALIDITY_CHECK, afterParse, enter, match_get_eq_bytes, hvc, parsedReq, hloop,
        hv, hp', Ctx.finished, iteration, FILTER_REQ, PARSE_REQ, RESP_CACHE_CHECK,
        VALIDATE, VALIDITY_CHECK, PERFORM_DNS, ADD_RESP_CACHE, SEND_RESP, END, caseEND,
        caseSEND_RESP, pendingKey, pendingMsg, generateValidationKey, validationKeyText]
  refine ⟨_, ?_, key.2.2⟩
  rw [stateWheel_step _ _ _ key.1, stateWheel_finished _ _ _ key.2.1]

theorem challengeOf_eq (lib : Lib) (cfg : Flags) (w : ResponseWriter) (req : Msg) :
    challengeOf lib cfg w req
      = { questions := ((filterQuestions cfg req.Question).filter (fun q => q.Name != ".")).map
            (challengeQuestion (ldnsKey lib w)),
          answers := (filterQuestions cfg req.Question).map
            (challengeRecord cfg.ttl (ldnsKey lib w)),
          validationNeeded := (filterQuestions cfg req.Question).any (fun q => q.Name != ".") } := by
  rw [challengeOf, challengeLoop_closed]
  simp [noChallenge]

theorem replyOf_answer (lib : Lib) (cfg : Flags) (w : ResponseWriter) (req : Msg) :
    (replyOf lib cfg w req).Answer
      = (filterQuestions cfg req.Question).map (challengeRecord cfg.ttl (ldnsKey lib w)) := by
  rw [replyOf, challengeOf_eq]
  rfl

theorem uint32_of_range (n : Int) (h0 : 0 ≤ n) (h1 : n < 4294967296) : (uint32 n : Int) = n := by
  unfold uint32
  rw [Int.emod_eq_of_lt h0 h1]
  exact Int.toNat_of_nonneg h0

/-- C1 (amended). For an unvalidated query (not a response, well typed, response cache miss, no
pending and no validated entry under its validation key) the handler returns, and the reply
it writes is the packed challenge reply (nothing is written when packing fails).  For every
non-root question `q` among the questions that pass the AAAA filter, the answers of that
reply hold the CNAME record with owner `q.Name`, TTL `uint32(ttl)` and target
`toMd5(remoteAddr + network) + "." + q.Name`; every CNAME answer with owner `q.Name` is that
record; and there are as many of them as the filtered list has questions named `q.Name`
(so exactly one when no other question carries the name).  `uint32(ttl)` is the configured
`ttl` when `0 ≤ ttl < 2^32`. -/
theorem proxyServe_challenge_cname (lib : Lib) (cfg : Flags) (w : ResponseWriter) (x : Exchange)
    (g : Globals) (req : Msg) (fuel : Nat) (hfuel : 3 ≤ fuel)
    (hresp : req.Response = false)
    (hwt : req.wellTyped = true)
    (hrc : cfg.ENCACHE = true → g.respcache.bytes (parsedReqKey lib cfg req) = [])
    (hpc : g.validitycache.bytes (parsedValidationKey lib cfg w req) = [])
    (hvc : g.validatedcache.bytes (parsedValidationKey lib cfg w req) = [])
    (q : Question) (hmem : q ∈ filterQuestions cfg req.Question) (hroot : q.Name ≠ ".") :
    ∃ r, proxyServe lib cfg w x fuel g req = some r
      ∧ r.written = (lib.pack (replyOf lib cfg w req)).toList
      ∧ RR.CNAME { Name := q.Name, Rrtype := TypeCNAME, Class := ClassINET,
                   Ttl := uint32 cfg.ttl, Rdlength := 0 }
            (toMd5 lib (w.remoteAddr ++ w.network) ++ "." ++ q.Name)
          ∈ (replyOf lib cfg w req).Answer
      ∧ (∀ a ∈ (replyOf lib cfg w req).Answer, a.isCNAME = true → a.Header.Name = q.Name →
          a = RR.CNAME { Name := q.Name, Rrtype := TypeCNAME, Class := ClassINET,
                         Ttl := uint32 cfg.ttl, Rdlength := 0 }
                (toMd5 lib (w.remoteAddr ++ w.network) ++ "." ++ q.Name))
      ∧ ((replyOf lib cfg w req).Answer.filter
            (fun a => a.isCNAME && a.Header.Name == q.Name)).length
          = ((filterQuestions cfg req.Question).filter (fun q' => q'.Name == q.Name)).length
      ∧ (0 ≤ cfg.ttl → cfg.ttl < 4294967296 → (uint32 cfg.ttl : Int) = cfg.ttl) := by
  have hq : filterQuestions cfg req.Question ≠ [] := List.ne_nil_of_mem hmem
  obtain ⟨r, hr, hw, -⟩ :=
    proxyServe_challenge lib cfg w x g req fuel hfuel hresp hq hwt hrc hpc hvc
  refine ⟨r, hr, hw, ?_, ?_, ?_, uint32_of_range cfg.ttl⟩
  · rw [replyOf_answer]
    refine List.mem_map.mpr ⟨q, hmem, ?_⟩
    simp [challengeRecord, hroot, cnRecord, ldnsKey]
  · intro a ha hc hn
    rw [replyOf_answer] at ha
    obtain ⟨q', -, rfl⟩ := List.mem_map.mp ha
    by_cases h' : q'.Name = "."
    · simp [challengeRecord, h', aRecord, RR.isCNAME] at hc
    · simp only [challengeRecord, h', if_false, cnRecord, RR.Header] at hn ⊢
      simp [hn, ldnsKey]
  · rw [replyOf_answer, List.filter_map, List.length_map]
    congr 1
    apply List.filter_congr
    intro q' _
    by_cases h' : q'.Name = "."
    · have hne : ¬ q.Name = "." := hroot
      simp [challengeRecord, h', aRecord, RR.isCNAME, RR.Header, Ne.symm hne]
    · simp [challengeRecord, h', cnRecord, RR.isCNAME, RR.Header]

set_option maxRecDepth 100000 in
theorem proxyServe_challenge_cname_witness :
    ∃ r, proxyServe stdLib exFlags exClient exUpstream 3 exGlobals exQuery = some r
      ∧ r.written = (stdLib.pack (replyOf stdLib exFlags exClient exQuery)).toList
      ∧ ((replyOf stdLib exFlags exClient exQuery).Answer.filter
            (fun a => a.isCNAME && a.Header.Name == exQuestion.Name)).length
          = ((filterQuestions exFlags exQuery.Question).filter
              (fun q' => q'.Name == exQuestion.Name)).length :=
  (proxyServe_challenge_cname stdLib exFlags exClient exUpstream exGlobals exQuery 3
      (by decide) (by decide) (by decide) (fun _ => by decide!) (by decide!)
      (by decide!) exQuestion (by decide) (by decide)).imp
    (fun _ h => ⟨h.1, h.2.1, h.2.2.2.2.1⟩)

set_option maxRecDepth 100000 in
/-- C1 (counterexample). For the unvalidated query `A example.com.`, `MX example.com.` the
written challenge reply carries two CNAME records with owner `example.com.`. -/
theorem proxyServe_challenge_two_cnames :
    exTwoTypeQuery.Question.map Question.Name = ["example.com.", "example.com."]
      ∧ (proxyServe stdLib exFlags exClient exUpstream 3 exGlobals exTwoTypeQuery).map
          (fun r => r.written.map (fun d =>
            ((stdLib.unpack d).Answer.filter
              (fun a => a.isCNAME && a.Header.Name == "example.com.")).length))
        = some [2] := by
  refine ⟨by decide, ?_⟩
  decide!

/-- C7 (amended). When a challenge is issued for a query with at least one non-root question
(among those that pass the AAAA filter), the handler returns without contacting an upstream
and sets one entry of the pending-challenge cache: its key is `generateValidationKey` of the
follow-up questions `Q'` and the client, its lifetime `time.Second * ttl`, its bytes the
packed message (empty when packing fails) whose questions are `Q'` (each non-root question
with its name replaced by the CNAME target, type and class kept) and whose answers are the
answer records of the challenge reply: the CNAME record of every non-root question and the
sentinel A record of every root question, so only CNAME records when no question is root. -/
theorem proxyServe_challenge_pending (lib : Lib) (cfg : Flags) (w : ResponseWriter)
    (x : Exchange) (g : Globals) (req : Msg) (fuel : Nat) (hfuel : 3 ≤ fuel)
    (hresp : req.Response = false)
    (hwt : req.wellTyped = true)
    (hrc : cfg.ENCACHE = true → g.respcache.bytes (parsedReqKey lib cfg req) = [])
    (hpc : g.validitycache.bytes (parsedValidationKey lib cfg w req) = [])
    (hvc : g.validatedcache.bytes (parsedValidationKey lib cfg w req) = [])
    (hnonroot : ∃ q ∈ filterQuestions cfg req.Question, q.Name ≠ ".") :
    ∃ r, proxyServe lib cfg w x fuel g req = some r
      ∧ r.upstream = []
      ∧ r.g.validitycache
          = g.validitycache.Set
              (generateValidationKey lib
                { Question := ((filterQuestions cfg req.Question).filter
                    (fun q => q.Name != ".")).map (challengeQuestion (ldnsKey lib w)) } w)
              ((lib.pack (pendingMsg lib cfg w req)).getD []) (secondsDuration cfg.ttl)
      ∧ (pendingMsg lib cfg w req).Question
          = ((filterQuestions cfg req.Question).filter (fun q => q.Name != ".")).map
              (challengeQuestion (ldnsKey lib w))
      ∧ (pendingMsg lib cfg w req).Answer
          = (filterQuestions cfg req.Question).map (challengeRecord cfg.ttl (ldnsKey lib w))
      ∧ (pendingMsg lib cfg w req).Answer = (replyOf lib cfg w req).Answer
      ∧ ((∀ q ∈ filterQuestions cfg req.Question, q.Name ≠ ".") →
          (pendingMsg lib cfg w req).Answer
            = (filterQuestions cfg req.Question).map (cnRecord cfg.ttl (ldnsKey lib w))) := by
  have hq : filterQuestions cfg req.Question ≠ [] := by
    obtain ⟨q, hq, -⟩ := hnonroot
    exact List.ne_nil_of_mem hq
  obtain ⟨r, hr, -, hu, -, hv, -⟩ :=
    proxyServe_challenge lib cfg w x g req fuel hfuel hresp hq hwt hrc hpc hvc
  have hneeded : (challengeOf lib cfg w req).validationNeeded = true := by
    rw [challengeOf_eq]
    obtain ⟨q, hq, hn⟩ := hnonroot
    simp only [List.any_eq_true]
    exact ⟨q, hq, by simpa using hn⟩
  have hans : (pendingMsg lib cfg w req).Answer
      = (filterQuestions cfg req.Question).map (challengeRecord cfg.ttl (ldnsKey lib w)) := by
    simp only [pendingMsg]
    rw [challengeOf_eq]
  refine ⟨r, hr, hu, ?_, ?_, hans, ?_, ?_⟩
  · rw [hv, hneeded]
    simp only [if_true, pendingKey, generateValidationKey, validationKeyText, pendingMsg]
    rw [challengeOf_eq]
  · simp only [pendingMsg]
    rw [challengeOf_eq]
  · rw [hans, replyOf_answer]
  · intro hall
    rw [hans]
    apply List.map_congr_left
    intro q hq'
    simp [challengeRecord, hall q hq']

set_option maxRecDepth 100000 in
theorem proxyServe_challenge_pending_witness :
    ∃ r, proxyServe stdLib exFlags exClient exUpstream 3 exGlobals exQuery = some r
      ∧ r.upstream = []
      ∧ (pendingMsg stdLib exFlags exClient exQuery).Answer
          = (replyOf stdLib exFlags exClient exQuery).Answer :=
  (proxyServe_challenge_pending stdLib exFlags exClient exUpstream exGlobals exQuery 3
      (by decide) (by decide) (by decide) (fun _ => by decide!) (by decide!) (by decide!)
      ⟨exQuestion, by decide, by decide⟩).imp
    (fun _ h => ⟨h.1, h.2.1, h.2.2.2.2.2.1⟩)

set_option maxRecDepth 100000 in
/-- C7 (counterexample). For the query `A .`, `A example.com.` a challenge is issued and the
message stored in the pending-challenge cache has two answers, the first of which is the
sentinel A record, not a CNAME record. -/
theorem proxyServe_challenge_stores_sentinel :
    (proxyServe stdLib exFlags exClient exUpstream 3 exGlobals exMixedQuery).map
        (fun r => (r.written.length,
          r.g.validitycache.items.map (fun e => (stdLib.unpack e.2.Object).Answer)))
      = some (1, [[aRecord 1800 { Name := ".", Qtype := TypeA, Qclass := ClassINET },
                   cnRecord 1800 exKey exQuestion]])
      ∧ (aRecord 1800 { Name := ".", Qtype := TypeA, Qclass := ClassINET }).isCNAME = false := by
  refine ⟨?_, by decide⟩
  decide!

/-! ## The state loop: the validated-client path -/

theorem eraseFirstCookie_wellTyped (extra : List RR) (h : extra.all RR.wellTyped = true) :
    (extra.map RR.eraseFirstCookie).all RR.wellTyped = true := by
  induction extra with
  | nil => rfl
  | cons r rest ih =>
    simp only [List.all_cons, Bool.and_eq_true, List.map_cons] at h ⊢
    refine ⟨?_, ih h.2⟩
    have h1 := h.1
    cases r <;> simpa [RR.wellTyped, RR.eraseFirstCookie, RR.Header, RR.isOPT] using h1

theorem resolveCnameFromDomian_nil (answers : List RR) :
    resolveCnameFromDomian answers [] = some (answers, []) := by
  induction answers with
  | nil => rfl
  | cons a rest ih => simp [resolveCnameFromDomian, renameAnswer, ih]

theorem dispatch_cases (x : Exchange) (req : Msg) (dns : List (String × String))
    (d : Dispatch) :
    dispatch x req dns d = d
      ∨ (dispatch x req dns d).err.isSome = true
      ∨ ∃ n client addr up, x n client addr req = Except.ok up
          ∧ (dispatch x req dns d).m = some up ∧ (dispatch x req dns d).err = none := by
  induction dns generalizing d with
  | nil => exact Or.inl rfl
  | cons e rest ih =>
    simp only [dispatch]
    split
    · rename_i r hx
      split
      · exact Or.inr (Or.inr ⟨_, _, _, r, hx, rfl, rfl⟩)
      · rcases ih _ with h | h | h
        · rw [h]
          exact Or.inr (Or.inr ⟨_, _, _, r, hx, rfl, rfl⟩)
        · exact Or.inr (Or.inl h)
        · exact Or.inr (Or.inr h)
    · rcases ih _ with h | h | h
      · rw [h]
        exact Or.inr (Or.inl rfl)
      · exact Or.inr (Or.inl h)
      · exact Or.inr (Or.inr h)

theorem dispatch_upstream_mono (x : Exchange) (req : Msg) (dns : List (String × String))
    (d : Dispatch) : d.upstream.length ≤ (dispatch x req dns d).upstream.length := by
  induction dns generalizing d with
  | nil => exact Nat.le_refl _
  | cons e rest ih =>
    simp only [dispatch]
    split
    · split
      · simp
      · refine Nat.le_trans ?_ (ih _)
        simp
    · refine Nat.le_trans ?_ (ih _)
      simp

theorem dispatch_upstream_ne_nil (x : Exchange) (req : Msg) (dns : List (String × String))
    (d : Dispatch) (h : dns ≠ []) : (dispatch x req dns d).upstream ≠ [] := by
  cases dns with
  | nil => exact absurd rfl h
  | cons e rest =>
    intro hnil
    have hlen : 0 < (dispatch x req (e :: rest) d).upstream.length := by
      simp only [dispatch]
      split
      · split
        · simp
        · refine Nat.lt_of_lt_of_le ?_ (dispatch_upstream_mono x req rest _)
          simp
      · refine Nat.lt_of_lt_of_le ?_ (dispatch_upstream_mono x req rest _)
        simp
    rw [hnil] at hlen
    exact Nat.lt_irrefl _ hlen

theorem classifyRcode_caches (g : Globals) (rc : Nat) :
    (classifyRcode g rc).validitycache = g.validitycache
      ∧ (classifyRcode g rc).validatedcache = g.validatedcache
      ∧ (classifyRcode g rc).respcache = g.respcache := by
  unfold classifyRcode
  split
  · exact ⟨rfl, rfl, rfl⟩
  · split
    · exact ⟨rfl, rfl, rfl⟩
    · split <;> exact ⟨rfl, rfl, rfl⟩

theorem stateWheel_perform (lib : Lib) (cfg : Flags) (w : ResponseWriter) (x : Exchange)
    (c : Ctx)
    (hstate : c.reqState = PERFORM_DNS) (hrun : c.finished = false)
    (hwt : c.req.Extra.all RR.wellTyped = true)
    (hca : c.cachedAns = []) (hm : c.m = none) :
    ∃ r, (∀ n, stateWheel (iteration lib cfg w x) (n + 2) c = some r)
      ∧ r.g.validitycache = c.g.validitycache
      ∧ r.g.validatedcache = c.g.validatedcache
      ∧ r.answers = c.answers
      ∧ (cfg.DNS ≠ [] → r.upstream ≠ [])
      ∧ (r.written = c.written
          ∨ ∃ n client addr up d,
              x n client addr { c.req with RecursionDesired := true, Id := c.id,
                                           Extra := c.req.Extra.map RR.eraseFirstCookie }
                = Except.ok up
              ∧ lib.pack { up with RecursionAvailable := false, Question := c.actualQuestion }
                  = some d
              ∧ r.written = c.written ++ [d]) := by
  have hit : iteration lib cfg w x c = casePERFORM_DNS lib cfg w x c := by
    simp [iteration, hstate, FILTER_REQ, PARSE_REQ, RESP_CACHE_CHECK, VALIDATE, VALIDITY_CHECK,
      PERFORM_DNS]
  have hk := generateReqKey_of_extra lib { c.req with RecursionDesired := true, Id := 0 } hwt
  have hfin : c.complete = false ∧ c.exit = Exit.running := by
    simpa [Ctx.finished] using hrun
  have hcases := dispatch_cases x
    { c.req with RecursionDesired := true, Id := c.id,
                 Extra := c.req.Extra.map RR.eraseFirstCookie } cfg.DNS
    { m := c.m, err := c.err, totalDnsQueryCount := c.g.totalDnsQueryCount,
      failedDnsQueryCount := c.g.failedDnsQueryCount, upstream := c.upstream }
  have hup := dispatch_upstream_ne_nil x
    { c.req with RecursionDesired := true, Id := c.id,
                 Extra := c.req.Extra.map RR.eraseFirstCookie } cfg.DNS
    { m := c.m, err := c.err, totalDnsQueryCount := c.g.totalDnsQueryCount,
      failedDnsQueryCount := c.g.failedDnsQueryCount, upstream := c.upstream }
  have hP : ∃ c3, casePERFORM_DNS lib cfg w x c = c3 := ⟨_, rfl⟩
  obtain ⟨c3, hc3⟩ := hP
  have hc3' := hc3
  simp only [casePERFORM_DNS, hk] at hc3
  generalize dispatch x
    { c.req with RecursionDesired := true, Id := c.id,
                 Extra := c.req.Extra.map RR.eraseFirstCookie } cfg.DNS
    { m := c.m, err := c.err, totalDnsQueryCount := c.g.totalDnsQueryCount,
      failedDnsQueryCount := c.g.failedDnsQueryCount, upstream := c.upstream } = d at hcases hup hc3
  have hx : ∀ up, d.err = none → d.m = some up →
      ∃ n client addr, x n client addr
        { c.req with RecursionDesired := true, Id := c.id,
                     Extra := c.req.Extra.map RR.eraseFirstCookie } = Except.ok up := by
    intro up he hm'
    rcases hcases with h | h | ⟨n, client, addr, up', h1, h2, -⟩
    · rw [h] at hm'
      simp [hm] at hm'
    · simp [he] at h
    · rw [h2] at hm'
      cases hm'
      exact ⟨n, client, addr, h1⟩
  have key : (c3.finished = true ∨ c3.reqState = END)
      ∧ c3.g.validitycache = c.g.validitycache
      ∧ c3.g.validatedcache = c.g.validatedcache
      ∧ c3.answers = c.answers
      ∧ c3.upstream = d.upstream
      ∧ (c3.written = c.written
          ∨ ∃ up data, d.err = none ∧ d.m = some up
              ∧ lib.pack { up with RecursionAvailable := false, Question := c.actualQuestion }
                  = some data
              ∧ c3.written = c.written ++ [data]) := by
    rw [← hc3]
    cases hde : d.err with
    | some e => simp [END]
    | none =>
      cases hdm : d.m with
      | none => simp [Ctx.finished]
      | some up =>
        simp only [Option.isSome_none, Bool.false_eq_true, if_false, hca,
          resolveCnameFromDomian_nil]
        cases hp : lib.pack { up with RecursionAvailable := false,
                                      Question := c.actualQuestion } with
        | none =>
          simp [hp, END, (classifyRcode_caches _ _).1, (classifyRcode_caches _ _).2.1]
        | some data =>
          simp only [hp, caseADD_RESP_CACHE]
          cases hen : cfg.ENCACHE with
          | false =>
            simp [hde, caseSEND_RESP, caseEND, Ctx.finished, (classifyRcode_caches _ _).1,
              (classifyRcode_caches _ _).2.1, hp]
          | true =>
            simp only [if_true]
            split
            · simp [END, (classifyRcode_caches _ _).1, (classifyRcode_caches _ _).2.1]
            · simp [hde, caseSEND_RESP, caseEND, Ctx.finished, (classifyRcode_caches _ _).1,
                (classifyRcode_caches _ _).2.1, hp]
  obtain ⟨k1, k2, k3, k4, k5, k6⟩ := key
  have hwr : c3.written = c.written
      ∨ ∃ n client addr up data,
          x n client addr { c.req with RecursionDesired := true, Id := c.id,
                                       Extra := c.req.Extra.map RR.eraseFirstCookie }
            = Except.ok up
          ∧ lib.pack { up with RecursionAvailable := false, Question := c.actualQuestion }
              = some data
          ∧ c3.written = c.written ++ [data] := by
    rcases k6 with h | ⟨up, data, he, hm', hp, hw⟩
    · exact Or.inl h
    · obtain ⟨n, client, addr, hx'⟩ := hx up he hm'
      exact Or.inr ⟨n, client, addr, up, data, hx', hp, hw⟩
  by_cases hf : c3.finished = true
  · refine ⟨c3, ?_, k2, k3, k4, ?_, hwr⟩
    · intro n
      rw [stateWheel_step _ _ _ hrun, hit, hc3', stateWheel_finished _ _ _ hf]
    · rw [k5]; exact hup
  · have hf' : c3.finished = false := by simpa using hf
    have hend : c3.reqState = END := by
      rcases k1 with h | h
      · exact absurd h hf
      · exact h
    have h4 : iteration lib cfg w x c3 = caseEND c3 := by
      simp [iteration, hend, FILTER_REQ, PARSE_REQ, RESP_CACHE_CHECK, VALIDATE, VALIDITY_CHECK,
        PERFORM_DNS, ADD_RESP_CACHE, SEND_RESP, END]
    refine ⟨caseEND c3, ?_, k2, k3, k4, ?_, hwr⟩
    · intro n
      rw [stateWheel_step _ _ _ hrun, hit, hc3']
      cases n with
      | zero =>
        rw [show 0 + 1 = 0 + 1 from rfl, stateWheel_step _ _ _ hf', h4]
        exact stateWheel_finished _ _ _ (by simp [caseEND, Ctx.finished])
      | succ n =>
        rw [stateWheel_step _ _ _ hf', h4]
        exact stateWheel_finished _ _ _ (by simp [caseEND, Ctx.finished])
    · intro hdns
      show c3.upstream ≠ []
      rw [k5]; exact hup hdns

theorem iteration_second_validated (lib : Lib) (cfg : Flags) (w : ResponseWriter) (x : Exchange)
    (g : Globals) (req : Msg)
    (hvc : g.validatedcache.bytes (parsedValidationKey lib cfg w req) ≠ []) :
    iteration lib cfg w x (afterParse lib cfg w g req)
      = { afterParse lib cfg w g req with
          data := g.validatedcache.bytes (parsedValidationKey lib cfg w req),
          reqState := PERFORM_DNS } := by
  have hlen : 0 < (g.validatedcache.bytes (parsedValidationKey lib cfg w req)).length :=
    List.length_pos.mpr hvc
  simp [iteration, afterParse, enter, FILTER_REQ, PARSE_REQ, RESP_CACHE_CHECK, VALIDATE,
    VALIDITY_CHECK, caseVALIDITY_CHECK, match_get_eq_bytes, hlen]

theorem proxyServe_validated_path (lib : Lib) (cfg : Flags) (w : ResponseWriter)
    (x : Exchange) (g : Globals) (req : Msg) (fuel : Nat) (hfuel : 4 ≤ fuel)
    (hresp : req.Response = false)
    (hq : filterQuestions cfg req.Question ≠ [])
    (hwt : req.wellTyped = true)
    (hrc : cfg.ENCACHE = true → g.respcache.bytes (parsedReqKey lib cfg req) = [])
    (hpc : g.validitycache.bytes (parsedValidationKey lib cfg w req) = [])
    (hvc : g.validatedcache.bytes (parsedValidationKey lib cfg w req) ≠ []) :
    (iteration lib cfg w x (iteration lib cfg w x (enter g req))).reqState = PERFORM_DNS
      ∧ (iteration lib cfg w x (iteration lib cfg w x (enter g req))).finished = false
      ∧ (iteration lib cfg w x (iteration lib cfg w x (enter g req))).written = []
      ∧ (iteration lib cfg w x (iteration lib cfg w x (enter g req))).answers = []
      ∧ (iteration lib cfg w x (iteration lib cfg w x (enter g req))).g.validitycache
          = g.validitycache
      ∧ ∃ r, proxyServe lib cfg w x fuel g req = some r
          ∧ r.g.validitycache = g.validitycache
          ∧ r.answers = []
          ∧ (cfg.DNS ≠ [] → r.upstream ≠ [])
          ∧ (r.written = []
              ∨ ∃ n client addr up d,
                  x n client addr
                      { parsedReq cfg req with
                        RecursionDesired := true,
                        Extra := (req.Extra.map RR.eraseFirstCookie).map RR.eraseFirstCookie }
                    = Except.ok up
                  ∧ lib.pack { up with RecursionAvailable := false, Question := [] } = some d
                  ∧ r.written = [d]) := by
  have h1 := iteration_first_miss lib cfg w x g req hresp hq hwt hrc hpc
  have h2 := iteration_second_validated lib cfg w x g req hvc
  rw [h1, h2]
  refine ⟨rfl, rfl, rfl, rfl, rfl, ?_⟩
  obtain ⟨n, rfl⟩ := Nat.exists_eq_add_of_le hfuel
  have hwt2 : (req.Extra.map RR.eraseFirstCookie).all RR.wellTyped = true :=
    eraseFirstCookie_wellTyped req.Extra hwt
  obtain ⟨r, hr, hv, -, ha, hu, hw⟩ := stateWheel_perform lib cfg w x
    { afterParse lib cfg w g req with
      data := g.validatedcache.bytes (parsedValidationKey lib cfg w req),
      reqState := PERFORM_DNS } rfl rfl hwt2 rfl rfl
  refine ⟨r, ?_, hv, ha, hu, ?_⟩
  · have e0 : (enter g req).finished = false := rfl
    have e1 : (afterParse lib cfg w g req).finished = false := rfl
    rw [proxyServe, show 4 + n = (n + 2) + 1 + 1 by omega, stateWheel_step _ _ _ e0, h1,
      stateWheel_step _ _ _ e1, h2]
    exact hr n
  · rcases hw with h | ⟨k, client, addr, up, d, hx, hp, hw'⟩
    · exact Or.inl h
    · refine Or.inr ⟨k, client, addr, up, d, ?_, hp, hw'⟩
      simpa [afterParse, parsedReq] using hx

/-- C5. A validated-cache hit never issues a challenge: for a request (not a response, well
typed) with a response-cache miss, no pending-challenge entry under its validation key and a
non-empty validated-cache entry under that key, the second pass of the state loop leaves the
state `PERFORM_DNS` with nothing written and no challenge answer built; the handler returns,
the pending-challenge cache is unchanged, the challenge answers stay empty, and a reply, if
one is written, is the packed reply of an upstream. -/
theorem proxyServe_validated_no_challenge (lib : Lib) (cfg : Flags) (w : ResponseWriter)
    (x : Exchange) (g : Globals) (req : Msg) (fuel : Nat) (hfuel : 4 ≤ fuel)
    (hresp : req.Response = false)
    (hq : filterQuestions cfg req.Question ≠ [])
    (hwt : req.wellTyped = true)
    (hrc : cfg.ENCACHE = true → g.respcache.bytes (parsedReqKey lib cfg req) = [])
    (hpc : g.validitycache.bytes (parsedValidationKey lib cfg w req) = [])
    (hvc : g.validatedcache.bytes (parsedValidationKey lib cfg w req) ≠ []) :
    (iteration lib cfg w x (iteration lib cfg w x (enter g req))).reqState = PERFORM_DNS
      ∧ (iteration lib cfg w x (iteration lib cfg w x (enter g req))).finished = false
      ∧ (iteration lib cfg w x (iteration lib cfg w x (enter g req))).written = []
      ∧ (iteration lib cfg w x (iteration lib cfg w x (enter g req))).answers = []
      ∧ (iteration lib cfg w x (iteration lib cfg w x (enter g req))).g.validitycache
          = g.validitycache
      ∧ ∃ r, proxyServe lib cfg w x fuel g req = some r
          ∧ r.g.validitycache = g.validitycache
          ∧ r.answers = []
          ∧ (r.written = []
              ∨ ∃ n client addr up d,
                  x n client addr
                      { parsedReq cfg req with
                        RecursionDesired := true,
                        Extra := (req.Extra.map RR.eraseFirstCookie).map RR.eraseFirstCookie }
                    = Except.ok up
                  ∧ lib.pack { up with RecursionAvailable := false, Question := [] } = some d
                  ∧ r.written = [d]) := by
  obtain ⟨a1, a2, a3, a4, a5, r, hr, hv, ha, -, hw⟩ :=
    proxyServe_validated_path lib cfg w x g req fuel hfuel hresp hq hwt hrc hpc hvc
  exact ⟨a1, a2, a3, a4, a5, r, hr, hv, ha, hw⟩

set_option maxRecDepth 100000 in
theorem proxyServe_validated_no_challenge_witness :
    (iteration stdLib exFlags exClient exUpstream
        (iteration stdLib exFlags exClient exUpstream (enter exValidatedGlobals exQuery))).reqState
        = PERFORM_DNS
      ∧ ∃ r, proxyServe stdLib exFlags exClient exUpstream 4 exValidatedGlobals exQuery = some r
          ∧ r.g.validitycache = exValidatedGlobals.validitycache
          ∧ r.answers = [] :=
  (proxyServe_validated_no_challenge stdLib exFlags exClient exUpstream exValidatedGlobals
      exQuery 4 (by decide) (by decide) (by decide) (by decide) (fun _ => by decide!)
      (by decide!) (by decide!)).imp id
    (fun h => h.2.2.2.2.imp (fun _ h' => ⟨h'.1, h'.2.1, h'.2.2.1⟩))

/-! ## The state loop: the follow-up query -/

theorem filterQuestions_challenge (lib : Lib) (cfg : Flags) (w : ResponseWriter) (req : Msg) :
    filterQuestions cfg (challengeOf lib cfg w req).questions
      = (challengeOf lib cfg w req).questions := by
  rw [challengeOf_eq]
  simp only [filterQuestions]
  rw [List.filter_eq_self]
  intro q hq
  obtain ⟨q₀, hq₀, rfl⟩ := List.mem_map.mp hq
  have h1 := (List.mem_filter.mp (List.mem_filter.mp hq₀).1).2
  simpa [challengeQuestion] using h1

theorem challengeOf_questions_ne_nil (lib : Lib) (cfg : Flags) (w : ResponseWriter) (req : Msg)
    (h : ∃ q ∈ filterQuestions cfg req.Question, q.Name ≠ ".") :
    (challengeOf lib cfg w req).questions ≠ [] := by
  rw [challengeOf_eq]
  obtain ⟨q, hq, hn⟩ := h
  have : challengeQuestion (ldnsKey lib w) q
      ∈ ((filterQuestions cfg req.Question).filter (fun q => q.Name != ".")).map
          (challengeQuestion (ldnsKey lib w)) :=
    List.mem_map.mpr ⟨q, List.mem_filter.mpr ⟨hq, by simpa using hn⟩, rfl⟩
  exact List.ne_nil_of_mem this

theorem pendingKey_eq_of_same_host (lib : Lib) (cfg : Flags) (w w' : ResponseWriter)
    (req req' : Msg)
    (hquestions : req'.Question = (challengeOf lib cfg w req).questions)
    (hhost : splitColonHead w'.remoteAddr = splitColonHead w.remoteAddr)
    (hnet : w'.network = w.network) :
    parsedValidationKey lib cfg w' req' = pendingKey lib cfg w req := by
  simp only [parsedValidationKey, pendingKey, generateValidationKey, validationKeyText,
    parsedReq, pendingMsg, hquestions, filterQuestions_challenge, hhost, hnet]

/-- C2. After a challenge was issued to a client for a query with at least one non-root
question, a later query (not a response, well typed) from the same host and transport, from
any source port, whose question list is the list `Q'` of expected follow-up questions is
accepted by `VALIDATE` when the pending entry is live (the cache still returns the bytes the
challenge stored, which are non-empty and unpack to the stored questions) and the response
cache misses: the validation key of
`PARSE_REQ` is the key the challenge was stored under, the first question equals the first
stored question, `valReqCount` is increased by one (and `valErrCount` is not), the entry is
copied to the validated-client cache, and the first pass of the state loop ends in the state
`PERFORM_DNS`. -/
theorem proxyServe_followUp_accepted (lib : Lib) (cfg : Flags) (w w' : ResponseWriter)
    (x : Exchange) (g' : Globals) (req req' : Msg) (data : Bytes)
    (hfirst : ∃ q ∈ filterQuestions cfg req.Question, q.Name ≠ ".")
    (hresp : req'.Response = false)
    (hwt : req'.wellTyped = true)
    (hquestions : req'.Question = (challengeOf lib cfg w req).questions)
    (hhost : splitColonHead w'.remoteAddr = splitColonHead w.remoteAddr)
    (hnet : w'.network = w.network)
    (hlive : g'.validitycache.Get (pendingKey lib cfg w req)
        = lib.pack (pendingMsg lib cfg w req))
    (hpack : lib.pack (pendingMsg lib cfg w req) = some data)
    (hdata : data ≠ [])
    (hunpack : (lib.unpack data).Question = (pendingMsg lib cfg w req).Question)
    (hrc : cfg.ENCACHE = true → g'.respcache.bytes (parsedReqKey lib cfg req') = []) :
    parsedValidationKey lib cfg w' req' = pendingKey lib cfg w req
      ∧ (∃ q₀, (filterQuestions cfg req'.Question).head? = some q₀
          ∧ (lib.unpack data).Question.head? = some q₀)
      ∧ (iteration lib cfg w' x (enter g' req')).reqState = PERFORM_DNS
      ∧ (iteration lib cfg w' x (enter g' req')).finished = false
      ∧ (iteration lib cfg w' x (enter g' req')).g.valReqCount = AddUint64 g'.valReqCount 1
      ∧ (iteration lib cfg w' x (enter g' req')).g.valErrCount = g'.valErrCount
      ∧ (iteration lib cfg w' x (enter g' req')).g.validatedcache
          = g'.validatedcache.Set
              (generateValidationKey lib
                { Question := resolveDomainFromCname lib (challengeOf lib cfg w req).questions
                    (lib.unpack data).Answer } w')
              data (secondsDuration cfg.revalidation)
      ∧ (g'.valReqCount + 1 < 18446744073709551616 →
          AddUint64 g'.valReqCount 1 = g'.valReqCount + 1)
      ∧ ∀ fuel, proxyServe lib cfg w' x (fuel + 1) g' req'
          = stateWheel (iteration lib cfg w' x) fuel (iteration lib cfg w' x (enter g' req')) := by
  have hkey := pendingKey_eq_of_same_host lib cfg w w' req req' hquestions hhost hnet
  have hfq : filterQuestions cfg req'.Question = (challengeOf lib cfg w req).questions := by
    rw [hquestions, filterQuestions_challenge]
  have hne := challengeOf_questions_ne_nil lib cfg w req hfirst
  obtain ⟨q₀, rest, hq₀⟩ := List.exists_cons_of_ne_nil hne
  have hmq : (lib.unpack data).Question = q₀ :: rest := by
    rw [hunpack]; simpa [pendingMsg] using hq₀
  have hwt' : req'.Extra.all RR.wellTyped = true := hwt
  have hlen : ¬ data.length = 0 := by simpa using hdata
  have hkey' := hkey
  simp only [parsedValidationKey, generateValidationKey, validationKeyText, parsedReq, hfq,
    hq₀] at hkey'
  have hlive' := hlive
  rw [hpack, ← hkey] at hlive'
  simp only [parsedValidationKey, generateValidationKey, validationKeyText, parsedReq, hfq,
    hq₀, hresp] at hlive'
  simp only [parsedReqKey, parsedReq, hfq, hq₀, hresp] at hrc
  have hiter : (iteration lib cfg w' x (enter g' req')).reqState = PERFORM_DNS
      ∧ (iteration lib cfg w' x (enter g' req')).finished = false
      ∧ (iteration lib cfg w' x (enter g' req')).g.valReqCount = AddUint64 g'.valReqCount 1
      ∧ (iteration lib cfg w' x (enter g' req')).g.valErrCount = g'.valErrCount
      ∧ (iteration lib cfg w' x (enter g' req')).g.validatedcache
          = g'.validatedcache.Set
              (generateValidationKey lib
                { Question := resolveDomainFromCname lib (q₀ :: rest)
                    (lib.unpack data).Answer } w')
              data (secondsDuration cfg.revalidation) := by
    by_cases hen : cfg.ENCACHE = true
    · have hrc' := hrc hen
      simp [iteration, enter, FILTER_REQ, caseFILTER_REQ, hresp, hfq, hq₀, casePARSE_REQ,
        generateReqKey_of_extra, hwt', caseRESP_CACHE_CHECK, caseVALIDATE, hen,
        match_get_eq_bytes, hrc', generateValidationKey, validationKeyText, hlive', hlen,
        hmq, Ctx.finished, PERFORM_DNS]
    · simp [iteration, enter, FILTER_REQ, caseFILTER_REQ, hresp, hfq, hq₀, casePARSE_REQ,
        generateReqKey_of_extra, hwt', caseRESP_CACHE_CHECK, caseVALIDATE, hen,
        match_get_eq_bytes, generateValidationKey, validationKeyText, hlive', hlen,
        hmq, Ctx.finished, PERFORM_DNS]
  refine ⟨hkey, ⟨q₀, ?_, ?_⟩, hiter.1, hiter.2.1, hiter.2.2.1, hiter.2.2.2.1, ?_, ?_, ?_⟩
  · rw [hfq, hq₀]; rfl
  · rw [hmq]; rfl
  · rw [hiter.2.2.2.2, hq₀]
  · intro hlt
    exact Nat.mod_eq_of_lt hlt
  · intro fuel
    rfl

set_option maxRecDepth 100000 in
theorem proxyServe_followUp_accepted_witness :
    parsedValidationKey stdLib exFlags exClientOtherPort exFollowUp
        = pendingKey stdLib exFlags exClient exQuery
      ∧ (iteration stdLib exFlags exClientOtherPort exUpstream
          (enter exChallengedGlobals exFollowUp)).reqState = PERFORM_DNS
      ∧ (iteration stdLib exFlags exClientOtherPort exUpstream
          (enter exChallengedGlobals exFollowUp)).g.valReqCount = 1 :=
  have h := proxyServe_followUp_accepted stdLib exFlags exClient exClientOtherPort exUpstream
    exChallengedGlobals exQuery exFollowUp exPendingBytes
    ⟨exQuestion, by decide, by decide⟩ (by decide) (by decide) rfl (by decide) (by decide)
    (by decide!) (by decide!) (by decide!) (by decide!) (fun _ => by decide!)
  ⟨h.1, h.2.2.1, h.2.2.2.2.1.trans (by decide!)⟩

/-! ## The state loop: a validated client asks again -/

/-- C6 (amended). The validated-client entry is stored under the validation key of a question
list `Qv` (the rewritten questions of the follow-up query) and the client's host and
transport.  A later query (not a response, well typed) from the same host and transport whose
filtered question list is `Qv` again has that key as its validation key; when the entry is
live, the response cache misses and no pending entry exists under the key, the query takes
the validated-client path: the second pass ends in `PERFORM_DNS` with nothing written and no
challenge answer built, the handler returns without touching the pending-challenge cache,
and an upstream is queried. -/
theorem proxyServe_validated_same_questions (lib : Lib) (cfg : Flags) (w₀ w : ResponseWriter)
    (x : Exchange) (g : Globals) (req : Msg) (Qv : List Question) (fuel : Nat)
    (hfuel : 4 ≤ fuel)
    (hhost : splitColonHead w.remoteAddr = splitColonHead w₀.remoteAddr)
    (hnet : w.network = w₀.network)
    (hresp : req.Response = false)
    (hwt : req.wellTyped = true)
    (hsame : filterQuestions cfg req.Question = Qv)
    (hne : Qv ≠ [])
    (hrc : cfg.ENCACHE = true → g.respcache.bytes (parsedReqKey lib cfg req) = [])
    (hpc : g.validitycache.bytes (generateValidationKey lib { Question := Qv } w₀) = [])
    (hentry : g.validatedcache.bytes (generateValidationKey lib { Question := Qv } w₀) ≠ [])
    (hdns : cfg.DNS ≠ []) :
    parsedValidationKey lib cfg w req = generateValidationKey lib { Question := Qv } w₀
      ∧ (iteration lib cfg w x (iteration lib cfg w x (enter g req))).reqState = PERFORM_DNS
      ∧ (iteration lib cfg w x (iteration lib cfg w x (enter g req))).written = []
      ∧ (iteration lib cfg w x (iteration lib cfg w x (enter g req))).answers = []
      ∧ ∃ r, proxyServe lib cfg w x fuel g req = some r
          ∧ r.g.validitycache = g.validitycache
          ∧ r.answers = []
          ∧ r.upstream ≠ [] := by
  have hkey : parsedValidationKey lib cfg w req
      = generateValidationKey lib { Question := Qv } w₀ := by
    simp only [parsedValidationKey, generateValidationKey, validationKeyText, parsedReq, hsame,
      hhost, hnet]
  have hq : filterQuestions cfg req.Question ≠ [] := by rw [hsame]; exact hne
  rw [← hkey] at hpc hentry
  obtain ⟨a1, -, a3, a4, -, r, hr, hv, ha, hu, -⟩ :=
    proxyServe_validated_path lib cfg w x g req fuel hfuel hresp hq hwt hrc hpc hentry
  exact ⟨hkey, a1, a3, a4, r, hr, hv, ha, hu hdns⟩

set_option maxRecDepth 100000 in
theorem proxyServe_validated_same_questions_witness :
    parsedValidationKey stdLib exFlags exClientOtherPort exRepeatQuery
        = generateValidationKey stdLib { Question := [exQuestion] } exClient
      ∧ ∃ r, proxyServe stdLib exFlags exClientOtherPort exUpstream 4 exFollowedGlobals
            exRepeatQuery = some r
          ∧ r.answers = []
          ∧ r.upstream ≠ [] :=
  have h := proxyServe_validated_same_questions stdLib exFlags exClient exClientOtherPort
    exUpstream exFollowedGlobals exRepeatQuery [exQuestion] 4 (by decide) (by decide)
    (by decide) (by decide) (by decide) (by decide) (by decide) (fun _ => by decide!)
    (by decide!) (by decide!) (by decide)
  ⟨h.1, h.2.2.2.2.imp (fun _ h' => ⟨h'.1, h'.2.2.1, h'.2.2.2⟩)⟩

set_option maxRecDepth 100000 in
/-- C6 (counterexample). After `exClient` completed the challenge for `A example.com.`
(one validation counted, one validated-client entry), its query for `A other.com.` is
answered with a CNAME challenge: no upstream is contacted and a second pending challenge is
stored. -/
theorem proxyServe_other_name_challenged :
    exFollowedGlobals.valReqCount = 1
      ∧ exFollowedGlobals.validatedcache.items.length = 1
      ∧ (proxyServe stdLib exFlags exClient exUpstream 4 exFollowedGlobals exOtherQuery).map
          (fun r => (r.upstream.length, r.answers, r.written.length,
            r.g.validitycache.items.length))
        = some (0, [cnRecord 1800 exKey
                      { Name := "other.com.", Qtype := TypeA, Qclass := ClassINET }], 1, 2) := by
  refine ⟨?_, ?_, ?_⟩ <;> decide!

/-! ## The validation key: what it depends on -/

theorem takeWhile_append_stop {α : Type} (p : α → Bool) (a b : List α) (c : α)
    (hc : p c = false) : (a ++ c :: b).takeWhile p = a.takeWhile p := by
  induction a with
  | nil => simp [List.takeWhile, hc]
  | cons h t ih =>
    simp only [List.cons_append, List.takeWhile_cons]
    split
    · rw [ih]
    · rfl

theorem splitColonHead_host_port (host port : String) :
    splitColonHead (host ++ ":" ++ port)
      = String.mk (host.data.takeWhile (fun c => c != ':')) := by
  unfold splitColonHead
  have h : (host ++ ":" ++ port).data = host.data ++ ':' :: port.data := by
    simp [String.data_append]
  rw [h, takeWhile_append_stop _ _ _ _ (by decide)]

/-- C11. `generateValidationKey` depends only on the question list, the host and the
transport: for two messages with equal question lists (whatever their other fields) and two
remote addresses `host:port` with the same host and transport and any two ports, the
validation keys are equal. -/
theorem generateValidationKey_depends_on (lib : Lib) (req req' : Msg)
    (host port port' network : String) (wf wf' : Bool)
    (hq : req.Question = req'.Question) :
    generateValidationKey lib req
        { remoteAddr := host ++ ":" ++ port, network := network, writeFails := wf }
      = generateValidationKey lib req'
        { remoteAddr := host ++ ":" ++ port', network := network, writeFails := wf' } := by
  simp only [generateValidationKey, validationKeyText, hq, splitColonHead_host_port]

theorem generateValidationKey_depends_on_witness :
    generateValidationKey stdLib exQuery
        { remoteAddr := "192.0.2.1" ++ ":" ++ "5353", network := "udp", writeFails := false }
      = generateValidationKey stdLib exCookieQuery
        { remoteAddr := "192.0.2.1" ++ ":" ++ "40000", network := "udp", writeFails := false } :=
  generateValidationKey_depends_on stdLib exQuery exCookieQuery "192.0.2.1" "5353" "40000"
    "udp" false false (by decide)

/-! ## The state loop: silent drop -/

/-- C19. Silent drop: for a message with the response flag set, or whose question list is
empty after the AAAA filter, the handler returns in its first pass having written no reply
and contacted no upstream; the three caches and all counters are as before except
`totalRequestCount`, which is increased by one.  With `-6` set the filter removes no
question. -/
theorem proxyServe_silent_drop (lib : Lib) (cfg : Flags) (w : ResponseWriter) (x : Exchange)
    (g : Globals) (req : Msg) (fuel : Nat) (hfuel : 1 ≤ fuel)
    (h : req.Response = true ∨ filterQuestions cfg req.Question = []) :
    ∃ r, proxyServe lib cfg w x fuel g req = some r
      ∧ r.exit = Exit.returned
      ∧ r.written = []
      ∧ r.upstream = []
      ∧ r.g = { g with totalRequestCount := AddUint64 g.totalRequestCount 1 }
      ∧ (cfg.ipv6 = true → filterQuestions cfg req.Question = req.Question) := by
  obtain ⟨n, rfl⟩ := Nat.exists_eq_add_of_le hfuel
  have e0 : (enter g req).finished = false := rfl
  have hfil : cfg.ipv6 = true → filterQuestions cfg req.Question = req.Question := by
    intro h6
    simp [filterQuestions, h6]
  rw [proxyServe, show 1 + n = n + 1 by omega, stateWheel_step _ _ _ e0]
  rcases h with h | h
  · have hit : iteration lib cfg w x (enter g req) = { enter g req with exit := Exit.returned } := by
      simp [iteration, FILTER_REQ, enter, caseFILTER_REQ, h]
    rw [hit]
    exact ⟨_, stateWheel_finished _ _ _ rfl, rfl, rfl, rfl, rfl, hfil⟩
  · by_cases hr : req.Response = true
    · have hit : iteration lib cfg w x (enter g req)
          = { enter g req with exit := Exit.returned } := by
        simp [iteration, FILTER_REQ, enter, caseFILTER_REQ, hr]
      rw [hit]
      exact ⟨_, stateWheel_finished _ _ _ rfl, rfl, rfl, rfl, rfl, hfil⟩
    · have hit : iteration lib cfg w x (enter g req)
          = { enter g req with questions := [], exit := Exit.returned } := by
        simp [iteration, FILTER_REQ, enter, caseFILTER_REQ, hr, h]
      rw [hit]
      exact ⟨_, stateWheel_finished _ _ _ rfl, rfl, rfl, rfl, rfl, hfil⟩

theorem proxyServe_silent_drop_witness :
    ∃ r, proxyServe stdLib exFlags exClient exUpstream 1 exGlobals exV6Query = some r
      ∧ r.exit = Exit.returned
      ∧ r.written = []
      ∧ r.upstream = []
      ∧ r.g = { exGlobals with totalRequestCount := AddUint64 exGlobals.totalRequestCount 1 } :=
  (proxyServe_silent_drop stdLib exFlags exClient exUpstream exGlobals exV6Query 1 (by decide)
      (Or.inr (by decide))).imp
    (fun _ h => ⟨h.1, h.2.1, h.2.2.1, h.2.2.2.1, h.2.2.2.2.1⟩)

/-! ## The state loop: response-cache hit -/

/-- C12. Response-cache hit: for a query (not a response, with a question left by the filter,
well typed), when caching is enabled and the response cache holds non-empty bytes under the
request key computed in `PARSE_REQ`, and the cached message with the query's ID packs, the
first pass ends in `SEND_RESP` and the handler returns having written exactly that packed
message (the cached message with its ID replaced by the query's ID, every other field as
cached); `respCacheHitCount` is increased by one, no upstream is contacted, and, whatever
the pending-challenge and validated-client caches hold, they and every other counter except
`totalRequestCount` are unchanged. -/
theorem proxyServe_cache_hit (lib : Lib) (cfg : Flags) (w : ResponseWriter) (x : Exchange)
    (g : Globals) (req : Msg) (fuel : Nat) (hfuel : 2 ≤ fuel) (data d : Bytes)
    (hresp : req.Response = false)
    (hq : filterQuestions cfg req.Question ≠ [])
    (hwt : req.wellTyped = true)
    (hen : cfg.ENCACHE = true)
    (hget : g.respcache.Get (parsedReqKey lib cfg req) = some data)
    (hdata : data ≠ [])
    (hpack : lib.pack { lib.unpack data with Id := req.Id } = some d) :
    (iteration lib cfg w x (enter g req)).reqState = SEND_RESP
      ∧ ∃ r, proxyServe lib cfg w x fuel g req = some r
          ∧ r.written = [d]
          ∧ r.upstream = []
          ∧ r.g = { g with totalRequestCount := AddUint64 g.totalRequestCount 1,
                           respCacheHitCount := AddUint64 g.respCacheHitCount 1 } := by
  have hwt' : req.Extra.all RR.wellTyped = true := hwt
  have hlen : 0 < data.length := List.length_pos.mpr hdata
  simp only [parsedReqKey, parsedReq, hresp] at hget
  have key : (iteration lib cfg w x (enter g req)).reqState = SEND_RESP
      ∧ (iteration lib cfg w x (enter g req)).finished = false
      ∧ (iteration lib cfg w x (iteration lib cfg w x (enter g req))).finished = true
      ∧ (iteration lib cfg w x (iteration lib cfg w x (enter g req))).written = [d]
      ∧ (iteration lib cfg w x (iteration lib cfg w x (enter g req))).upstream = []
      ∧ (iteration lib cfg w x (iteration lib cfg w x (enter g req))).g
          = { g with totalRequestCount := AddUint64 g.totalRequestCount 1,
                     respCacheHitCount := AddUint64 g.respCacheHitCount 1 } := by
    simp [iteration, enter, FILTER_REQ, PARSE_REQ, RESP_CACHE_CHECK, VALIDATE, VALIDITY_CHECK,
      PERFORM_DNS, ADD_RESP_CACHE, SEND_RESP, END, caseFILTER_REQ, hresp, hq, casePARSE_REQ,
      generateReqKey_of_extra, hwt', caseRESP_CACHE_CHECK, hen, hget, hlen, hpack,
      caseSEND_RESP, caseEND, Ctx.finished]
  refine ⟨key.1, _, ?_, key.2.2.2⟩
  obtain ⟨n, rfl⟩ := Nat.exists_eq_add_of_le hfuel
  have e0 : (enter g req).finished = false := rfl
  rw [proxyServe, show 2 + n = n + 1 + 1 by omega, stateWheel_step _ _ _ e0,
    stateWheel_step _ _ _ key.2.1, stateWheel_finished _ _ _ key.2.2.1]

set_option maxRecDepth 100000 in
theorem proxyServe_cache_hit_witness :
    (iteration stdLib exFlags exClient exUpstream (enter exCachedGlobals exQuery)).reqState
        = SEND_RESP
      ∧ ∃ r, proxyServe stdLib exFlags exClient exUpstream 2 exCachedGlobals exQuery = some r
          ∧ r.written = [(stdLib.pack { exCachedMsg with Id := 7 }).getD []]
          ∧ r.upstream = [] :=
  (proxyServe_cache_hit stdLib exFlags exClient exUpstream exCachedGlobals exQuery 2 (by decide)
      ((stdLib.pack exCachedMsg).getD []) ((stdLib.pack { exCachedMsg with Id := 7 }).getD [])
      (by decide) (by decide) (by decide) (by decide) (by decide!) (by decide!)
      (by decide!)).imp id
    (fun h => h.imp (fun _ h' => ⟨h'.1, h'.2.1, h'.2.2.1⟩))

/-! ## The state loop: challenge mismatch -/

/-- C16 (amended). Challenge mismatch: for a request (not a response, well typed) that misses
the response cache and whose validation key has a non-empty pending-challenge entry whose
unpacked message has a first question different from the request's first question, the
handler returns with the error of an invalid request, having written no reply and contacted
no upstream; `valErrCount` is increased by one, and the validated-client cache,
`valReqCount`, the other caches and every other counter except `totalRequestCount` are
unchanged. -/
theorem proxyServe_challenge_mismatch (lib : Lib) (cfg : Flags) (w : ResponseWriter)
    (x : Exchange) (g : Globals) (req : Msg) (fuel : Nat) (hfuel : 2 ≤ fuel) (data : Bytes)
    (q₀ m₀ : Question)
    (hresp : req.Response = false)
    (hwt : req.wellTyped = true)
    (hrc : cfg.ENCACHE = true → g.respcache.bytes (parsedReqKey lib cfg req) = [])
    (hget : g.validitycache.Get (parsedValidationKey lib cfg w req) = some data)
    (hdata : data ≠ [])
    (hq₀ : (filterQuestions cfg req.Question).head? = some q₀)
    (hm₀ : (lib.unpack data).Question.head? = some m₀)
    (hne : q₀ ≠ m₀) :
    ∃ r, proxyServe lib cfg w x fuel g req = some r
      ∧ r.err = some (Err.invalidReq q₀ m₀)
      ∧ r.written = []
      ∧ r.upstream = []
      ∧ r.g = { g with totalRequestCount := AddUint64 g.totalRequestCount 1,
                       valErrCount := AddUint64 g.valErrCount 1 } := by
  have hwt' : req.Extra.all RR.wellTyped = true := hwt
  have hlen : ¬ data.length = 0 := by simpa using hdata
  obtain ⟨rest, hfq⟩ : ∃ rest, filterQuestions cfg req.Question = q₀ :: rest := by
    cases hf : filterQuestions cfg req.Question with
    | nil => rw [hf] at hq₀; cases hq₀
    | cons a rest =>
      rw [hf] at hq₀
      cases hq₀
      exact ⟨rest, rfl⟩
  obtain ⟨mrest, hmq⟩ : ∃ mrest, (lib.unpack data).Question = m₀ :: mrest := by
    cases hf : (lib.unpack data).Question with
    | nil => rw [hf] at hm₀; cases hm₀
    | cons a rest =>
      rw [hf] at hm₀
      cases hm₀
      exact ⟨rest, rfl⟩
  simp only [parsedReqKey, parsedReq, hfq, hresp] at hrc
  simp only [parsedValidationKey, generateValidationKey, validationKeyText, parsedReq, hfq,
    hresp] at hget
  have key : (iteration lib cfg w x (enter g req)).finished = false
      ∧ (iteration lib cfg w x (iteration lib cfg w x (enter g req))).finished = true
      ∧ (iteration lib cfg w x (iteration lib cfg w x (enter g req))).err
          = some (Err.invalidReq q₀ m₀)
      ∧ (iteration lib cfg w x (iteration lib cfg w x (enter g req))).written = []
      ∧ (iteration lib cfg w x (iteration lib cfg w x (enter g req))).upstream = []
      ∧ (iteration lib cfg w x (iteration lib cfg w x (enter g req))).g
          = { g with totalRequestCount := AddUint64 g.totalRequestCount 1,
                     valErrCount := AddUint64 g.valErrCount 1 } := by
    by_cases hen : cfg.ENCACHE = true
    · have hrc' := hrc hen
      simp [iteration, enter, FILTER_REQ, PARSE_REQ, RESP_CACHE_CHECK, VALIDATE,
        VALIDITY_CHECK, PERFORM_DNS, ADD_RESP_CACHE, SEND_RESP, END, caseFILTER_REQ, hresp,
        hfq, casePARSE_REQ, generateReqKey_of_extra, hwt', caseRESP_CACHE_CHECK, caseVALIDATE,
        hen, match_get_eq_bytes, hrc', generateValidationKey, validationKeyText, hget, hlen,
        hmq, hne, caseEND, Ctx.finished]
    · simp [iteration, enter, FILTER_REQ, PARSE_REQ, RESP_CACHE_CHECK, VALIDATE,
        VALIDITY_CHECK, PERFORM_DNS, ADD_RESP_CACHE, SEND_RESP, END, caseFILTER_REQ, hresp,
        hfq, casePARSE_REQ, generateReqKey_of_extra, hwt', caseRESP_CACHE_CHECK, caseVALIDATE,
        hen, match_get_eq_bytes, generateValidationKey, validationKeyText, hget, hlen,
        hmq, hne, caseEND, Ctx.finished]
  refine ⟨_, ?_, key.2.2⟩
  obtain ⟨n, rfl⟩ := Nat.exists_eq_add_of_le hfuel
  have e0 : (enter g req).finished = false := rfl
  rw [proxyServe, show 2 + n = n + 1 + 1 by omega, stateWheel_step _ _ _ e0,
    stateWheel_step _ _ _ key.1, stateWheel_finished _ _ _ key.2.1]

set_option maxRecDepth 100000 in
theorem proxyServe_challenge_mismatch_witness :
    ∃ r, proxyServe stdLib exFlags exClient exUpstream 2 exMismatchGlobals exQuery = some r
      ∧ r.written = []
      ∧ r.upstream = []
      ∧ r.g = { exMismatchGlobals with
                totalRequestCount := AddUint64 exMismatchGlobals.totalRequestCount 1,
                valErrCount := AddUint64 exMismatchGlobals.valErrCount 1 } :=
  (proxyServe_challenge_mismatch stdLib exFlags exClient exUpstream exMismatchGlobals exQuery 2
      (by decide) ((stdLib.pack exOtherPending).getD []) exQuestion
      { Name := "other.com.", Qtype := TypeA, Qclass := ClassINET }
      (by decide) (by decide) (fun _ => by decide!) (by decide!) (by decide!) (by decide)
      (by decide!) (by decide)).imp
    (fun _ h => ⟨h.1, h.2.2.1, h.2.2.2.1, h.2.2.2.2⟩)

set_option maxRecDepth 100000 in
/-- C16 (counterexample). The request `exQuery` has, under its validation key, a pending
entry whose first question is `A other.com.`, and under its request key a response-cache
entry: it is answered from the response cache, with no error and `valErrCount` unchanged. -/
theorem proxyServe_mismatch_cache_hit :
    (exMismatchCachedGlobals.validitycache.Get
        (parsedValidationKey stdLib exFlags exClient exQuery)).map
          (fun d => (stdLib.unpack d).Question.head?)
        = some (some { Name := "other.com.", Qtype := TypeA, Qclass := ClassINET })
      ∧ (filterQuestions exFlags exQuery.Question).head? = some exQuestion
      ∧ (proxyServe stdLib exFlags exClient exUpstream 2 exMismatchCachedGlobals exQuery).map
          (fun r => (r.err, r.written.length, r.g.valErrCount))
        = some (none, 1, 0) := by
  refine ⟨?_, by decide, ?_⟩ <;> decide!

/-! ## The state loop: the root sentinel -/

/-- C18 (amended). Root sentinel: for an unvalidated query (not a response, well typed,
response cache miss, no pending and no validated entry under its validation key) whose only
question `q`
has the name `.` and passes the AAAA filter, the handler returns having written the packed
challenge reply (nothing when packing fails), whose only answer is the A record with owner
`.`, TTL `uint32(ttl)` (the configured `ttl` when `0 ≤ ttl < 2^32`) and address
`10.40.221.132`; no CNAME is among the answers, the pending-challenge cache is unchanged and
no upstream is contacted. -/
theorem proxyServe_root_sentinel (lib : Lib) (cfg : Flags) (w : ResponseWriter)
    (x : Exchange) (g : Globals) (req : Msg) (fuel : Nat) (hfuel : 3 ≤ fuel) (q : Question)
    (hresp : req.Response = false)
    (hwt : req.wellTyped = true)
    (hrc : cfg.ENCACHE = true → g.respcache.bytes (parsedReqKey lib cfg req) = [])
    (hpc : g.validitycache.bytes (parsedValidationKey lib cfg w req) = [])
    (hvc : g.validatedcache.bytes (parsedValidationKey lib cfg w req) = [])
    (honly : req.Question = [q])
    (hname : q.Name = ".")
    (hpass : q.Qtype ≠ TypeAAAA ∨ cfg.ipv6 = true) :
    ∃ r, proxyServe lib cfg w x fuel g req = some r
      ∧ r.written = (lib.pack (replyOf lib cfg w req)).toList
      ∧ (replyOf lib cfg w req).Answer
          = [RR.A { Name := ".", Rrtype := TypeA, Class := ClassINET, Ttl := uint32 cfg.ttl,
                    Rdlength := 0 } "10.40.221.132"]
      ∧ (∀ a ∈ (replyOf lib cfg w req).Answer, a.isCNAME = false)
      ∧ (0 ≤ cfg.ttl → cfg.ttl < 4294967296 → (uint32 cfg.ttl : Int) = cfg.ttl)
      ∧ r.g.validitycache = g.validitycache
      ∧ r.upstream = [] := by
  have hfq : filterQuestions cfg req.Question = [q] := by
    rw [honly]
    rcases hpass with h | h
    · simp [filterQuestions, h]
    · simp [filterQuestions, h]
  have hq : filterQuestions cfg req.Question ≠ [] := by rw [hfq]; simp
  obtain ⟨r, hr, hw, hu, -, hv, -⟩ :=
    proxyServe_challenge lib cfg w x g req fuel hfuel hresp hq hwt hrc hpc hvc
  have hans : (replyOf lib cfg w req).Answer
      = [RR.A { Name := ".", Rrtype := TypeA, Class := ClassINET, Ttl := uint32 cfg.ttl,
                Rdlength := 0 } "10.40.221.132"] := by
    rw [replyOf_answer, hfq]
    simp [challengeRecord, hname, aRecord]
  have hneed : (challengeOf lib cfg w req).validationNeeded = false := by
    rw [challengeOf_eq, hfq]
    simp [hname]
  refine ⟨r, hr, hw, hans, ?_, uint32_of_range cfg.ttl, ?_, hu⟩
  · intro a ha
    rw [hans] at ha
    simp only [List.mem_singleton] at ha
    rw [ha]
    rfl
  · rw [hv, hneed]
    simp

set_option maxRecDepth 100000 in
theorem proxyServe_root_sentinel_witness :
    ∃ r, proxyServe stdLib exFlags exClient exUpstream 3 exGlobals exRootQuery = some r
      ∧ r.written = (stdLib.pack (replyOf stdLib exFlags exClient exRootQuery)).toList
      ∧ r.g.validitycache = exGlobals.validitycache
      ∧ r.upstream = [] :=
  (proxyServe_root_sentinel stdLib exFlags exClient exUpstream exGlobals exRootQuery 3
      (by decide) { Name := ".", Qtype := TypeA, Qclass := ClassINET }
      (by decide) (by decide) (fun _ => by decide!) (by decide!) (by decide!) rfl rfl
      (Or.inl (by decide))).imp
    (fun _ h => ⟨h.1, h.2.1, h.2.2.2.2.2.1, h.2.2.2.2.2.2⟩)

/-! ## The upstream loop -/

theorem AddUint64_succ (c k : Nat) : AddUint64 (AddUint64 c 1) k = AddUint64 c (k + 1) := by
  unfold AddUint64
  rw [Nat.add_mod, Nat.mod_mod, ← Nat.add_mod]
  congr 1
  omega

theorem AddUint64_one_add (c k : Nat) : AddUint64 (AddUint64 c 1) k = AddUint64 c (1 + k) := by
  rw [AddUint64_succ, Nat.add_comm]

theorem dispatch_cons_ok (x : Exchange) (req : Msg) (e : String × String)
    (rest : List (String × String)) (d : Dispatch) (r : Msg)
    (hx : x d.upstream.length (if e.2 = "tcp" then "tcp" else "udp") e.1 req = Except.ok r) :
    dispatch x req (e :: rest) d
      = if r.Answer.length > 0 then
          { m := some r, err := none,
            totalDnsQueryCount := AddUint64 d.totalDnsQueryCount 1,
            failedDnsQueryCount := d.failedDnsQueryCount,
            upstream := d.upstream ++ [exchangeLog req e] }
        else dispatch x req rest
          { m := some r, err := none,
            totalDnsQueryCount := AddUint64 d.totalDnsQueryCount 1,
            failedDnsQueryCount := AddUint64 d.failedDnsQueryCount 1,
            upstream := d.upstream ++ [exchangeLog req e] } := by
  simp only [dispatch, hx, exchangeLog]

theorem dispatch_cons_error (x : Exchange) (req : Msg) (e : String × String)
    (rest : List (String × String)) (d : Dispatch) (err : String)
    (hx : x d.upstream.length (if e.2 = "tcp" then "tcp" else "udp") e.1 req
      = Except.error err) :
    dispatch x req (e :: rest) d
      = dispatch x req rest
          { m := none, err := some (Err.exchange err),
            totalDnsQueryCount := AddUint64 d.totalDnsQueryCount 1,
            failedDnsQueryCount := AddUint64 d.failedDnsQueryCount 1,
            upstream := d.upstream ++ [exchangeLog req e] } := by
  simp only [dispatch, hx, exchangeLog]

theorem dispatch_cons_fail (x : Exchange) (req : Msg) (e : String × String)
    (rest : List (String × String)) (d : Dispatch)
    (hf : attemptFails x req d.upstream.length e = true) :
    ∃ m err, dispatch x req (e :: rest) d
      = dispatch x req rest
          { m := m, err := err,
            totalDnsQueryCount := AddUint64 d.totalDnsQueryCount 1,
            failedDnsQueryCount := AddUint64 d.failedDnsQueryCount 1,
            upstream := d.upstream ++ [exchangeLog req e] } := by
  simp only [attemptFails, attemptReply] at hf
  cases hx : x d.upstream.length (if e.2 = "tcp" then "tcp" else "udp") e.1 req with
  | error err => exact ⟨_, _, dispatch_cons_error x req e rest d err hx⟩
  | ok r =>
    rw [hx] at hf
    have hlen : ¬ r.Answer.length > 0 := by
      simp only [beq_iff_eq] at hf
      omega
    exact ⟨some r, none, by rw [dispatch_cons_ok x req e rest d r hx, if_neg hlen]⟩

theorem dispatch_all_fail (x : Exchange) (req : Msg) (dns : List (String × String))
    (d : Dispatch)
    (hfail : ∀ (i : Nat) (e : String × String), dns[i]? = some e →
      attemptFails x req (d.upstream.length + i) e = true) :
    (dispatch x req dns d).upstream = d.upstream ++ dns.map (exchangeLog req)
      ∧ (dispatch x req dns d).totalDnsQueryCount
          = (if dns = [] then d.totalDnsQueryCount
             else AddUint64 d.totalDnsQueryCount dns.length)
      ∧ (dispatch x req dns d).failedDnsQueryCount
          = (if dns = [] then d.failedDnsQueryCount
             else AddUint64 d.failedDnsQueryCount dns.length) := by
  induction dns generalizing d with
  | nil => simp [dispatch]
  | cons e rest ih =>
    have h0 := hfail 0 e (by simp)
    obtain ⟨m, err, hd⟩ := dispatch_cons_fail x req e rest d h0
    rw [hd]
    obtain ⟨i1, i2, i3⟩ := ih
      { m := m, err := err,
        totalDnsQueryCount := AddUint64 d.totalDnsQueryCount 1,
        failedDnsQueryCount := AddUint64 d.failedDnsQueryCount 1,
        upstream := d.upstream ++ [exchangeLog req e] }
      (by
        intro i e' hi
        have := hfail (i + 1) e' (by simpa using hi)
        simpa [Nat.add_assoc, Nat.add_comm 1 i] using this)
    refine ⟨?_, ?_, ?_⟩
    · rw [i1]; simp
    · rw [i2]
      by_cases hr : rest = []
      · simp [hr]
      · simp [hr, AddUint64_succ]
    · rw [i3]
      by_cases hr : rest = []
      · simp [hr]
      · simp [hr, AddUint64_succ]

theorem dispatch_first_success (x : Exchange) (req : Msg) (pre post : List (String × String))
    (e : String × String) (r : Msg) (d : Dispatch)
    (hfail : ∀ (i : Nat) (e' : String × String), pre[i]? = some e' →
      attemptFails x req (d.upstream.length + i) e' = true)
    (hok : attemptReply x req (d.upstream.length + pre.length) e = Except.ok r)
    (hans : r.Answer ≠ []) :
    dispatch x req (pre ++ e :: post) d
      = { m := some r, err := none,
          totalDnsQueryCount := AddUint64 d.totalDnsQueryCount (pre.length + 1),
          failedDnsQueryCount :=
            (if pre = [] then d.failedDnsQueryCount
             else AddUint64 d.failedDnsQueryCount pre.length),
          upstream := d.upstream ++ (pre ++ [e]).map (exchangeLog req) } := by
  induction pre generalizing d with
  | nil =>
    simp only [List.length_nil, Nat.add_zero, attemptReply] at hok
    have hlen : r.Answer.length > 0 := List.length_pos.mpr hans
    rw [List.nil_append, dispatch_cons_ok x req e post d r hok, if_pos hlen]
    simp
  | cons e0 rest ih =>
    have h0 := hfail 0 e0 (by simp)
    obtain ⟨m, err, hd⟩ := dispatch_cons_fail x req e0 (rest ++ e :: post) d h0
    rw [List.cons_append, hd]
    rw [ih
      { m := m, err := err,
        totalDnsQueryCount := AddUint64 d.totalDnsQueryCount 1,
        failedDnsQueryCount := AddUint64 d.failedDnsQueryCount 1,
        upstream := d.upstream ++ [exchangeLog req e0] }
      (by
        intro i e' hi
        have := hfail (i + 1) e' (by simpa using hi)
        simpa [Nat.add_assoc, Nat.add_comm 1 i] using this)
      (by
        have := hok
        simpa [Nat.add_assoc, Nat.add_comm 1 rest.length] using this)]
    by_cases hr : rest = []
    · simp [hr, AddUint64_succ]
    · simp [hr, AddUint64_succ]

/-- C14. The upstream loop tries the endpoints in order.  When the endpoints before `e` all
fail (transport error or empty Answer section) and the exchange with `e` returns a reply
`r` with a non-empty Answer section, the loop ends with `m = r` and no error, has exchanged
with the endpoints up to `e` in order and with none after it, has increased
`totalDnsQueryCount` by the number `k` of attempts and `failedDnsQueryCount` by `k - 1`.
When every endpoint fails, all `n` endpoints are exchanged with and both counters are
increased by `n`.  The counters are unsigned 64-bit (`AddUint64`). -/
theorem dispatch_in_order (x : Exchange) (req : Msg) (d : Dispatch) :
    (∀ (pre post : List (String × String)) (e : String × String) (r : Msg),
        (∀ (i : Nat) (e' : String × String), pre[i]? = some e' →
          attemptFails x req (d.upstream.length + i) e' = true) →
        attemptReply x req (d.upstream.length + pre.length) e = Except.ok r →
        r.Answer ≠ [] →
        (dispatch x req (pre ++ e :: post) d).m = some r
          ∧ (dispatch x req (pre ++ e :: post) d).err = none
          ∧ (dispatch x req (pre ++ e :: post) d).upstream
              = d.upstream ++ (pre ++ [e]).map (exchangeLog req)
          ∧ (dispatch x req (pre ++ e :: post) d).totalDnsQueryCount
              = AddUint64 d.totalDnsQueryCount (pre.length + 1)
          ∧ (dispatch x req (pre ++ e :: post) d).failedDnsQueryCount
              = (if pre = [] then d.failedDnsQueryCount
                 else AddUint64 d.failedDnsQueryCount pre.length))
      ∧ (∀ (dns : List (String × String)), dns ≠ [] →
          (∀ (i : Nat) (e' : String × String), dns[i]? = some e' →
            attemptFails x req (d.upstream.length + i) e' = true) →
          (dispatch x req dns d).upstream = d.upstream ++ dns.map (exchangeLog req)
            ∧ (dispatch x req dns d).totalDnsQueryCount
                = AddUint64 d.totalDnsQueryCount dns.length
            ∧ (dispatch x req dns d).failedDnsQueryCount
                = AddUint64 d.failedDnsQueryCount dns.length) := by
  refine ⟨?_, ?_⟩
  · intro pre post e r hfail hok hans
    rw [dispatch_first_success x req pre post e r d hfail hok hans]
    exact ⟨rfl, rfl, rfl, rfl, rfl⟩
  · intro dns hne hfail
    have h := dispatch_all_fail x req dns d hfail
    simpa [hne] using h

theorem dispatch_in_order_witness :
    (dispatch exSecondAnswers exQuery ([("8.8.8.8:53", "udp")] ++ ("8.8.4.4:53", "tcp") :: [])
        exDispatch).err = none
      ∧ (dispatch exSecondAnswers exQuery
          ([("8.8.8.8:53", "udp")] ++ ("8.8.4.4:53", "tcp") :: []) exDispatch).upstream
          = exDispatch.upstream
            ++ ([("8.8.8.8:53", "udp")] ++ [("8.8.4.4:53", "tcp")]).map (exchangeLog exQuery)
      ∧ (dispatch exSecondAnswers exQuery
          ([("8.8.8.8:53", "udp")] ++ ("8.8.4.4:53", "tcp") :: []) exDispatch).totalDnsQueryCount
          = AddUint64 exDispatch.totalDnsQueryCount ([("8.8.8.8:53", "udp")].length + 1) :=
  have h := (dispatch_in_order exSecondAnswers exQuery exDispatch).1
    [("8.8.8.8:53", "udp")] [] ("8.8.4.4:53", "tcp")
    { exQuery with
      Response := true, RecursionAvailable := true,
      Answer := [RR.A { Name := "example.com.", Rrtype := TypeA, Class := ClassINET,
                        Ttl := 300, Rdlength := 4 } "93.184.216.34"] }
    (by
      intro i e' hi
      cases i with
      | zero =>
        simp only [List.getElem?_cons_zero, Option.some.injEq] at hi
        subst hi
        decide
      | succ n => simp at hi)
    rfl (by decide)
  ⟨h.2.1, h.2.2.1, h.2.2.2.1⟩

/-! ## The state `PERFORM_DNS` in general -/

theorem classifyRcode_fields (g : Globals) (rc : Nat) :
    (classifyRcode g rc).refusedCount
        = (if rc = RcodeRefused then AddUint64 g.refusedCount 1 else g.refusedCount)
      ∧ (classifyRcode g rc).nxDomainCount
        = (if rc = RcodeNameError then AddUint64 g.nxDomainCount 1 else g.nxDomainCount)
      ∧ (classifyRcode g rc).resolvedDnsQueryCount
        = (if rc = RcodeSuccess then AddUint64 g.resolvedDnsQueryCount 1
           else g.resolvedDnsQueryCount)
      ∧ (classifyRcode g rc).totalErrorCount
        = (if rc = RcodeSuccess then g.totalErrorCount else AddUint64 g.totalErrorCount 1)
      ∧ (classifyRcode g rc).respcache = g.respcache
      ∧ (classifyRcode g rc).validatedcache = g.validatedcache
      ∧ (classifyRcode g rc).validitycache = g.validitycache
      ∧ (classifyRcode g rc).totalDnsQueryCount = g.totalDnsQueryCount
      ∧ (classifyRcode g rc).failedDnsQueryCount = g.failedDnsQueryCount
      ∧ (classifyRcode g rc).totalRequestCount = g.totalRequestCount
      ∧ (classifyRcode g rc).respCacheHitCount = g.respCacheHitCount
      ∧ (classifyRcode g rc).valReqCount = g.valReqCount
      ∧ (classifyRcode g rc).valErrCount = g.valErrCount := by
  unfold classifyRcode
  by_cases h1 : rc = RcodeRefused
  · subst h1
    simp [RcodeRefused, RcodeNameError, RcodeSuccess]
  · by_cases h2 : rc = RcodeNameError
    · subst h2
      simp [RcodeRefused, RcodeNameError, RcodeSuccess]
    · by_cases h3 : rc = RcodeSuccess
      · subst h3
        simp [RcodeRefused, RcodeNameError, RcodeSuccess]
      · simp [h1, h2, h3]

theorem classifyRcode_dns_counts (g : Globals) (t f rc : Nat) :
    (classifyRcode { g with totalDnsQueryCount := t, failedDnsQueryCount := f } rc).refusedCount
        = (classifyRcode g rc).refusedCount
      ∧ (classifyRcode { g with totalDnsQueryCount := t,
                                failedDnsQueryCount := f } rc).nxDomainCount
        = (classifyRcode g rc).nxDomainCount
      ∧ (classifyRcode { g with totalDnsQueryCount := t,
                                failedDnsQueryCount := f } rc).resolvedDnsQueryCount
        = (classifyRcode g rc).resolvedDnsQueryCount
      ∧ (classifyRcode { g with totalDnsQueryCount := t,
                                failedDnsQueryCount := f } rc).totalErrorCount
        = (classifyRcode g rc).totalErrorCount
      ∧ (classifyRcode { g with totalDnsQueryCount := t,
                                failedDnsQueryCount := f } rc).respcache = g.respcache
      ∧ (classifyRcode { g with totalDnsQueryCount := t,
                                failedDnsQueryCount := f } rc).validatedcache = g.validatedcache
      ∧ (classifyRcode { g with totalDnsQueryCount := t,
                                failedDnsQueryCount := f } rc).validitycache = g.validitycache
      ∧ (classifyRcode { g with totalDnsQueryCount := t,
                                failedDnsQueryCount := f } rc).totalDnsQueryCount = t
      ∧ (classifyRcode { g with totalDnsQueryCount := t,
                                failedDnsQueryCount := f } rc).failedDnsQueryCount = f
      ∧ (classifyRcode { g with totalDnsQueryCount := t,
                                failedDnsQueryCount := f } rc).totalRequestCount
        = g.totalRequestCount
      ∧ (classifyRcode { g with totalDnsQueryCount := t,
                                failedDnsQueryCount := f } rc).respCacheHitCount
        = g.respCacheHitCount
      ∧ (classifyRcode { g with totalDnsQueryCount := t,
                                failedDnsQueryCount := f } rc).valReqCount = g.valReqCount
      ∧ (classifyRcode { g with totalDnsQueryCount := t,
                                failedDnsQueryCount := f } rc).valErrCount = g.valErrCount := by
  unfold classifyRcode
  split
  · simp
  · split
    · simp
    · split <;> simp

theorem casePERFORM_DNS_outcome (lib : Lib) (cfg : Flags) (w : ResponseWriter) (x : Exchange)
    (c : Ctx) (key : String) (rq : Msg)
    (hk : generateReqKey lib { c.req with RecursionDesired := true, Id := 0 } = some (key, rq))
    (c3 : Ctx) (hc3 : c3 = casePERFORM_DNS lib cfg w x c)
    (d : Dispatch) (hd : d = dispatch x { rq with Id := c.id } cfg.DNS (loopEntry c)) :
    (c3.finished = true ∨ c3.reqState = END)
      ∧ c3.upstream = d.upstream
      ∧ c3.g.totalDnsQueryCount = d.totalDnsQueryCount
      ∧ c3.g.failedDnsQueryCount = d.failedDnsQueryCount
      ∧ c3.g.validitycache = c.g.validitycache
      ∧ c3.g.validatedcache = c.g.validatedcache
      ∧ c3.g.totalRequestCount = c.g.totalRequestCount
      ∧ c3.g.respCacheHitCount = c.g.respCacheHitCount
      ∧ c3.g.valReqCount = c.g.valReqCount
      ∧ c3.g.valErrCount = c.g.valErrCount
      ∧ c3.answers = c.answers
      ∧ ((∃ e, d.err = some e ∧ c3.err = some e ∧ c3.exit = c.exit
            ∧ c3.written = c.written ∧ c3.g.respcache = c.g.respcache
            ∧ c3.g.refusedCount = c.g.refusedCount ∧ c3.g.nxDomainCount = c.g.nxDomainCount
            ∧ c3.g.resolvedDnsQueryCount = c.g.resolvedDnsQueryCount
            ∧ c3.g.totalErrorCount = c.g.totalErrorCount)
        ∨ (d.err = none ∧ d.m = none ∧ c3.exit = Exit.panicked
            ∧ c3.written = c.written ∧ c3.g.respcache = c.g.respcache
            ∧ c3.g.refusedCount = c.g.refusedCount ∧ c3.g.nxDomainCount = c.g.nxDomainCount
            ∧ c3.g.resolvedDnsQueryCount = c.g.resolvedDnsQueryCount
            ∧ c3.g.totalErrorCount = c.g.totalErrorCount)
        ∨ (∃ up, d.err = none ∧ d.m = some up
            ∧ c3.g.refusedCount = (classifyRcode c.g up.Rcode).refusedCount
            ∧ c3.g.nxDomainCount = (classifyRcode c.g up.Rcode).nxDomainCount
            ∧ c3.g.resolvedDnsQueryCount = (classifyRcode c.g up.Rcode).resolvedDnsQueryCount
            ∧ c3.g.totalErrorCount = (classifyRcode c.g up.Rcode).totalErrorCount
            ∧ ((resolveCnameFromDomian up.Answer c.cachedAns = none
                  ∧ c3.exit = Exit.panicked
                  ∧ c3.written = c.written ∧ c3.g.respcache = c.g.respcache)
              ∨ (∃ answers newAns,
                  resolveCnameFromDomian up.Answer c.cachedAns = some (answers, newAns)
                  ∧ ((lib.pack (clientReply up c.actualQuestion answers) = none
                        ∧ c3.err = some Err.pack ∧ c3.exit = c.exit
                        ∧ c3.written = c.written ∧ c3.g.respcache = c.g.respcache)
                    ∨ (∃ data,
                        lib.pack (clientReply up c.actualQuestion answers) = some data
                        ∧ c3.exit = c.exit
                        ∧ ((cfg.ENCACHE = false
                              ∧ c3.written = c.written ++ [data]
                              ∧ c3.g.respcache = c.g.respcache
                              ∧ c3.m = some (clientReply up c.actualQuestion answers))
                          ∨ (cfg.ENCACHE = true
                              ∧ lib.pack (cacheMsg up rq.Question) = none
                              ∧ c3.written = c.written
                              ∧ c3.g.respcache = c.g.respcache)
                          ∨ (∃ rdata, cfg.ENCACHE = true
                              ∧ lib.pack (cacheMsg up rq.Question) = some rdata
                              ∧ c3.written = c.written ++ [data]
                              ∧ c3.g.respcache
                                  = c.g.respcache.Set key rdata
                                      (secondsDuration (firstTtl answers))
                              ∧ c3.m = some { cacheMsg up rq.Question with
                                              Id := c.id })))))))) := by
  subst hc3
  simp only [casePERFORM_DNS, hk]
  simp only [loopEntry] at hd
  rw [← hd]
  cases hde : d.err with
  | some e => simp [END]
  | none =>
    cases hdm : d.m with
    | none => simp [Ctx.finished]
    | some up =>
      obtain ⟨f1, f2, f3, f4, f5, f6, f7, f8, f9, f10, f11, f12, f13⟩ :=
        classifyRcode_dns_counts c.g d.totalDnsQueryCount d.failedDnsQueryCount up.Rcode
      simp only [Option.isSome_none, Bool.false_eq_true, if_false]
      cases hr : resolveCnameFromDomian up.Answer c.cachedAns with
      | none => simp [hr, Ctx.finished, f1, f2, f3, f4, f5, f6, f7, f8, f9, f10, f11, f12, f13]
      | some pr =>
        obtain ⟨answers, newAns⟩ := pr
        cases hp : lib.pack (clientReply up c.actualQuestion answers) with
        | none =>
          simp only [clientReply] at hp
          simp [hr, hp, END, f1, f2, f3, f4, f5, f6, f7, f8, f9, f10, f11, f12, f13,
            clientReply]
        | some data =>
          simp only [clientReply] at hp
          by_cases hen : cfg.ENCACHE = true
          · cases hcp : lib.pack (cacheMsg up rq.Question) with
            | none =>
              simp only [cacheMsg] at hcp
              simp [hr, hp, hen, hcp, END, caseADD_RESP_CACHE, caseSEND_RESP, caseEND,
                Ctx.finished, f1, f2, f3, f4, f5, f6, f7, f8, f9, f10, f11, f12, f13,
                cacheMsg, clientReply]
            | some rdata =>
              simp only [cacheMsg] at hcp
              simp [hr, hp, hen, hcp, END, caseADD_RESP_CACHE, caseSEND_RESP, caseEND,
                Ctx.finished, f1, f2, f3, f4, f5, f6, f7, f8, f9, f10, f11, f12, f13, firstTtl,
                cacheMsg, clientReply]
          · simp [hr, hp, hen, END, caseADD_RESP_CACHE, caseSEND_RESP, caseEND,
              Ctx.finished, f1, f2, f3, f4, f5, f6, f7, f8, f9, f10, f11, f12, f13,
              clientReply]

theorem reflectsLast_snoc_ok (x : Exchange) (req : Msg) (e : String × String) (d : Dispatch)
    (r : Msg) (f : Nat)
    (hx : x d.upstream.length (if e.2 = "tcp" then "tcp" else "udp") e.1 req = Except.ok r) :
    Dispatch.reflectsLast x req
      { m := some r, err := none,
        totalDnsQueryCount := AddUint64 d.totalDnsQueryCount 1,
        failedDnsQueryCount := f,
        upstream := d.upstream ++ [exchangeLog req e] } := by
  refine ⟨if e.2 = "tcp" then "tcp" else "udp", e.1, by simp [exchangeLog], ?_, ?_⟩
  · intro r' h
    simp only [List.length_append, List.length_singleton, Nat.add_sub_cancel] at h
    rw [hx] at h
    cases h
    exact ⟨rfl, rfl⟩
  · intro e' h
    simp only [List.length_append, List.length_singleton, Nat.add_sub_cancel] at h
    rw [hx] at h
    cases h

theorem reflectsLast_snoc_error (x : Exchange) (req : Msg) (e : String × String)
    (d : Dispatch) (err : String)
    (hx : x d.upstream.length (if e.2 = "tcp" then "tcp" else "udp") e.1 req
      = Except.error err) :
    Dispatch.reflectsLast x req
      { m := none, err := some (Err.exchange err),
        totalDnsQueryCount := AddUint64 d.totalDnsQueryCount 1,
        failedDnsQueryCount := AddUint64 d.failedDnsQueryCount 1,
        upstream := d.upstream ++ [exchangeLog req e] } := by
  refine ⟨if e.2 = "tcp" then "tcp" else "udp", e.1, by simp [exchangeLog], ?_, ?_⟩
  · intro r' h
    simp only [List.length_append, List.length_singleton, Nat.add_sub_cancel] at h
    rw [hx] at h
    cases h
  · intro e' h
    simp only [List.length_append, List.length_singleton, Nat.add_sub_cancel] at h
    rw [hx] at h
    cases h
    exact ⟨rfl, rfl⟩

theorem dispatch_reflectsLast (x : Exchange) (req : Msg) (dns : List (String × String))
    (d : Dispatch) (h : dns ≠ [] ∨ Dispatch.reflectsLast x req d) :
    Dispatch.reflectsLast x req (dispatch x req dns d) := by
  induction dns generalizing d with
  | nil =>
    rcases h with h | h
    · exact absurd rfl h
    · simpa [dispatch] using h
  | cons e rest ih =>
    cases hx : x d.upstream.length (if e.2 = "tcp" then "tcp" else "udp") e.1 req with
    | error err =>
      rw [dispatch_cons_error x req e rest d err hx]
      exact ih _ (Or.inr (reflectsLast_snoc_error x req e d err hx))
    | ok r =>
      rw [dispatch_cons_ok x req e rest d r hx]
      split
      · exact reflectsLast_snoc_ok x req e d r _ hx
      · exact ih _ (Or.inr (reflectsLast_snoc_ok x req e d r _ hx))

theorem dispatch_upstream_queries (x : Exchange) (req : Msg) (dns : List (String × String))
    (d : Dispatch) :
    ∃ log, (dispatch x req dns d).upstream = d.upstream ++ log
      ∧ log.length ≤ dns.length
      ∧ (dns ≠ [] → log ≠ [])
      ∧ ∀ entry ∈ log, entry.2.2 = req := by
  induction dns generalizing d with
  | nil => exact ⟨[], by simp [dispatch], Nat.le_refl _, fun h => absurd rfl h, by simp⟩
  | cons e rest ih =>
    cases hx : x d.upstream.length (if e.2 = "tcp" then "tcp" else "udp") e.1 req with
    | error err =>
      rw [dispatch_cons_error x req e rest d err hx]
      obtain ⟨log, h1, h2, -, h3⟩ := ih
        { m := none, err := some (Err.exchange err),
          totalDnsQueryCount := AddUint64 d.totalDnsQueryCount 1,
          failedDnsQueryCount := AddUint64 d.failedDnsQueryCount 1,
          upstream := d.upstream ++ [exchangeLog req e] }
      refine ⟨exchangeLog req e :: log, by rw [h1]; simp, by simp; omega, by simp, ?_⟩
      intro entry he
      rcases List.mem_cons.mp he with rfl | he'
      · rfl
      · exact h3 entry he'
    | ok r =>
      rw [dispatch_cons_ok x req e rest d r hx]
      split
      · exact ⟨[exchangeLog req e], rfl, by simp, by simp, by simp [exchangeLog]⟩
      · obtain ⟨log, h1, h2, -, h3⟩ := ih
          { m := some r, err := none,
            totalDnsQueryCount := AddUint64 d.totalDnsQueryCount 1,
            failedDnsQueryCount := AddUint64 d.failedDnsQueryCount 1,
            upstream := d.upstream ++ [exchangeLog req e] }
        refine ⟨exchangeLog req e :: log, by rw [h1]; simp, by simp; omega, by simp, ?_⟩
        intro entry he
        rcases List.mem_cons.mp he with rfl | he'
        · rfl
        · exact h3 entry he'

/-! ## The state loop: every path -/

theorem caseVALIDATE_frame (lib : Lib) (cfg : Flags) (w : ResponseWriter) (c : Ctx) :
    Ctx.sameUpstream c (caseVALIDATE lib cfg w c)
      ∧ (caseVALIDATE lib cfg w c).written = c.written
      ∧ (caseVALIDATE lib cfg w c).id = c.id
      ∧ (caseVALIDATE lib cfg w c).complete = c.complete
      ∧ ((caseVALIDATE lib cfg w c).exit = Exit.panicked
          ∨ ((caseVALIDATE lib cfg w c).exit = c.exit
              ∧ ((caseVALIDATE lib cfg w c).reqState = VALIDITY_CHECK
                  ∨ (caseVALIDATE lib cfg w c).reqState = END
                  ∨ (caseVALIDATE lib cfg w c).reqState = PERFORM_DNS))) := by
  unfold caseVALIDATE Ctx.sameUpstream
  simp only []
  split
  · simp
  · split
    · split <;> simp
    · simp

theorem caseRESP_CACHE_CHECK_frame (lib : Lib) (cfg : Flags) (w : ResponseWriter) (c : Ctx) :
    Ctx.sameUpstream c (caseRESP_CACHE_CHECK lib cfg w c)
      ∧ (caseRESP_CACHE_CHECK lib cfg w c).written = c.written
      ∧ (caseRESP_CACHE_CHECK lib cfg w c).id = c.id
      ∧ (caseRESP_CACHE_CHECK lib cfg w c).complete = c.complete
      ∧ ((caseRESP_CACHE_CHECK lib cfg w c).exit = Exit.panicked
          ∨ ((caseRESP_CACHE_CHECK lib cfg w c).exit = c.exit
              ∧ ((caseRESP_CACHE_CHECK lib cfg w c).reqState = VALIDITY_CHECK
                  ∨ (caseRESP_CACHE_CHECK lib cfg w c).reqState = END
                  ∨ (caseRESP_CACHE_CHECK lib cfg w c).reqState = SEND_RESP
                  ∨ (caseRESP_CACHE_CHECK lib cfg w c).reqState = PERFORM_DNS))) := by
  have hv := fun c' => caseVALIDATE_frame lib cfg w c'
  unfold caseRESP_CACHE_CHECK
  simp only []
  split
  · split
    · split <;> simp [Ctx.sameUpstream]
    · obtain ⟨h1, h2, h3, h4, h5⟩ := hv
        { c with data := match c.g.respcache.Get c.reqKey with
                         | some reply => reply
                         | none => c.data,
                 reqState := VALIDATE }
      refine ⟨h1, h2, h3, h4, ?_⟩
      rcases h5 with h | ⟨h, h' | h' | h'⟩
      · exact Or.inl h
      · exact Or.inr ⟨h, Or.inl h'⟩
      · exact Or.inr ⟨h, Or.inr (Or.inl h')⟩
      · exact Or.inr ⟨h, Or.inr (Or.inr (Or.inr h'))⟩
  · obtain ⟨h1, h2, h3, h4, h5⟩ := hv { c with reqState := VALIDATE }
    refine ⟨h1, h2, h3, h4, ?_⟩
    rcases h5 with h | ⟨h, h' | h' | h'⟩
    · exact Or.inl h
    · exact Or.inr ⟨h, Or.inl h'⟩
    · exact Or.inr ⟨h, Or.inr (Or.inl h')⟩
    · exact Or.inr ⟨h, Or.inr (Or.inr (Or.inr h'))⟩

theorem iteration_first_frame (lib : Lib) (cfg : Flags) (w : ResponseWriter) (x : Exchange)
    (g : Globals) (req : Msg) :
    Ctx.sameUpstream (enter g req) (iteration lib cfg w x (enter g req))
      ∧ (iteration lib cfg w x (enter g req)).written = []
      ∧ ((iteration lib cfg w x (enter g req)).finished = true
          ∨ ((iteration lib cfg w x (enter g req)).finished = false
              ∧ (iteration lib cfg w x (enter g req)).id = req.Id
              ∧ ((iteration lib cfg w x (enter g req)).reqState = VALIDITY_CHECK
                  ∨ (iteration lib cfg w x (enter g req)).reqState = END
                  ∨ (iteration lib cfg w x (enter g req)).reqState = SEND_RESP
                  ∨ (iteration lib cfg w x (enter g req)).reqState = PERFORM_DNS))) := by
  have hit : iteration lib cfg w x (enter g req) = caseFILTER_REQ lib cfg w (enter g req) := by
    simp [iteration, enter, FILTER_REQ]
  rw [hit]
  unfold caseFILTER_REQ
  simp only []
  split
  · simp [Ctx.sameUpstream, Ctx.finished, enter]
  · split
    · simp [Ctx.sameUpstream, Ctx.finished, enter]
    · unfold casePARSE_REQ
      simp only []
      split
      · simp [Ctx.sameUpstream, Ctx.finished, enter]
      · rename_i key rq hk
        obtain ⟨h1, h2, h3, h4, h5⟩ := caseRESP_CACHE_CHECK_frame lib cfg w
          { req := { rq with Id := req.Id }, reqKey := key,
            validationKey := generateValidationKey lib
              { req with Question := [] ++ filterQuestions cfg req.Question, Id := 0 } w,
            m := none, err := none, data := [], id := req.Id,
            questions := [] ++ filterQuestions cfg req.Question,
            actualQuestion := [], backupAnswer := [], cachedAns := [], answers := [],
            reqState := RESP_CACHE_CHECK, complete := false,
            g := { g with totalRequestCount := AddUint64 g.totalRequestCount 1 },
            written := [], upstream := [], exit := Exit.running }
        refine ⟨h1, h2, ?_⟩
        rcases h5 with h | ⟨h, h'⟩
        · left
          simp only [Ctx.finished, enter, List.nil_append] at h ⊢
          simp [h]
        · right
          refine ⟨?_, h3, h'⟩
          simp only [Ctx.finished, enter, List.nil_append] at h h4 ⊢
          simp [h, h4]

theorem caseVALIDITY_CHECK_frame (lib : Lib) (cfg : Flags) (w : ResponseWriter) (c : Ctx) :
    Ctx.sameUpstream c (caseVALIDITY_CHECK lib cfg w c)
      ∧ (caseVALIDITY_CHECK lib cfg w c).written = c.written
      ∧ (caseVALIDITY_CHECK lib cfg w c).id = c.id
      ∧ (caseVALIDITY_CHECK lib cfg w c).finished = c.finished
      ∧ ((caseVALIDITY_CHECK lib cfg w c).reqState = PERFORM_DNS
          ∨ (caseVALIDITY_CHECK lib cfg w c).reqState = END
          ∨ (caseVALIDITY_CHECK lib cfg w c).reqState = SEND_RESP) := by
  unfold caseVALIDITY_CHECK Ctx.sameUpstream
  simp only []
  split
  · simp [Ctx.finished]
  · split <;> split <;> simp [Ctx.finished]

theorem iteration_send_or_end (lib : Lib) (cfg : Flags) (w : ResponseWriter) (x : Exchange)
    (c : Ctx) (h : c.reqState = SEND_RESP ∨ c.reqState = END) :
    (iteration lib cfg w x c).finished = true
      ∧ Ctx.sameUpstream c (iteration lib cfg w x c)
      ∧ (c.reqState = END → (iteration lib cfg w x c).written = c.written) := by
  rcases h with h | h
  · simp [iteration, h, FILTER_REQ, PARSE_REQ, RESP_CACHE_CHECK, VALIDATE, VALIDITY_CHECK,
      PERFORM_DNS, ADD_RESP_CACHE, SEND_RESP, END, caseSEND_RESP, caseEND, Ctx.finished,
      Ctx.sameUpstream]
  · simp [iteration, h, FILTER_REQ, PARSE_REQ, RESP_CACHE_CHECK, VALIDATE, VALIDITY_CHECK,
      PERFORM_DNS, ADD_RESP_CACHE, SEND_RESP, END, caseSEND_RESP, caseEND, Ctx.finished,
      Ctx.sameUpstream]

theorem sameUpstream_trans (a b c : Ctx) (h1 : Ctx.sameUpstream a b)
    (h2 : Ctx.sameUpstream b c) : Ctx.sameUpstream a c := by
  obtain ⟨a1, a2, a3, a4, a5, a6, a7, a8⟩ := h1
  obtain ⟨b1, b2, b3, b4, b5, b6, b7, b8⟩ := h2
  exact ⟨b1.trans a1, b2.trans a2, b3.trans a3, b4.trans a4, b5.trans a5, b6.trans a6,
    b7.trans a7, b8.trans a8⟩

theorem casePERFORM_DNS_ends (lib : Lib) (cfg : Flags) (w : ResponseWriter) (x : Exchange)
    (c : Ctx) :
    (casePERFORM_DNS lib cfg w x c).finished = true
      ∨ (casePERFORM_DNS lib cfg w x c).reqState = END := by
  cases hk : generateReqKey lib { c.req with RecursionDesired := true, Id := 0 } with
  | none => simp [casePERFORM_DNS, hk, Ctx.finished]
  | some p =>
    obtain ⟨key, rq⟩ := p
    exact (casePERFORM_DNS_outcome lib cfg w x c key rq hk _ rfl _ rfl).1

theorem stateWheel_performed (lib : Lib) (cfg : Flags) (w : ResponseWriter) (x : Exchange)
    (c : Ctx) (hstate : c.reqState = PERFORM_DNS) (hrun : c.finished = false) :
    ∃ r, (∀ n, stateWheel (iteration lib cfg w x) (n + 2) c = some r)
      ∧ (r = casePERFORM_DNS lib cfg w x c
          ∨ r = { casePERFORM_DNS lib cfg w x c with complete := true }) := by
  have hit : iteration lib cfg w x c = casePERFORM_DNS lib cfg w x c := by
    simp [iteration, hstate, FILTER_REQ, PARSE_REQ, RESP_CACHE_CHECK, VALIDATE, VALIDITY_CHECK,
      PERFORM_DNS]
  by_cases hf : (casePERFORM_DNS lib cfg w x c).finished = true
  · refine ⟨_, ?_, Or.inl rfl⟩
    intro n
    rw [show n + 2 = (n + 1) + 1 by omega, stateWheel_step _ _ _ hrun, hit,
      stateWheel_finished _ _ _ hf]
  · have hf' : (casePERFORM_DNS lib cfg w x c).finished = false := by simpa using hf
    have hend : (casePERFORM_DNS lib cfg w x c).reqState = END := by
      rcases casePERFORM_DNS_ends lib cfg w x c with h | h
      · exact absurd h hf
      · exact h
    have hit2 : iteration lib cfg w x (casePERFORM_DNS lib cfg w x c)
        = { casePERFORM_DNS lib cfg w x c with complete := true } := by
      simp [iteration, hend, FILTER_REQ, PARSE_REQ, RESP_CACHE_CHECK, VALIDATE, VALIDITY_CHECK,
        PERFORM_DNS, ADD_RESP_CACHE, SEND_RESP, END, caseEND]
    refine ⟨_, ?_, Or.inr rfl⟩
    intro n
    rw [show n + 2 = n + 1 + 1 by omega, stateWheel_step _ _ _ hrun, hit,
      stateWheel_step _ _ _ hf', hit2]
    exact stateWheel_finished _ _ _ (by simp [Ctx.finished])

theorem proxyServe_paths (lib : Lib) (cfg : Flags) (w : ResponseWriter) (x : Exchange)
    (g : Globals) (req : Msg) (fuel : Nat) (hfuel : 4 ≤ fuel) :
    ∃ r, proxyServe lib cfg w x fuel g req = some r
      ∧ (Ctx.sameUpstream (enter g req) r
          ∨ ∃ cP, cP.reqState = PERFORM_DNS ∧ cP.finished = false
              ∧ Ctx.sameUpstream (enter g req) cP ∧ cP.written = [] ∧ cP.id = req.Id
              ∧ (r = casePERFORM_DNS lib cfg w x cP
                  ∨ r = { casePERFORM_DNS lib cfg w x cP with complete := true })) := by
  obtain ⟨n, rfl⟩ := Nat.exists_eq_add_of_le hfuel
  have e0 : (enter g req).finished = false := rfl
  obtain ⟨s1, w1, h1⟩ := iteration_first_frame lib cfg w x g req
  have hstart : proxyServe lib cfg w x (4 + n) g req
      = stateWheel (iteration lib cfg w x) (n + 3) (iteration lib cfg w x (enter g req)) := by
    rw [proxyServe, show 4 + n = (n + 3) + 1 by omega, stateWheel_step _ _ _ e0]
  rw [hstart]
  rcases h1 with hfin | ⟨hrun, hid, hV | hE | hS | hP⟩
  · exact ⟨_, stateWheel_finished _ _ _ hfin, Or.inl s1⟩
  · have hit : iteration lib cfg w x (iteration lib cfg w x (enter g req))
        = caseVALIDITY_CHECK lib cfg w (iteration lib cfg w x (enter g req)) := by
      generalize iteration lib cfg w x (enter g req) = c1 at hV
      simp [iteration, hV, FILTER_REQ, PARSE_REQ, RESP_CACHE_CHECK, VALIDATE, VALIDITY_CHECK]
    obtain ⟨s2, w2, i2, f2, st2⟩ :=
      caseVALIDITY_CHECK_frame lib cfg w (iteration lib cfg w x (enter g req))
    rw [← hit] at s2 w2 i2 f2 st2
    rw [hrun] at f2
    rw [show n + 3 = (n + 2) + 1 by omega, stateWheel_step _ _ _ hrun]
    rcases st2 with hP | hE | hS
    · obtain ⟨r, hr, hres⟩ := stateWheel_performed lib cfg w x _ hP f2
      exact ⟨r, hr n, Or.inr ⟨_, hP, f2, sameUpstream_trans _ _ _ s1 s2, w2.trans w1,
        i2.trans hid, hres⟩⟩
    · obtain ⟨f3, s3, -⟩ := iteration_send_or_end lib cfg w x _ (Or.inr hE)
      refine ⟨_, ?_, Or.inl (sameUpstream_trans _ _ _ (sameUpstream_trans _ _ _ s1 s2) s3)⟩
      rw [show n + 2 = (n + 1) + 1 by omega, stateWheel_step _ _ _ f2]
      exact stateWheel_finished _ _ _ f3
    · obtain ⟨f3, s3, -⟩ := iteration_send_or_end lib cfg w x _ (Or.inl hS)
      refine ⟨_, ?_, Or.inl (sameUpstream_trans _ _ _ (sameUpstream_trans _ _ _ s1 s2) s3)⟩
      rw [show n + 2 = (n + 1) + 1 by omega, stateWheel_step _ _ _ f2]
      exact stateWheel_finished _ _ _ f3
  · obtain ⟨f2, s2, -⟩ := iteration_send_or_end lib cfg w x _ (Or.inr hE)
    refine ⟨_, ?_, Or.inl (sameUpstream_trans _ _ _ s1 s2)⟩
    rw [show n + 3 = (n + 2) + 1 by omega, stateWheel_step _ _ _ hrun]
    exact stateWheel_finished _ _ _ f2
  · obtain ⟨f2, s2, -⟩ := iteration_send_or_end lib cfg w x _ (Or.inl hS)
    refine ⟨_, ?_, Or.inl (sameUpstream_trans _ _ _ s1 s2)⟩
    rw [show n + 3 = (n + 2) + 1 by omega, stateWheel_step _ _ _ hrun]
    exact stateWheel_finished _ _ _ f2
  · obtain ⟨r, hr, hres⟩ := stateWheel_performed lib cfg w x _ hP hrun
    exact ⟨r, hr (n + 1), Or.inr ⟨_, hP, hrun, s1, w1, hid, hres⟩⟩

theorem performed_fields (c3 r : Ctx) (h : r = c3 ∨ r = { c3 with complete := true }) :
    r.err = c3.err ∧ r.written = c3.written ∧ r.g = c3.g ∧ r.upstream = c3.upstream
      ∧ r.m = c3.m ∧ r.exit = c3.exit := by
  rcases h with rfl | rfl <;> exact ⟨rfl, rfl, rfl, rfl, rfl, rfl⟩

theorem casePERFORM_DNS_no_key (lib : Lib) (cfg : Flags) (w : ResponseWriter) (x : Exchange)
    (c : Ctx)
    (hk : generateReqKey lib { c.req with RecursionDesired := true, Id := 0 } = none) :
    (casePERFORM_DNS lib cfg w x c).g = c.g
      ∧ (casePERFORM_DNS lib cfg w x c).written = c.written
      ∧ (casePERFORM_DNS lib cfg w x c).upstream = c.upstream
      ∧ (casePERFORM_DNS lib cfg w x c).exit = Exit.panicked := by
  simp [casePERFORM_DNS, hk]

/-! ## The state loop: every upstream fails -/

/-- C15 (amended). When the last exchange a request made with an upstream ended in a
transport error `e` (the loop stops at the first success, so every attempt before it failed
as well), the request terminates with the error `e`: no reply is written to the client and
the response cache is unchanged.  This holds on every path of the handler, for every request
and state of the caches, given the non-empty upstream list `init` guarantees. -/
theorem proxyServe_upstreams_failed (lib : Lib) (cfg : Flags) (w : ResponseWriter)
    (x : Exchange) (g : Globals) (req : Msg) (fuel : Nat) (hfuel : 4 ≤ fuel)
    (hdns : cfg.DNS ≠ []) :
    ∃ r, proxyServe lib cfg w x fuel g req = some r
      ∧ ∀ (client addr : String) (q : Msg) (e : String),
          r.upstream.getLast? = some (client, addr, q) →
          x (r.upstream.length - 1) client addr q = Except.error e →
          r.err = some (Err.exchange e) ∧ r.written = [] ∧ r.g.respcache = g.respcache := by
  obtain ⟨r, hr, hpath⟩ := proxyServe_paths lib cfg w x g req fuel hfuel
  refine ⟨r, hr, ?_⟩
  intro client addr q e hlast hx
  rcases hpath with hs | ⟨cP, -, -, hs, hw, -, hres⟩
  · have hu : r.upstream = [] := hs.2.1
    rw [hu] at hlast
    simp at hlast
  · obtain ⟨re, rw', rg, ru, -, -⟩ := performed_fields _ r hres
    have hu0 : cP.upstream = [] := hs.2.1
    have hc0 : cP.g.respcache = g.respcache := hs.1
    cases hk : generateReqKey lib { cP.req with RecursionDesired := true, Id := 0 } with
    | none =>
      obtain ⟨-, -, k3, -⟩ := casePERFORM_DNS_no_key lib cfg w x cP hk
      rw [ru, k3, hu0] at hlast
      simp at hlast
    | some p =>
      obtain ⟨key, rq⟩ := p
      obtain ⟨-, o2, -, -, -, -, -, -, -, -, -, hout⟩ :=
        casePERFORM_DNS_outcome lib cfg w x cP key rq hk _ rfl _ rfl
      obtain ⟨client', addr', hl, -, herr⟩ :=
        dispatch_reflectsLast x { rq with Id := cP.id } cfg.DNS (loopEntry cP) (Or.inl hdns)
      rw [ru, o2] at hlast hx
      rw [hl] at hlast
      simp only [Option.some.injEq, Prod.mk.injEq] at hlast
      obtain ⟨rfl, rfl, rfl⟩ := hlast
      obtain ⟨-, hde⟩ := herr e hx
      rcases hout with ⟨e', h1, h2, -, h3, h4, -⟩ | ⟨h1, -⟩ | ⟨up, h1, -⟩
      · rw [hde] at h1
        cases h1
        exact ⟨re.trans h2, (rw'.trans h3).trans hw, by rw [rg, h4, hc0]⟩
      · rw [hde] at h1
        cases h1
      · rw [hde] at h1
        cases h1

set_option maxRecDepth 100000 in
theorem proxyServe_upstreams_failed_witness :
    (∃ r, proxyServe stdLib exFlags exClient exTimeout 4 exValidatedGlobals exQuery = some r
      ∧ ∀ (client addr : String) (q : Msg) (e : String),
          r.upstream.getLast? = some (client, addr, q) →
          exTimeout (r.upstream.length - 1) client addr q = Except.error e →
          r.err = some (Err.exchange e) ∧ r.written = []
            ∧ r.g.respcache = exValidatedGlobals.respcache)
      ∧ (proxyServe stdLib exFlags exClient exTimeout 4 exValidatedGlobals exQuery).map
          (fun r => (r.err, r.written, r.upstream.length))
        = some (some (Err.exchange "i/o timeout"), [], 1) :=
  ⟨proxyServe_upstreams_failed stdLib exFlags exClient exTimeout exValidatedGlobals exQuery 4
      (by decide) (by decide),
    by decide!⟩

set_option maxRecDepth 100000 in
/-- C15 (counterexample). Every exchange with the upstream `exNoData` fails: it returns a
reply with an empty Answer section.  The validated client `exClient` sends `exQuery`: the
one configured endpoint is tried and counted as failed, and yet the request ends without an
error, one reply is written to the client and an entry is inserted into the response
cache. -/
theorem proxyServe_empty_answer_delivered :
    (∀ (q : Msg) (n : Nat) (e : String × String), attemptFails exNoData q n e = true)
      ∧ (proxyServe stdLib exFlags exClient exNoData 4 exValidatedGlobals exQuery).map
          (fun r => (r.err, r.written.length, r.upstream.length, r.g.failedDnsQueryCount,
            r.g.respcache.items.length))
        = some (none, 1, 1, 1, 1)
      ∧ exValidatedGlobals.respcache.items.length = 0 := by
  refine ⟨fun _ _ _ => rfl, ?_, rfl⟩
  decide!

theorem caseADD_RESP_CACHE_keeps (lib : Lib) (cfg : Flags) (w : ResponseWriter) (c : Ctx) :
    (caseADD_RESP_CACHE lib cfg w c).cachedAns = c.cachedAns
      ∧ (caseADD_RESP_CACHE lib cfg w c).actualQuestion = c.actualQuestion
      ∧ (caseADD_RESP_CACHE lib cfg w c).id = c.id := by
  unfold caseADD_RESP_CACHE caseSEND_RESP caseEND
  simp only []
  split
  · split
    · simp
    · split <;> simp
  · simp

theorem casePERFORM_DNS_keeps (lib : Lib) (cfg : Flags) (w : ResponseWriter) (x : Exchange)
    (c : Ctx) :
    (casePERFORM_DNS lib cfg w x c).cachedAns = c.cachedAns
      ∧ (casePERFORM_DNS lib cfg w x c).actualQuestion = c.actualQuestion
      ∧ (casePERFORM_DNS lib cfg w x c).id = c.id := by
  unfold casePERFORM_DNS
  simp only []
  split
  · simp
  · split
    · simp
    · split
      · simp
      · split
        · simp
        · split
          · simp
          · rename_i data _
            exact caseADD_RESP_CACHE_keeps lib cfg w _

/-! ## The state loop: NXDOMAIN from the upstream -/

/-- C20. NXDOMAIN from the upstream: on every path of the handler, when the last exchange a
request made returned a reply `up` with response code NXDOMAIN and no transport error,
`nxDomainCount` and `totalErrorCount` are each increased by one (`AddUint64`) and
`resolvedDnsQueryCount` and `refusedCount` are unchanged; and when the CNAME rewrite of the
answers does not panic and the reply (and, with caching enabled, the cache entry) packs, the
handler has written exactly one message to the client, the packed reply built from `up`,
whose response code is NXDOMAIN. -/
theorem proxyServe_nxdomain (lib : Lib) (cfg : Flags) (w : ResponseWriter) (x : Exchange)
    (g : Globals) (req : Msg) (fuel : Nat) (hfuel : 4 ≤ fuel) (hdns : cfg.DNS ≠ []) :
    ∃ r, proxyServe lib cfg w x fuel g req = some r
      ∧ ∀ (client addr : String) (q up : Msg),
          r.upstream.getLast? = some (client, addr, q) →
          x (r.upstream.length - 1) client addr q = Except.ok up →
          up.Rcode = RcodeNameError →
          r.g.nxDomainCount = AddUint64 g.nxDomainCount 1
            ∧ r.g.totalErrorCount = AddUint64 g.totalErrorCount 1
            ∧ r.g.resolvedDnsQueryCount = g.resolvedDnsQueryCount
            ∧ r.g.refusedCount = g.refusedCount
            ∧ ∀ (answers newAns : List RR) (data : Bytes),
                resolveCnameFromDomian up.Answer r.cachedAns = some (answers, newAns) →
                lib.pack (clientReply up r.actualQuestion answers) = some data →
                (cfg.ENCACHE = true → lib.pack (cacheMsg up q.Question) ≠ none) →
                r.written = [data]
                  ∧ (clientReply up r.actualQuestion answers).Rcode = RcodeNameError := by
  obtain ⟨r, hr, hpath⟩ := proxyServe_paths lib cfg w x g req fuel hfuel
  refine ⟨r, hr, ?_⟩
  intro client addr q up hlast hx hrc
  rcases hpath with hs | ⟨cP, -, -, hs, hw, -, hres⟩
  · have hu : r.upstream = [] := hs.2.1
    rw [hu] at hlast
    simp at hlast
  · obtain ⟨-, rw', rg, ru, -, -⟩ := performed_fields _ r hres
    have rca : r.cachedAns = cP.cachedAns := by
      rcases hres with rfl | rfl
      · exact (casePERFORM_DNS_keeps lib cfg w x cP).1
      · exact (casePERFORM_DNS_keeps lib cfg w x cP).1
    have raq : r.actualQuestion = cP.actualQuestion := by
      rcases hres with rfl | rfl
      · exact (casePERFORM_DNS_keeps lib cfg w x cP).2.1
      · exact (casePERFORM_DNS_keeps lib cfg w x cP).2.1
    obtain ⟨-, hu0, -, -, s5, s6, s7, s8⟩ := hs
    simp only [enter] at s5 s6 s7 s8
    cases hk : generateReqKey lib { cP.req with RecursionDesired := true, Id := 0 } with
    | none =>
      obtain ⟨-, -, k3, -⟩ := casePERFORM_DNS_no_key lib cfg w x cP hk
      rw [ru, k3, hu0] at hlast
      simp [enter] at hlast
    | some p =>
      obtain ⟨key, rq⟩ := p
      obtain ⟨-, o2, -, -, -, -, -, -, -, -, -, hout⟩ :=
        casePERFORM_DNS_outcome lib cfg w x cP key rq hk _ rfl _ rfl
      obtain ⟨client', addr', hl, hok, -⟩ :=
        dispatch_reflectsLast x { rq with Id := cP.id } cfg.DNS (loopEntry cP) (Or.inl hdns)
      rw [ru, o2] at hlast hx
      rw [hl] at hlast
      simp only [Option.some.injEq, Prod.mk.injEq] at hlast
      obtain ⟨rfl, rfl, rfl⟩ := hlast
      obtain ⟨hdm, hde⟩ := hok up hx
      obtain ⟨c1, c2, c3, c4, -⟩ := classifyRcode_fields cP.g up.Rcode
      have hne1 : ¬ RcodeNameError = RcodeRefused := by decide
      have hne2 : ¬ RcodeNameError = RcodeSuccess := by decide
      rw [hrc] at c1 c2 c3 c4
      simp only [hne1, hne2, if_false, if_true] at c1 c2 c3 c4
      rcases hout with ⟨e', h1, -⟩ | ⟨-, h1, -⟩ | ⟨up', -, h1, k1, k2, k3, k4, hdel⟩
      · rw [hde] at h1
        cases h1
      · rw [hdm] at h1
        cases h1
      · rw [hdm] at h1
        cases h1
        rw [hrc] at k1 k2 k3 k4
        refine ⟨by rw [rg, k2, c2, s6], by rw [rg, k4, c4, s8], by rw [rg, k3, c3, s5],
          by rw [rg, k1, c1, s7], ?_⟩
        intro answers newAns data hres' hpk hcache
        rw [rca] at hres'
        rw [raq] at hpk ⊢
        refine ⟨?_, hrc⟩
        rcases hdel with ⟨h, -⟩ | ⟨answers', newAns', h, hrest⟩
        · rw [hres'] at h
          cases h
        · rw [hres'] at h
          cases h
          rcases hrest with ⟨h, -⟩ | ⟨data', h, -, hen⟩
          · rw [hpk] at h
            cases h
          · rw [hpk] at h
            cases h
            rcases hen with ⟨-, hwr, -⟩ | ⟨hen, hcp, -⟩ | ⟨rdata, -, -, hwr, -⟩
            · rw [rw', hwr, hw]
              rfl
            · exact absurd hcp (hcache hen)
            · rw [rw', hwr, hw]
              rfl

set_option maxRecDepth 100000 in
theorem proxyServe_nxdomain_witness :
    (∃ r, proxyServe stdLib exFlags exClient exNxDomain 4 exValidatedGlobals exQuery = some r
      ∧ ∀ (client addr : String) (q up : Msg),
          r.upstream.getLast? = some (client, addr, q) →
          exNxDomain (r.upstream.length - 1) client addr q = Except.ok up →
          up.Rcode = RcodeNameError →
          r.g.nxDomainCount = AddUint64 exValidatedGlobals.nxDomainCount 1
            ∧ r.g.totalErrorCount = AddUint64 exValidatedGlobals.totalErrorCount 1
            ∧ r.g.resolvedDnsQueryCount = exValidatedGlobals.resolvedDnsQueryCount
            ∧ r.g.refusedCount = exValidatedGlobals.refusedCount
            ∧ ∀ (answers newAns : List RR) (data : Bytes),
                resolveCnameFromDomian up.Answer r.cachedAns = some (answers, newAns) →
                stdLib.pack (clientReply up r.actualQuestion answers) = some data →
                (exFlags.ENCACHE = true → stdLib.pack (cacheMsg up q.Question) ≠ none) →
                r.written = [data]
                  ∧ (clientReply up r.actualQuestion answers).Rcode = RcodeNameError)
      ∧ (proxyServe stdLib exFlags exClient exNxDomain 4 exValidatedGlobals exQuery).map
          (fun r => (r.written.map (fun d => (stdLib.unpack d).Rcode), r.g.nxDomainCount,
            r.g.totalErrorCount, r.g.resolvedDnsQueryCount, r.g.refusedCount))
        = some ([RcodeNameError], 1, 1, 0, 0) :=
  ⟨proxyServe_nxdomain stdLib exFlags exClient exNxDomain exValidatedGlobals exQuery 4
      (by decide) (by decide),
    by decide!⟩

/-! ## The state loop: the Question section of an upstream reply -/

/-- C17 (the code departs from the claim). On the validated-client path (a request, not a
response and well typed, with a question left by the filter, a response-cache miss, no
pending challenge and a non-empty validated-client entry under its validation key) the
handler returns, and a reply, if one is written, is packed from the message
`{ up with RecursionAvailable := false, Question := [] }` for a reply `up` of an upstream:
its Question section is empty and so differs from the questions the client asked, of which
there is at least one. -/
theorem proxyServe_validated_reply_question (lib : Lib) (cfg : Flags) (w : ResponseWriter)
    (x : Exchange) (g : Globals) (req : Msg) (fuel : Nat) (hfuel : 4 ≤ fuel)
    (hresp : req.Response = false)
    (hq : filterQuestions cfg req.Question ≠ [])
    (hwt : req.wellTyped = true)
    (hrc : cfg.ENCACHE = true → g.respcache.bytes (parsedReqKey lib cfg req) = [])
    (hpc : g.validitycache.bytes (parsedValidationKey lib cfg w req) = [])
    (hvc : g.validatedcache.bytes (parsedValidationKey lib cfg w req) ≠ []) :
    ∃ r, proxyServe lib cfg w x fuel g req = some r
      ∧ (r.written = []
          ∨ ∃ (n : Nat) (client addr : String) (q up m : Msg) (d : Bytes),
              x n client addr q = Except.ok up
              ∧ m = { up with RecursionAvailable := false, Question := [] }
              ∧ lib.pack m = some d
              ∧ r.written = [d]
              ∧ m.Question = []
              ∧ m.Question ≠ filterQuestions cfg req.Question) := by
  obtain ⟨-, -, -, -, -, r, hr, -, -, -, hw⟩ :=
    proxyServe_validated_path lib cfg w x g req fuel hfuel hresp hq hwt hrc hpc hvc
  refine ⟨r, hr, ?_⟩
  rcases hw with h | ⟨n, client, addr, up, d, hx, hp, hw'⟩
  · exact Or.inl h
  · exact Or.inr ⟨n, client, addr, _, up, _, d, hx, rfl, hp, hw', rfl, fun h => hq h.symm⟩

set_option maxRecDepth 100000 in
theorem proxyServe_validated_reply_question_witness :
    (∃ r, proxyServe stdLib exFlags exClient exUpstream 4 exValidatedGlobals exQuery = some r
      ∧ (r.written = []
          ∨ ∃ (n : Nat) (client addr : String) (q up m : Msg) (d : Bytes),
              exUpstream n client addr q = Except.ok up
              ∧ m = { up with RecursionAvailable := false, Question := [] }
              ∧ stdLib.pack m = some d
              ∧ r.written = [d]
              ∧ m.Question = []
              ∧ m.Question ≠ filterQuestions exFlags exQuery.Question))
      ∧ (proxyServe stdLib exFlags exClient exUpstream 4 exValidatedGlobals exQuery).map
          (fun r => r.written.map (fun d =>
            ((stdLib.unpack d).Question, (stdLib.unpack d).Answer.length)))
        = some [([], 1)]
      ∧ filterQuestions exFlags exQuery.Question = [exQuestion] :=
  ⟨proxyServe_validated_reply_question stdLib exFlags exClient exUpstream exValidatedGlobals
      exQuery 4 (by decide) (by decide) (by decide) (by decide) (fun _ => by decide!)
      (by decide!) (by decide!),
    by decide!, by decide⟩

/-! ## The state loop: what goes into the response cache -/

theorem setName_ttl (name : String) (a : RR) : (a.setName name).Header.Ttl = a.Header.Ttl := by
  cases a <;> rfl

theorem renameAnswer_ttl (ans : RR) (cnameMap : List RR) (o : RR) (hit : Bool)
    (h : renameAnswer ans cnameMap = some (o, hit)) : o.Header.Ttl = ans.Header.Ttl := by
  induction cnameMap with
  | nil =>
    simp only [renameAnswer, Option.some.injEq, Prod.mk.injEq] at h
    rw [← h.1]
  | cons c rest ih =>
    unfold renameAnswer at h
    split at h
    · split at h
      · simp only [Option.some.injEq, Prod.mk.injEq] at h
        rw [← h.1]
        exact setName_ttl _ _
      · cases h
    · exact ih h

theorem resolveCnameFromDomian_firstTtl (answers cnameMap out newAns : List RR)
    (h : resolveCnameFromDomian answers cnameMap = some (out, newAns)) :
    firstTtl out = firstTtl answers := by
  cases answers with
  | nil =>
    simp only [resolveCnameFromDomian, Option.some.injEq, Prod.mk.injEq] at h
    rw [← h.1]
  | cons a rest =>
    unfold resolveCnameFromDomian at h
    split at h
    · cases h
    · rename_i o hit hr
      split at h
      · cases h
      · simp only [Option.some.injEq, Prod.mk.injEq] at h
        rw [← h.1]
        simp only [firstTtl, renameAnswer_ttl a cnameMap o hit hr]

theorem firstTtl_seconds (answers : List RR) :
    (answers = [] → secondsDuration (firstTtl answers) = 0)
      ∧ (∀ (a : RR) (rest : List RR), answers = a :: rest → a.Header.Ttl < 4294967296 →
          secondsDuration (firstTtl answers) = 1000000000 * (a.Header.Ttl : Int)) := by
  refine ⟨?_, ?_⟩
  · intro h
    subst h
    decide
  · intro a rest h hlt
    subst h
    have h0 : ¬ ((a.Header.Ttl : Int) < 0) := by omega
    simp only [firstTtl, h0, if_false, secondsDuration, wrapInt64]
    omega

/-- C13. What the handler inserts into the response cache.  For every request and every
state of the caches the handler returns, and the response cache is either unchanged or has
received exactly one insertion, made in `ADD_RESP_CACHE` with caching enabled: the outgoing
query is `{ rq with Id := req.Id }` for the request `pre` (with ID 0) on which `PERFORM_DNS`
called `generateReqKey`, which returned the key `key` and left `rq`; `up` is the reply of the
last exchange, made with that query; the entry is the packing of `cacheMsg up rq.Question`,
a message with ID 0, the questions of the outgoing query and the answers of `up` as
received; it is stored under `key` with the duration `time.Second * cttl`, `cttl` the TTL
of the first answer of `up` and 0 without an answer (in nanoseconds `10^9 * TTL` for a
32-bit TTL); afterwards the live message `m` carries the ID of the request again. -/
theorem proxyServe_respcache_entry (lib : Lib) (cfg : Flags) (w : ResponseWriter)
    (x : Exchange) (g : Globals) (req : Msg) (fuel : Nat) (hfuel : 4 ≤ fuel)
    (hdns : cfg.DNS ≠ []) :
    ∃ r, proxyServe lib cfg w x fuel g req = some r
      ∧ (r.g.respcache = g.respcache
          ∨ ∃ (client addr key : String) (pre rq up : Msg) (rdata : Bytes),
              cfg.ENCACHE = true
              ∧ pre.Id = 0
              ∧ generateReqKey lib pre = some (key, rq)
              ∧ r.upstream.getLast? = some (client, addr, { rq with Id := req.Id })
              ∧ x (r.upstream.length - 1) client addr { rq with Id := req.Id } = Except.ok up
              ∧ lib.pack (cacheMsg up rq.Question) = some rdata
              ∧ (cacheMsg up rq.Question).Id = 0
              ∧ (cacheMsg up rq.Question).Question = ({ rq with Id := req.Id } : Msg).Question
              ∧ (cacheMsg up rq.Question).Answer = up.Answer
              ∧ r.g.respcache
                  = g.respcache.Set key rdata (secondsDuration (firstTtl up.Answer))
              ∧ (up.Answer = [] → secondsDuration (firstTtl up.Answer) = 0)
              ∧ (∀ (a : RR) (rest : List RR), up.Answer = a :: rest →
                  a.Header.Ttl < 4294967296 →
                  secondsDuration (firstTtl up.Answer) = 1000000000 * (a.Header.Ttl : Int))
              ∧ r.m = some { cacheMsg up rq.Question with Id := req.Id }) := by
  obtain ⟨r, hr, hpath⟩ := proxyServe_paths lib cfg w x g req fuel hfuel
  refine ⟨r, hr, ?_⟩
  rcases hpath with hs | ⟨cP, -, -, hs, -, hid, hres⟩
  · exact Or.inl hs.1
  · obtain ⟨-, -, rg, ru, rm, -⟩ := performed_fields _ r hres
    have hc0 : cP.g.respcache = g.respcache := hs.1
    cases hk : generateReqKey lib { cP.req with RecursionDesired := true, Id := 0 } with
    | none =>
      obtain ⟨k1, -⟩ := casePERFORM_DNS_no_key lib cfg w x cP hk
      exact Or.inl (by rw [rg, k1, hc0])
    | some p =>
      obtain ⟨key, rq⟩ := p
      obtain ⟨-, o2, -, -, -, -, -, -, -, -, -, hout⟩ :=
        casePERFORM_DNS_outcome lib cfg w x cP key rq hk _ rfl _ rfl
      obtain ⟨client, addr, hl, hok, herr⟩ :=
        dispatch_reflectsLast x { rq with Id := cP.id } cfg.DNS (loopEntry cP) (Or.inl hdns)
      rw [hid] at hl hok herr hout o2
      rcases hout with ⟨e', -, -, -, -, h4, -⟩ | ⟨-, -, -, -, h4, -⟩
        | ⟨up, hde, hdm, -, -, -, -, hdel⟩
      · exact Or.inl (by rw [rg, h4, hc0])
      · exact Or.inl (by rw [rg, h4, hc0])
      · rcases hdel with ⟨-, -, -, h4⟩ | ⟨answers, newAns, hrs, hrest⟩
        · exact Or.inl (by rw [rg, h4, hc0])
        · rcases hrest with ⟨-, -, -, -, h4⟩ | ⟨data, -, -, hen⟩
          · exact Or.inl (by rw [rg, h4, hc0])
          · rcases hen with ⟨-, -, h4, -⟩ | ⟨-, -, -, h4⟩
              | ⟨rdata, hen, hcp, -, hset, hm⟩
            · exact Or.inl (by rw [rg, h4, hc0])
            · exact Or.inl (by rw [rg, h4, hc0])
            · right
              have hx : x ((dispatch x { rq with Id := req.Id } cfg.DNS
                  (loopEntry cP)).upstream.length - 1) client addr { rq with Id := req.Id }
                  = Except.ok up := by
                cases hxx : x ((dispatch x { rq with Id := req.Id } cfg.DNS
                  (loopEntry cP)).upstream.length - 1) client addr { rq with Id := req.Id } with
                | ok up' =>
                  obtain ⟨h1, -⟩ := hok up' hxx
                  rw [hdm] at h1
                  cases h1
                  rfl
                | error e =>
                  obtain ⟨-, h2⟩ := herr e hxx
                  rw [hde] at h2
                  cases h2
              obtain ⟨t0, t1⟩ := firstTtl_seconds up.Answer
              refine ⟨client, addr, key, _, rq, up, rdata, hen, rfl, hk, ?_, ?_, hcp, rfl, rfl,
                rfl, ?_, t0, t1, ?_⟩
              · rw [ru, o2]
                exact hl
              · rw [ru, o2]
                exact hx
              · rw [rg, hset, hc0, resolveCnameFromDomian_firstTtl _ _ _ _ hrs]
              · rw [rm, hm]

set_option maxRecDepth 100000 in
theorem proxyServe_respcache_entry_witness :
    (∃ r, proxyServe stdLib exFlags exClient exUpstream 4 exChallengedGlobals exFollowUp = some r
      ∧ (r.g.respcache = exChallengedGlobals.respcache
          ∨ ∃ (client addr key : String) (pre rq up : Msg) (rdata : Bytes),
              exFlags.ENCACHE = true
              ∧ pre.Id = 0
              ∧ generateReqKey stdLib pre = some (key, rq)
              ∧ r.upstream.getLast? = some (client, addr, { rq with Id := exFollowUp.Id })
              ∧ exUpstream (r.upstream.length - 1) client addr { rq with Id := exFollowUp.Id }
                  = Except.ok up
              ∧ stdLib.pack (cacheMsg up rq.Question) = some rdata
              ∧ (cacheMsg up rq.Question).Id = 0
              ∧ (cacheMsg up rq.Question).Question
                  = ({ rq with Id := exFollowUp.Id } : Msg).Question
              ∧ (cacheMsg up rq.Question).Answer = up.Answer
              ∧ r.g.respcache
                  = exChallengedGlobals.respcache.Set key rdata
                      (secondsDuration (firstTtl up.Answer))
              ∧ (up.Answer = [] → secondsDuration (firstTtl up.Answer) = 0)
              ∧ (∀ (a : RR) (rest : List RR), up.Answer = a :: rest →
                  a.Header.Ttl < 4294967296 →
                  secondsDuration (firstTtl up.Answer) = 1000000000 * (a.Header.Ttl : Int))
              ∧ r.m = some { cacheMsg up rq.Question with Id := exFollowUp.Id }))
      ∧ exChallengedGlobals.respcache.items = []
      ∧ (proxyServe stdLib exFlags exClient exUpstream 4 exChallengedGlobals exFollowUp).map
          (fun r => r.g.respcache.items.map (fun e =>
            (e.2.Duration, (stdLib.unpack e.2.Object).Id, (stdLib.unpack e.2.Object).Question,
              (stdLib.unpack e.2.Object).Answer.map (fun a => a.Header.Name))))
        = some [(300000000000, 0, [exQuestion], ["example.com."])]
      ∧ (proxyServe stdLib exFlags exClient exUpstream 4 exChallengedGlobals exFollowUp).map
          (fun r => (r.m.map Msg.Id,
            r.written.map (fun d => (stdLib.unpack d).Question == exFollowUp.Question)))
        = some (some 21, [true]) :=
  ⟨proxyServe_respcache_entry stdLib exFlags exClient exUpstream exChallengedGlobals exFollowUp
      4 (by decide) (by decide),
    by decide!, by decide!, by decide!⟩

/-! ## The state loop: classifying the response code -/

/-- C21 (amended). Classifying the response code of the accepted upstream reply: on every
path of the handler, when the last exchange a request made returned a reply `up` without a
transport error, the four counters are those of the `switch` on `up.Rcode`: `Refused`
increases `refusedCount` and `totalErrorCount`, `NXDomain` increases `nxDomainCount` and
`totalErrorCount`, `Success` increases `resolvedDnsQueryCount` alone, and any other code
increases `totalErrorCount` alone; each increase is by one (`AddUint64`) and the counters
not named are unchanged. -/
theorem proxyServe_rcode_counters (lib : Lib) (cfg : Flags) (w : ResponseWriter)
    (x : Exchange) (g : Globals) (req : Msg) (fuel : Nat) (hfuel : 4 ≤ fuel)
    (hdns : cfg.DNS ≠ []) :
    ∃ r, proxyServe lib cfg w x fuel g req = some r
      ∧ ∀ (client addr : String) (q up : Msg),
          r.upstream.getLast? = some (client, addr, q) →
          x (r.upstream.length - 1) client addr q = Except.ok up →
          r.g.refusedCount
              = (if up.Rcode = RcodeRefused then AddUint64 g.refusedCount 1
                 else g.refusedCount)
            ∧ r.g.nxDomainCount
              = (if up.Rcode = RcodeNameError then AddUint64 g.nxDomainCount 1
                 else g.nxDomainCount)
            ∧ r.g.resolvedDnsQueryCount
              = (if up.Rcode = RcodeSuccess then AddUint64 g.resolvedDnsQueryCount 1
                 else g.resolvedDnsQueryCount)
            ∧ r.g.totalErrorCount
              = (if up.Rcode = RcodeSuccess then g.totalErrorCount
                 else AddUint64 g.totalErrorCount 1) := by
  obtain ⟨r, hr, hpath⟩ := proxyServe_paths lib cfg w x g req fuel hfuel
  refine ⟨r, hr, ?_⟩
  intro client addr q up hlast hx
  rcases hpath with hs | ⟨cP, -, -, hs, -, -, hres⟩
  · have hu : r.upstream = [] := hs.2.1
    rw [hu] at hlast
    simp at hlast
  · obtain ⟨-, -, rg, ru, -, -⟩ := performed_fields _ r hres
    obtain ⟨-, hu0, -, -, s5, s6, s7, s8⟩ := hs
    simp only [enter] at s5 s6 s7 s8
    cases hk : generateReqKey lib { cP.req with RecursionDesired := true, Id := 0 } with
    | none =>
      obtain ⟨-, -, k3, -⟩ := casePERFORM_DNS_no_key lib cfg w x cP hk
      rw [ru, k3, hu0] at hlast
      simp [enter] at hlast
    | some p =>
      obtain ⟨key, rq⟩ := p
      obtain ⟨-, o2, -, -, -, -, -, -, -, -, -, hout⟩ :=
        casePERFORM_DNS_outcome lib cfg w x cP key rq hk _ rfl _ rfl
      obtain ⟨client', addr', hl, hok, -⟩ :=
        dispatch_reflectsLast x { rq with Id := cP.id } cfg.DNS (loopEntry cP) (Or.inl hdns)
      rw [ru, o2] at hlast hx
      rw [hl] at hlast
      simp only [Option.some.injEq, Prod.mk.injEq] at hlast
      obtain ⟨rfl, rfl, rfl⟩ := hlast
      obtain ⟨hdm, hde⟩ := hok up hx
      obtain ⟨c1, c2, c3, c4, -⟩ := classifyRcode_fields cP.g up.Rcode
      rcases hout with ⟨e', h1, -⟩ | ⟨-, h1, -⟩ | ⟨up', -, h1, k1, k2, k3, k4, -⟩
      · rw [hde] at h1
        cases h1
      · rw [hdm] at h1
        cases h1
      · rw [hdm] at h1
        cases h1
        exact ⟨by rw [rg, k1, c1, s7], by rw [rg, k2, c2, s6], by rw [rg, k3, c3, s5],
          by rw [rg, k4, c4, s8]⟩

set_option maxRecDepth 100000 in
theorem proxyServe_rcode_counters_witness :
    (∃ r, proxyServe stdLib exFlags exClient exUpstream 4 exValidatedGlobals exQuery = some r
      ∧ ∀ (client addr : String) (q up : Msg),
          r.upstream.getLast? = some (client, addr, q) →
          exUpstream (r.upstream.length - 1) client addr q = Except.ok up →
          r.g.refusedCount
              = (if up.Rcode = RcodeRefused then AddUint64 exValidatedGlobals.refusedCount 1
                 else exValidatedGlobals.refusedCount)
            ∧ r.g.nxDomainCount
              = (if up.Rcode = RcodeNameError
                 then AddUint64 exValidatedGlobals.nxDomainCount 1
                 else exValidatedGlobals.nxDomainCount)
            ∧ r.g.resolvedDnsQueryCount
              = (if up.Rcode = RcodeSuccess
                 then AddUint64 exValidatedGlobals.resolvedDnsQueryCount 1
                 else exValidatedGlobals.resolvedDnsQueryCount)
            ∧ r.g.totalErrorCount
              = (if up.Rcode = RcodeSuccess then exValidatedGlobals.totalErrorCount
                 else AddUint64 exValidatedGlobals.totalErrorCount 1))
      ∧ (proxyServe stdLib exFlags exClient exUpstream 4 exValidatedGlobals exQuery).map
          (fun r => (r.g.refusedCount, r.g.nxDomainCount, r.g.resolvedDnsQueryCount,
            r.g.totalErrorCount))
        = some (0, 0, 1, 0) :=
  ⟨proxyServe_rcode_counters stdLib exFlags exClient exUpstream exValidatedGlobals exQuery 4
      (by decide) (by decide),
    by decide!⟩

set_option maxRecDepth 100000 in
/-- C21 (counterexample). The upstream `exRefused` answers the validated client's query with
REFUSED: the reply is accepted (no error, one reply written) and two of the four counters
are increased, `refusedCount` and `totalErrorCount`. -/
theorem proxyServe_refused_two_counters :
    (proxyServe stdLib exFlags exClient exRefused 4 exValidatedGlobals exQuery).map
        (fun r => (r.err, r.written.length, r.g.refusedCount, r.g.nxDomainCount,
          r.g.resolvedDnsQueryCount, r.g.totalErrorCount))
      = some (none, 1, 1, 0, 0, 1)
    ∧ (exValidatedGlobals.refusedCount, exValidatedGlobals.nxDomainCount,
        exValidatedGlobals.resolvedDnsQueryCount, exValidatedGlobals.totalErrorCount)
      = (0, 0, 0, 0) := by
  refine ⟨?_, ?_⟩ <;> decide!

/-! ## The state loop: an induction principle over its passes -/

theorem iteration_perform_ends (lib : Lib) (cfg : Flags) (w : ResponseWriter) (x : Exchange)
    (c : Ctx) (hstate : c.reqState = PERFORM_DNS) :
    (iteration lib cfg w x c).finished = true ∨ (iteration lib cfg w x c).reqState = END := by
  have hit : iteration lib cfg w x c = casePERFORM_DNS lib cfg w x c := by
    simp [iteration, hstate, FILTER_REQ, PARSE_REQ, RESP_CACHE_CHECK, VALIDATE, VALIDITY_CHECK,
      PERFORM_DNS]
  rw [hit]
  exact casePERFORM_DNS_ends lib cfg w x c

theorem iteration_validity_check (lib : Lib) (cfg : Flags) (w : ResponseWriter) (x : Exchange)
    (c : Ctx) (hstate : c.reqState = VALIDITY_CHECK) :
    iteration lib cfg w x c = caseVALIDITY_CHECK lib cfg w c := by
  simp [iteration, hstate, FILTER_REQ, PARSE_REQ, RESP_CACHE_CHECK, VALIDATE, VALIDITY_CHECK]

theorem proxyServe_invariant (lib : Lib) (cfg : Flags) (w : ResponseWriter) (x : Exchange)
    (g : Globals) (req : Msg) (P : Ctx → Prop)
    (h1 : P (iteration lib cfg w x (enter g req)))
    (hstep : ∀ c, P c → c.finished = false →
      (c.reqState = VALIDITY_CHECK ∨ c.reqState = PERFORM_DNS ∨ c.reqState = SEND_RESP
        ∨ c.reqState = END) →
      P (iteration lib cfg w x c)) :
    ∃ r, (∀ fuel, 4 ≤ fuel → proxyServe lib cfg w x fuel g req = some r)
      ∧ r.finished = true ∧ P r := by
  have e0 : (enter g req).finished = false := rfl
  have fin1 : ∀ (c : Ctx), c.finished = false →
      (c.reqState = SEND_RESP ∨ c.reqState = END) → P c →
      ∃ r, (∀ n, stateWheel (iteration lib cfg w x) (n + 1) c = some r)
        ∧ r.finished = true ∧ P r := by
    intro c hrun hst hp
    obtain ⟨f, -, -⟩ := iteration_send_or_end lib cfg w x c hst
    refine ⟨iteration lib cfg w x c, ?_, f, ?_⟩
    · intro n
      rw [stateWheel_step _ _ _ hrun]
      exact stateWheel_finished _ _ _ f
    · rcases hst with h | h
      · exact hstep c hp hrun (Or.inr (Or.inr (Or.inl h)))
      · exact hstep c hp hrun (Or.inr (Or.inr (Or.inr h)))
  have fin2 : ∀ (c : Ctx), c.finished = false → c.reqState = PERFORM_DNS → P c →
      ∃ r, (∀ n, stateWheel (iteration lib cfg w x) (n + 2) c = some r)
        ∧ r.finished = true ∧ P r := by
    intro c hrun hst hp
    have hp' := hstep c hp hrun (Or.inr (Or.inl hst))
    by_cases hf : (iteration lib cfg w x c).finished = true
    · refine ⟨iteration lib cfg w x c, ?_, hf, hp'⟩
      intro n
      rw [show n + 2 = (n + 1) + 1 by omega, stateWheel_step _ _ _ hrun]
      exact stateWheel_finished _ _ _ hf
    · have hf' : (iteration lib cfg w x c).finished = false := by simpa using hf
      have hend : (iteration lib cfg w x c).reqState = END := by
        rcases iteration_perform_ends lib cfg w x c hst with h | h
        · exact absurd h hf
        · exact h
      obtain ⟨r, hr, hfin, hpr⟩ := fin1 _ hf' (Or.inr hend) hp'
      refine ⟨r, ?_, hfin, hpr⟩
      intro n
      rw [show n + 2 = (n + 1) + 1 by omega, stateWheel_step _ _ _ hrun]
      exact hr n
  obtain ⟨-, -, hfirst⟩ := iteration_first_frame lib cfg w x g req
  have start : ∀ n, proxyServe lib cfg w x (n + 1) g req
      = stateWheel (iteration lib cfg w x) n (iteration lib cfg w x (enter g req)) := by
    intro n
    rw [proxyServe, stateWheel_step _ _ _ e0]
  rcases hfirst with hfin | ⟨hrun, -, hV | hE | hS | hP⟩
  · refine ⟨_, ?_, hfin, h1⟩
    intro fuel hfuel
    obtain ⟨n, rfl⟩ := Nat.exists_eq_add_of_le hfuel
    rw [show 4 + n = (n + 3) + 1 by omega, start]
    exact stateWheel_finished _ _ _ hfin
  · have hp2 := hstep _ h1 hrun (Or.inl hV)
    obtain ⟨-, -, -, f2, st2⟩ :=
      caseVALIDITY_CHECK_frame lib cfg w (iteration lib cfg w x (enter g req))
    rw [← iteration_validity_check lib cfg w x _ hV] at f2 st2
    rw [hrun] at f2
    rcases st2 with hP | hE | hS
    · obtain ⟨r, hr, hfin, hpr⟩ := fin2 _ f2 hP hp2
      refine ⟨r, ?_, hfin, hpr⟩
      intro fuel hfuel
      obtain ⟨n, rfl⟩ := Nat.exists_eq_add_of_le hfuel
      rw [show 4 + n = (n + 2 + 1) + 1 by omega, start, stateWheel_step _ _ _ hrun]
      exact hr n
    · obtain ⟨r, hr, hfin, hpr⟩ := fin1 _ f2 (Or.inr hE) hp2
      refine ⟨r, ?_, hfin, hpr⟩
      intro fuel hfuel
      obtain ⟨n, rfl⟩ := Nat.exists_eq_add_of_le hfuel
      rw [show 4 + n = (n + 1 + 1 + 1) + 1 by omega, start, stateWheel_step _ _ _ hrun]
      exact hr (n + 1)
    · obtain ⟨r, hr, hfin, hpr⟩ := fin1 _ f2 (Or.inl hS) hp2
      refine ⟨r, ?_, hfin, hpr⟩
      intro fuel hfuel
      obtain ⟨n, rfl⟩ := Nat.exists_eq_add_of_le hfuel
      rw [show 4 + n = (n + 1 + 1 + 1) + 1 by omega, start, stateWheel_step _ _ _ hrun]
      exact hr (n + 1)
  · obtain ⟨r, hr, hfin, hpr⟩ := fin1 _ hrun (Or.inr hE) h1
    refine ⟨r, ?_, hfin, hpr⟩
    intro fuel hfuel
    obtain ⟨n, rfl⟩ := Nat.exists_eq_add_of_le hfuel
    rw [show 4 + n = (n + 2 + 1) + 1 by omega, start]
    exact hr (n + 2)
  · obtain ⟨r, hr, hfin, hpr⟩ := fin1 _ hrun (Or.inl hS) h1
    refine ⟨r, ?_, hfin, hpr⟩
    intro fuel hfuel
    obtain ⟨n, rfl⟩ := Nat.exists_eq_add_of_le hfuel
    rw [show 4 + n = (n + 2 + 1) + 1 by omega, start]
    exact hr (n + 2)
  · obtain ⟨r, hr, hfin, hpr⟩ := fin2 _ hrun hP h1
    refine ⟨r, ?_, hfin, hpr⟩
    intro fuel hfuel
    obtain ⟨n, rfl⟩ := Nat.exists_eq_add_of_le hfuel
    rw [show 4 + n = (n + 1 + 2) + 1 by omega, start]
    exact hr (n + 1)

/-! ## The state loop: no backtracking, termination, one reply -/

theorem casePARSE_REQ_frame (lib : Lib) (cfg : Flags) (w : ResponseWriter) (c : Ctx) :
    (casePARSE_REQ lib cfg w c).exit = Exit.panicked
      ∨ (casePARSE_REQ lib cfg w c).reqState = VALIDITY_CHECK
      ∨ (casePARSE_REQ lib cfg w c).reqState = END
      ∨ (casePARSE_REQ lib cfg w c).reqState = SEND_RESP
      ∨ (casePARSE_REQ lib cfg w c).reqState = PERFORM_DNS := by
  unfold casePARSE_REQ
  simp only []
  split
  · exact Or.inl rfl
  · rcases (caseRESP_CACHE_CHECK_frame lib cfg w _).2.2.2.2 with h | ⟨-, h⟩
    · exact Or.inl h
    · exact Or.inr h

theorem caseFILTER_REQ_frame (lib : Lib) (cfg : Flags) (w : ResponseWriter) (c : Ctx) :
    (caseFILTER_REQ lib cfg w c).exit = Exit.panicked
      ∨ (caseFILTER_REQ lib cfg w c).exit = Exit.returned
      ∨ (caseFILTER_REQ lib cfg w c).reqState = VALIDITY_CHECK
      ∨ (caseFILTER_REQ lib cfg w c).reqState = END
      ∨ (caseFILTER_REQ lib cfg w c).reqState = SEND_RESP
      ∨ (caseFILTER_REQ lib cfg w c).reqState = PERFORM_DNS := by
  unfold caseFILTER_REQ
  simp only []
  split
  · exact Or.inr (Or.inl rfl)
  · split
    · exact Or.inr (Or.inl rfl)
    · rcases casePARSE_REQ_frame lib cfg w _ with h | h
      · exact Or.inl h
      · exact Or.inr (Or.inr h)

theorem caseADD_RESP_CACHE_ends (lib : Lib) (cfg : Flags) (w : ResponseWriter) (c : Ctx) :
    (caseADD_RESP_CACHE lib cfg w c).finished = true
      ∨ (caseADD_RESP_CACHE lib cfg w c).reqState = END := by
  unfold caseADD_RESP_CACHE caseSEND_RESP caseEND
  simp only []
  split
  · split
    · simp [Ctx.finished]
    · split <;> simp [Ctx.finished]
  · simp [Ctx.finished]

theorem finished_of_exit (c : Ctx) (h : c.exit = Exit.panicked ∨ c.exit = Exit.returned) :
    c.finished = true := by
  rcases h with h | h <;> simp [Ctx.finished, h]

theorem iteration_advances (lib : Lib) (cfg : Flags) (w : ResponseWriter) (x : Exchange)
    (c : Ctx) :
    (iteration lib cfg w x c).finished = true
      ∨ c.reqState < (iteration lib cfg w x c).reqState := by
  unfold iteration
  split
  · rename_i h
    rw [h]
    rcases caseFILTER_REQ_frame lib cfg w c with h' | h' | h' | h' | h' | h'
    · exact Or.inl (finished_of_exit _ (Or.inl h'))
    · exact Or.inl (finished_of_exit _ (Or.inr h'))
    all_goals (right; rw [h']; decide)
  · split
    · rename_i h
      rw [h]
      rcases casePARSE_REQ_frame lib cfg w c with h' | h' | h' | h' | h'
      · exact Or.inl (finished_of_exit _ (Or.inl h'))
      all_goals (right; rw [h']; decide)
    · split
      · rename_i h
        rw [h]
        rcases (caseRESP_CACHE_CHECK_frame lib cfg w c).2.2.2.2 with h' | ⟨-, h' | h' | h' | h'⟩
        · exact Or.inl (finished_of_exit _ (Or.inl h'))
        all_goals (right; rw [h']; decide)
      · split
        · rename_i h
          rw [h]
          rcases (caseVALIDATE_frame lib cfg w c).2.2.2.2 with h' | ⟨-, h' | h' | h'⟩
          · exact Or.inl (finished_of_exit _ (Or.inl h'))
          all_goals (right; rw [h']; decide)
        · split
          · rename_i h
            rw [h]
            rcases (caseVALIDITY_CHECK_frame lib cfg w c).2.2.2.2 with h' | h' | h'
            all_goals (right; rw [h']; decide)
          · split
            · rename_i h
              rw [h]
              rcases casePERFORM_DNS_ends lib cfg w x c with h' | h'
              · exact Or.inl h'
              · right; rw [h']; decide
            · split
              · rename_i h
                rw [h]
                rcases caseADD_RESP_CACHE_ends lib cfg w c with h' | h'
                · exact Or.inl h'
                · right; rw [h']; decide
              · split
                · left
                  simp [caseSEND_RESP, caseEND, Ctx.finished]
                · split
                  · left
                    simp [caseEND, Ctx.finished]
                  · left
                    simp [Ctx.finished]

theorem casePERFORM_DNS_written (lib : Lib) (cfg : Flags) (w : ResponseWriter) (x : Exchange)
    (c : Ctx) :
    (casePERFORM_DNS lib cfg w x c).written = c.written
      ∨ ∃ data, (casePERFORM_DNS lib cfg w x c).written = c.written ++ [data] := by
  cases hk : generateReqKey lib { c.req with RecursionDesired := true, Id := 0 } with
  | none => exact Or.inl (casePERFORM_DNS_no_key lib cfg w x c hk).2.1
  | some p =>
    obtain ⟨key, rq⟩ := p
    obtain ⟨-, -, -, -, -, -, -, -, -, -, -, hout⟩ :=
      casePERFORM_DNS_outcome lib cfg w x c key rq hk _ rfl _ rfl
    rcases hout with ⟨e', -, -, -, h, -⟩ | ⟨-, -, -, h, -⟩ | ⟨up, -, -, -, -, -, -, hdel⟩
    · exact Or.inl h
    · exact Or.inl h
    · rcases hdel with ⟨-, -, h, -⟩ | ⟨answers, newAns, -, hrest⟩
      · exact Or.inl h
      · rcases hrest with ⟨-, -, -, h, -⟩ | ⟨data, -, -, hen⟩
        · exact Or.inl h
        · rcases hen with ⟨-, h, -⟩ | ⟨-, -, h, -⟩ | ⟨rdata, -, -, h, -⟩
          · exact Or.inr ⟨data, h⟩
          · exact Or.inl h
          · exact Or.inr ⟨data, h⟩

/-- C23. The state loop never goes back and always ends.  One pass of the loop, from any
values of the handler's variables, either leaves the loop (`complete`, a `return` or a
panic) or sets `reqState` to a strictly larger state constant; and for every request, every
state of the caches and every behaviour of the upstreams there is a result `r` that the
handler reaches within four passes (with any fuel of at least 4), with the loop left and at
most one reply written to the client. -/
theorem proxyServe_terminates (lib : Lib) (cfg : Flags) (w : ResponseWriter) (x : Exchange)
    (g : Globals) (req : Msg) :
    (FILTER_REQ < PARSE_REQ ∧ PARSE_REQ < RESP_CACHE_CHECK ∧ RESP_CACHE_CHECK < VALIDATE
        ∧ VALIDATE < VALIDITY_CHECK ∧ VALIDITY_CHECK < PERFORM_DNS
        ∧ PERFORM_DNS < ADD_RESP_CACHE ∧ ADD_RESP_CACHE < SEND_RESP ∧ SEND_RESP < END)
      ∧ (∀ c : Ctx, (iteration lib cfg w x c).finished = true
          ∨ c.reqState < (iteration lib cfg w x c).reqState)
      ∧ ∃ r, (∀ fuel, 4 ≤ fuel → proxyServe lib cfg w x fuel g req = some r)
          ∧ r.finished = true
          ∧ r.written.length ≤ 1 := by
  refine ⟨by decide, iteration_advances lib cfg w x, ?_⟩
  obtain ⟨r, hr, hfin, hp, -⟩ := proxyServe_invariant lib cfg w x g req
    (fun c => c.written.length ≤ 1 ∧ (c.finished = false → c.written = [] ∨ c.reqState = END))
    (by
      obtain ⟨-, hw, -⟩ := iteration_first_frame lib cfg w x g req
      exact ⟨by rw [hw]; decide, fun _ => Or.inl hw⟩)
    (by
      intro c hpc hrun hst
      have hnil : c.reqState ≠ END → c.written = [] := by
        intro hne
        rcases hpc.2 hrun with h | h
        · exact h
        · exact absurd h hne
      rcases hst with hV | hP | hS | hE
      · have hw0 := hnil (by rw [hV]; decide)
        obtain ⟨-, hw, -, -, -⟩ := caseVALIDITY_CHECK_frame lib cfg w c
        rw [iteration_validity_check lib cfg w x c hV, hw, hw0]
        exact ⟨by decide, fun _ => Or.inl rfl⟩
      · have hw0 := hnil (by rw [hP]; decide)
        have hit : iteration lib cfg w x c = casePERFORM_DNS lib cfg w x c := by
          simp [iteration, hP, FILTER_REQ, PARSE_REQ, RESP_CACHE_CHECK, VALIDATE,
            VALIDITY_CHECK, PERFORM_DNS]
        refine ⟨?_, ?_⟩
        · rw [hit]
          rcases casePERFORM_DNS_written lib cfg w x c with h | ⟨data, h⟩
          · rw [h, hw0]; decide
          · rw [h, hw0]; simp
        · intro hnf
          rcases iteration_perform_ends lib cfg w x c hP with h | h
          · rw [h] at hnf
            cases hnf
          · exact Or.inr h
      · have hw0 := hnil (by rw [hS]; decide)
        obtain ⟨hf, -, -⟩ := iteration_send_or_end lib cfg w x c (Or.inl hS)
        refine ⟨?_, fun hnf => by rw [hf] at hnf; cases hnf⟩
        simp [iteration, hS, FILTER_REQ, PARSE_REQ, RESP_CACHE_CHECK, VALIDATE, VALIDITY_CHECK,
          PERFORM_DNS, ADD_RESP_CACHE, SEND_RESP, caseSEND_RESP, caseEND, hw0]
      · obtain ⟨hf, -, hw⟩ := iteration_send_or_end lib cfg w x c (Or.inr hE)
        refine ⟨?_, fun hnf => by rw [hf] at hnf; cases hnf⟩
        rw [hw hE]
        exact hpc.1)
  exact ⟨r, hr, hfin, hp⟩

set_option maxRecDepth 100000 in
theorem proxyServe_terminates_witness :
    (∃ r, (∀ fuel, 4 ≤ fuel →
          proxyServe stdLib exFlags exClient exTimeout fuel exValidatedGlobals exQuery = some r)
        ∧ r.finished = true
        ∧ r.written.length ≤ 1)
      ∧ (proxyServe stdLib exFlags exClient exTimeout 3 exValidatedGlobals exQuery).isSome
          = false :=
  ⟨(proxyServe_terminates stdLib exFlags exClient exTimeout exValidatedGlobals exQuery).2.2,
    by decide!⟩

/-! ## The state loop: what goes into the validated-client cache -/

theorem generateReqKey_question (lib : Lib) (req : Msg) (key : String) (rq : Msg)
    (h : generateReqKey lib req = some (key, rq)) : rq.Question = req.Question := by
  unfold generateReqKey at h
  simp only [] at h
  split at h
  · cases h
  · simp only [Option.some.injEq, Prod.mk.injEq] at h
    rw [← h.2]

theorem caseVALIDATE_validated (lib : Lib) (cfg : Flags) (w : ResponseWriter) (c : Ctx)
    (hdata : c.data = []) :
    (caseVALIDATE lib cfg w c).g.validatedcache = c.g.validatedcache
      ∨ ∃ (data : Bytes) (q0 : Question),
          c.g.validitycache.Get c.validationKey = some data
          ∧ data ≠ []
          ∧ c.req.Question.head? = some q0
          ∧ (lib.unpack data).Question.head? = some q0
          ∧ (caseVALIDATE lib cfg w c).g.validatedcache
              = c.g.validatedcache.Set
                  (generateValidationKey lib
                    { c.req with
                      Question := resolveDomainFromCname lib c.req.Question
                        (lib.unpack data).Answer } w)
                  data (secondsDuration cfg.revalidation) := by
  unfold caseVALIDATE
  cases hget : c.g.validitycache.Get c.validationKey with
  | none => simp [hdata]
  | some data =>
    simp only []
    by_cases hlen : data.length = 0
    · simp [hlen]
    · have hne : data ≠ [] := fun h => hlen (by rw [h]; rfl)
      simp only [hlen, if_false]
      cases hq : c.req.Question.head? with
      | none => simp
      | some q0 =>
        cases hm : (lib.unpack data).Question.head? with
        | none => simp
        | some m0 =>
          by_cases heq : q0 = m0
          · subst heq
            right
            exact ⟨data, q0, rfl, hne, rfl, hm, by simp⟩
          · simp [heq]

theorem caseRESP_CACHE_CHECK_validated (lib : Lib) (cfg : Flags) (w : ResponseWriter)
    (c : Ctx) (hdata : c.data = []) :
    (caseRESP_CACHE_CHECK lib cfg w c).g.validatedcache = c.g.validatedcache
      ∨ ∃ (data : Bytes) (q0 : Question),
          c.g.validitycache.Get c.validationKey = some data
          ∧ data ≠ []
          ∧ c.req.Question.head? = some q0
          ∧ (lib.unpack data).Question.head? = some q0
          ∧ (caseRESP_CACHE_CHECK lib cfg w c).g.validatedcache
              = c.g.validatedcache.Set
                  (generateValidationKey lib
                    { c.req with
                      Question := resolveDomainFromCname lib c.req.Question
                        (lib.unpack data).Answer } w)
                  data (secondsDuration cfg.revalidation) := by
  unfold caseRESP_CACHE_CHECK
  simp only []
  split
  · split
    · split <;> simp
    · rename_i hlen
      exact caseVALIDATE_validated lib cfg w
        { c with data := match c.g.respcache.Get c.reqKey with
                         | some reply => reply
                         | none => c.data,
                 reqState := VALIDATE }
        (by
          simp only [gt_iff_lt, not_lt, Nat.le_zero_eq] at hlen
          exact List.length_eq_zero.mp hlen)
  · exact caseVALIDATE_validated lib cfg w { c with reqState := VALIDATE } hdata

theorem iteration_first_validated (lib : Lib) (cfg : Flags) (w : ResponseWriter)
    (x : Exchange) (g : Globals) (req : Msg) :
    (iteration lib cfg w x (enter g req)).g.validatedcache = g.validatedcache
      ∨ ∃ (data : Bytes) (q0 : Question),
          g.validitycache.Get (parsedValidationKey lib cfg w req) = some data
          ∧ data ≠ []
          ∧ (filterQuestions cfg req.Question).head? = some q0
          ∧ (lib.unpack data).Question.head? = some q0
          ∧ (iteration lib cfg w x (enter g req)).g.validatedcache
              = g.validatedcache.Set
                  (generateValidationKey lib
                    { parsedReq cfg req with
                      Question := resolveDomainFromCname lib (filterQuestions cfg req.Question)
                        (lib.unpack data).Answer } w)
                  data (secondsDuration cfg.revalidation) := by
  have hit : iteration lib cfg w x (enter g req) = caseFILTER_REQ lib cfg w (enter g req) := by
    simp [iteration, enter, FILTER_REQ]
  rw [hit]
  unfold caseFILTER_REQ
  simp only []
  split
  · exact Or.inl rfl
  · split
    · exact Or.inl rfl
    · unfold casePARSE_REQ
      simp only []
      split
      · exact Or.inl rfl
      · rename_i key rq hk
        have hq := generateReqKey_question lib _ key rq hk
        simp only [enter, List.nil_append] at hq
        rcases caseRESP_CACHE_CHECK_validated lib cfg w
          { req := { rq with Id := req.Id }, reqKey := key,
            validationKey := generateValidationKey lib
              { req with Question := filterQuestions cfg req.Question, Id := 0 } w,
            m := none, err := none, data := [], id := req.Id,
            questions := filterQuestions cfg req.Question,
            actualQuestion := [], backupAnswer := [], cachedAns := [], answers := [],
            reqState := RESP_CACHE_CHECK, complete := false,
            g := { g with totalRequestCount := AddUint64 g.totalRequestCount 1 },
            written := [], upstream := [], exit := Exit.running } rfl with h | h
        · left
          simp only [enter, List.nil_append] at h ⊢
          exact h
        · right
          obtain ⟨data, q0, h1, h2, h3, h4, h5⟩ := h
          simp only [hq] at h3 h5
          refine ⟨data, q0, ?_, h2, h3, h4, ?_⟩
          · simpa [parsedValidationKey, parsedReq, generateValidationKey, validationKeyText]
              using h1
          · simp only [enter, List.nil_append]
            simpa [parsedReq, generateValidationKey, validationKeyText, hq] using h5

theorem caseVALIDITY_CHECK_validated (lib : Lib) (cfg : Flags) (w : ResponseWriter)
    (c : Ctx) :
    (caseVALIDITY_CHECK lib cfg w c).g.validatedcache = c.g.validatedcache := by
  unfold caseVALIDITY_CHECK
  simp only []
  split
  · simp
  · split <;> split <;> simp

theorem iteration_later_validated (lib : Lib) (cfg : Flags) (w : ResponseWriter)
    (x : Exchange) (c : Ctx)
    (hst : c.reqState = VALIDITY_CHECK ∨ c.reqState = PERFORM_DNS ∨ c.reqState = SEND_RESP
      ∨ c.reqState = END) :
    (iteration lib cfg w x c).g.validatedcache = c.g.validatedcache := by
  rcases hst with h | h | h | h
  · rw [iteration_validity_check lib cfg w x c h]
    exact caseVALIDITY_CHECK_validated lib cfg w c
  · have hit : iteration lib cfg w x c = casePERFORM_DNS lib cfg w x c := by
      simp [iteration, h, FILTER_REQ, PARSE_REQ, RESP_CACHE_CHECK, VALIDATE, VALIDITY_CHECK,
        PERFORM_DNS]
    rw [hit]
    cases hk : generateReqKey lib { c.req with RecursionDesired := true, Id := 0 } with
    | none => rw [(casePERFORM_DNS_no_key lib cfg w x c hk).1]
    | some p =>
      obtain ⟨key, rq⟩ := p
      exact (casePERFORM_DNS_outcome lib cfg w x c key rq hk _ rfl _ rfl).2.2.2.2.2.1
  · simp [iteration, h, FILTER_REQ, PARSE_REQ, RESP_CACHE_CHECK, VALIDATE, VALIDITY_CHECK,
      PERFORM_DNS, ADD_RESP_CACHE, SEND_RESP, END, caseSEND_RESP, caseEND]
  · simp [iteration, h, FILTER_REQ, PARSE_REQ, RESP_CACHE_CHECK, VALIDATE, VALIDITY_CHECK,
      PERFORM_DNS, ADD_RESP_CACHE, SEND_RESP, END, caseSEND_RESP, caseEND]

/-- C22. What the handler inserts into the validated-client cache.  For every request,
every state of the caches and every behaviour of the upstreams the handler returns (the same
result for every fuel of at least 4), and the validated-client cache is either unchanged or
has received one insertion: the pending-challenge cache holds non-empty bytes `data` under
the validation key `PARSE_REQ` computes for the request, the first question the filter leaves
equals the first question of the message `data` unpacks to, and the insertion stores exactly
`data` under `generateValidationKey` of the request with the questions rewritten by
`resolveDomainFromCname` (from the answers of that message), for the duration
`time.Second * revalidation`. -/
theorem proxyServe_validated_entry (lib : Lib) (cfg : Flags) (w : ResponseWriter)
    (x : Exchange) (g : Globals) (req : Msg) :
    ∃ r, (∀ fuel, 4 ≤ fuel → proxyServe lib cfg w x fuel g req = some r)
      ∧ (r.g.validatedcache = g.validatedcache
          ∨ ∃ (data : Bytes) (q0 : Question),
              g.validitycache.Get (parsedValidationKey lib cfg w req) = some data
              ∧ data ≠ []
              ∧ (filterQuestions cfg req.Question).head? = some q0
              ∧ (lib.unpack data).Question.head? = some q0
              ∧ r.g.validatedcache
                  = g.validatedcache.Set
                      (generateValidationKey lib
                        { parsedReq cfg req with
                          Question := resolveDomainFromCname lib
                            (filterQuestions cfg req.Question) (lib.unpack data).Answer } w)
                      data (secondsDuration cfg.revalidation)) := by
  obtain ⟨r, hr, -, hp⟩ := proxyServe_invariant lib cfg w x g req
    (fun c => c.g.validatedcache = (iteration lib cfg w x (enter g req)).g.validatedcache)
    rfl
    (by
      intro c hc _ hst
      exact (iteration_later_validated lib cfg w x c hst).trans hc)
  refine ⟨r, hr, ?_⟩
  have hp' : r.g.validatedcache = (iteration lib cfg w x (enter g req)).g.validatedcache := hp
  rw [hp']
  exact iteration_first_validated lib cfg w x g req

set_option maxRecDepth 100000 in
theorem proxyServe_validated_entry_witness :
    (∃ r, (∀ fuel, 4 ≤ fuel →
          proxyServe stdLib exFlags exClient exUpstream fuel exChallengedGlobals exFollowUp
            = some r)
      ∧ (r.g.validatedcache = exChallengedGlobals.validatedcache
          ∨ ∃ (data : Bytes) (q0 : Question),
              exChallengedGlobals.validitycache.Get
                  (parsedValidationKey stdLib exFlags exClient exFollowUp) = some data
              ∧ data ≠ []
              ∧ (filterQuestions exFlags exFollowUp.Question).head? = some q0
              ∧ (stdLib.unpack data).Question.head? = some q0
              ∧ r.g.validatedcache
                  = exChallengedGlobals.validatedcache.Set
                      (generateValidationKey stdLib
                        { parsedReq exFlags exFollowUp with
                          Question := resolveDomainFromCname stdLib
                            (filterQuestions exFlags exFollowUp.Question)
                            (stdLib.unpack data).Answer } exClient)
                      data (secondsDuration exFlags.revalidation)))
      ∧ exChallengedGlobals.validatedcache.items = []
      ∧ (proxyServe stdLib exFlags exClient exUpstream 4 exChallengedGlobals exFollowUp).map
          (fun r => r.g.validatedcache.items.map (fun e =>
            (e.1 == parsedValidationKey stdLib exFlags exClient exQuery,
              e.2.Object == exPendingBytes, e.2.Duration)))
        = some [(true, true, 1800000000000)] :=
  ⟨proxyServe_validated_entry stdLib exFlags exClient exUpstream exChallengedGlobals exFollowUp,
    by decide!, by decide!⟩

/-! ## The state loop: the key of a stored response and the key of a lookup -/

theorem Cache.Get_Set (c : Cache) (k : String) (v : Bytes) (d : Int) :
    (c.Set k v d).Get k = some v := by
  simp [Cache.Get, Cache.Set, List.lookup]

theorem map_eraseFirstCookie_idem (extra : List RR)
    (h : (extra.all (fun r => match r with
      | RR.OPT _ opts => decide ((opts.filter EDNS0.isCookie).length ≤ 1)
      | _ => true)) = true) :
    (extra.map RR.eraseFirstCookie).map RR.eraseFirstCookie
      = extra.map RR.eraseFirstCookie := by
  rw [map_eraseFirstCookie_eq_withoutCookies extra h]
  apply map_eraseFirstCookie_of_no_cookie
  intro r hr hdr opts hopt o ho
  obtain ⟨r', -, hr'⟩ := List.mem_map.mp hr
  cases r' with
  | OPT h' opts' =>
    simp only [RR.withoutCookies] at hr'
    rw [hopt] at hr'
    simp only [RR.OPT.injEq] at hr'
    rw [← hr'.2] at ho
    have := (List.mem_filter.mp ho).2
    simpa using this
  | A h' a =>
    simp only [RR.withoutCookies] at hr'
    rw [hopt] at hr'
    cases hr'
  | CNAME h' t =>
    simp only [RR.withoutCookies] at hr'
    rw [hopt] at hr'
    cases hr'
  | Other h' d =>
    simp only [RR.withoutCookies] at hr'
    rw [hopt] at hr'
    cases hr'

theorem proxyServe_hit_path (lib : Lib) (cfg : Flags) (w : ResponseWriter) (x : Exchange)
    (g : Globals) (req : Msg) (fuel : Nat) (hfuel : 2 ≤ fuel) (data d : Bytes)
    (hresp : req.Response = false)
    (hq : filterQuestions cfg req.Question ≠ [])
    (hwt : req.wellTyped = true)
    (hen : cfg.ENCACHE = true)
    (hget : g.respcache.Get (parsedReqKey lib cfg req) = some data)
    (hdata : data ≠ [])
    (hpack : lib.pack { lib.unpack data with Id := req.Id } = some d) :
    (iteration lib cfg w x (enter g req)).reqState = SEND_RESP
      ∧ ∃ r, proxyServe lib cfg w x fuel g req = some r
          ∧ r.written = [d]
          ∧ r.upstream = []
          ∧ r.g = { g with totalRequestCount := AddUint64 g.totalRequestCount 1,
                           respCacheHitCount := AddUint64 g.respCacheHitCount 1 } := by
  have hwt' : req.Extra.all RR.wellTyped = true := hwt
  have hlen : 0 < data.length := List.length_pos.mpr hdata
  simp only [parsedReqKey, parsedReq, hresp] at hget
  have key : (iteration lib cfg w x (enter g req)).reqState = SEND_RESP
      ∧ (iteration lib cfg w x (enter g req)).finished = false
      ∧ (iteration lib cfg w x (iteration lib cfg w x (enter g req))).finished = true
      ∧ (iteration lib cfg w x (iteration lib cfg w x (enter g req))).written = [d]
      ∧ (iteration lib cfg w x (iteration lib cfg w x (enter g req))).upstream = []
      ∧ (iteration lib cfg w x (iteration lib cfg w x (enter g req))).g
          = { g with totalRequestCount := AddUint64 g.totalRequestCount 1,
                     respCacheHitCount := AddUint64 g.respCacheHitCount 1 } := by
    simp [iteration, enter, FILTER_REQ, PARSE_REQ, RESP_CACHE_CHECK, VALIDATE, VALIDITY_CHECK,
      PERFORM_DNS, ADD_RESP_CACHE, SEND_RESP, END, caseFILTER_REQ, hresp, hq, casePARSE_REQ,
      generateReqKey_of_extra, hwt', caseRESP_CACHE_CHECK, hen, hget, hlen, hpack,
      caseSEND_RESP, caseEND, Ctx.finished]
  refine ⟨key.1, _, ?_, key.2.2.2⟩
  obtain ⟨n, rfl⟩ := Nat.exists_eq_add_of_le hfuel
  have e0 : (enter g req).finished = false := rfl
  rw [proxyServe, show 2 + n = n + 1 + 1 by omega, stateWheel_step _ _ _ e0,
    stateWheel_step _ _ _ key.2.1, stateWheel_finished _ _ _ key.2.2.1]

theorem generateReqKey_perform_validated (lib : Lib) (cfg : Flags) (req : Msg)
    (hwt : req.wellTyped = true)
    (hrd : req.RecursionDesired = true)
    (hsc : req.singleCookie = true) :
    generateReqKey lib { parsedReq cfg req with RecursionDesired := true, Id := 0 }
      = some (parsedReqKey lib cfg req, { parsedReq cfg req with Id := 0 }) := by
  have hwt2 : (req.Extra.map RR.eraseFirstCookie).all RR.wellTyped = true :=
    eraseFirstCookie_wellTyped req.Extra hwt
  have hid := map_eraseFirstCookie_idem req.Extra hsc
  rw [generateReqKey_of_extra lib _ (by simpa [parsedReq] using hwt2)]
  simp [parsedReqKey, parsedReq, hrd, hid]

/-- C24 (amended). Cache key agreement on the validated-client path, for a query (not a
response, well typed, with a question left by the filter) that has recursion desired set
and at most one COOKIE option in each OPT record: the key `generateReqKey` returns in
`PERFORM_DNS`, after recursion desired is forced, equals the key `PARSE_REQ` computes for
the query; the handler returns, and when it has inserted into the response cache, the entry
is under that key, so that the same query sent again while the entry is there (with
non-empty bytes that unpack and pack again) is answered from the response cache: the first
pass ends in `SEND_RESP`, the stored message is written with the query's ID, no upstream is
contacted and `respCacheHitCount` is increased by one. -/
theorem proxyServe_repeat_hit (lib : Lib) (cfg : Flags) (w : ResponseWriter) (x : Exchange)
    (g : Globals) (req : Msg) (fuel : Nat) (hfuel : 4 ≤ fuel)
    (hresp : req.Response = false)
    (hq : filterQuestions cfg req.Question ≠ [])
    (hwt : req.wellTyped = true)
    (hrc : cfg.ENCACHE = true → g.respcache.bytes (parsedReqKey lib cfg req) = [])
    (hpc : g.validitycache.bytes (parsedValidationKey lib cfg w req) = [])
    (hvc : g.validatedcache.bytes (parsedValidationKey lib cfg w req) ≠ [])
    (hrd : req.RecursionDesired = true)
    (hsc : req.singleCookie = true) :
    (generateReqKey lib { parsedReq cfg req with RecursionDesired := true, Id := 0 }).map
        Prod.fst = some (parsedReqKey lib cfg req)
      ∧ ∃ r, proxyServe lib cfg w x fuel g req = some r
          ∧ (r.g.respcache = g.respcache
              ∨ ∃ (rdata : Bytes) (dur : Int),
                  r.g.respcache = g.respcache.Set (parsedReqKey lib cfg req) rdata dur
                  ∧ r.g.respcache.Get (parsedReqKey lib cfg req) = some rdata
                  ∧ ∀ d, rdata ≠ [] →
                      lib.pack { lib.unpack rdata with Id := req.Id } = some d →
                      (iteration lib cfg w x (enter r.g req)).reqState = SEND_RESP
                        ∧ ∃ r2, proxyServe lib cfg w x fuel r.g req = some r2
                            ∧ r2.written = [d]
                            ∧ r2.upstream = []
                            ∧ r2.g.respCacheHitCount
                                = AddUint64 r.g.respCacheHitCount 1) := by
  have hk := generateReqKey_perform_validated lib cfg req hwt hrd hsc
  refine ⟨by rw [hk]; rfl, ?_⟩
  have h1 := iteration_first_miss lib cfg w x g req hresp hq hwt hrc hpc
  have h2 := iteration_second_validated lib cfg w x g req hvc
  obtain ⟨r, hr, hres⟩ := stateWheel_performed lib cfg w x
    { afterParse lib cfg w g req with
      data := g.validatedcache.bytes (parsedValidationKey lib cfg w req),
      reqState := PERFORM_DNS } rfl rfl
  obtain ⟨-, -, rg, -, -, -⟩ := performed_fields _ r hres
  obtain ⟨-, -, -, -, -, -, -, -, -, -, -, hout⟩ :=
    casePERFORM_DNS_outcome lib cfg w x
      { afterParse lib cfg w g req with
        data := g.validatedcache.bytes (parsedValidationKey lib cfg w req),
        reqState := PERFORM_DNS }
      (parsedReqKey lib cfg req) { parsedReq cfg req with Id := 0 } hk _ rfl _ rfl
  have hc0 : ({ afterParse lib cfg w g req with
      data := g.validatedcache.bytes (parsedValidationKey lib cfg w req),
      reqState := PERFORM_DNS } : Ctx).g.respcache = g.respcache := rfl
  refine ⟨r, ?_, ?_⟩
  · obtain ⟨n, rfl⟩ := Nat.exists_eq_add_of_le hfuel
    have e0 : (enter g req).finished = false := rfl
    have e1 : (afterParse lib cfg w g req).finished = false := rfl
    rw [proxyServe, show 4 + n = (n + 2) + 1 + 1 by omega, stateWheel_step _ _ _ e0, h1,
      stateWheel_step _ _ _ e1, h2]
    exact hr n
  · rcases hout with ⟨e', -, -, -, -, h4, -⟩ | ⟨-, -, -, -, h4, -⟩
      | ⟨up, -, -, -, -, -, -, hdel⟩
    · exact Or.inl (by rw [rg, h4, hc0])
    · exact Or.inl (by rw [rg, h4, hc0])
    · rcases hdel with ⟨-, -, -, h4⟩ | ⟨answers, newAns, -, hrest⟩
      · exact Or.inl (by rw [rg, h4, hc0])
      · rcases hrest with ⟨-, -, -, -, h4⟩ | ⟨data, -, -, hen⟩
        · exact Or.inl (by rw [rg, h4, hc0])
        · rcases hen with ⟨-, -, h4, -⟩ | ⟨-, -, -, h4⟩ | ⟨rdata, hen, -, -, hset, -⟩
          · exact Or.inl (by rw [rg, h4, hc0])
          · exact Or.inl (by rw [rg, h4, hc0])
          · right
            have hset' : r.g.respcache
                = g.respcache.Set (parsedReqKey lib cfg req) rdata
                    (secondsDuration (firstTtl answers)) := by
              rw [rg, hset, hc0]
            have hget : r.g.respcache.Get (parsedReqKey lib cfg req) = some rdata := by
              rw [hset']
              exact Cache.Get_Set _ _ _ _
            refine ⟨rdata, _, hset', hget, ?_⟩
            intro d hne hpack
            obtain ⟨s1, r2, hr2, hw2, hu2, hg2⟩ :=
              proxyServe_hit_path lib cfg w x r.g req fuel (by omega) rdata d hresp hq hwt
                hen hget hne hpack
            exact ⟨s1, r2, hr2, hw2, hu2, by rw [hg2]⟩

set_option maxRecDepth 100000 in
theorem proxyServe_repeat_hit_witness :
    ((generateReqKey stdLib
          { parsedReq exFlags exQuery with RecursionDesired := true, Id := 0 }).map
        Prod.fst = some (parsedReqKey stdLib exFlags exQuery)
      ∧ ∃ r, proxyServe stdLib exFlags exClient exUpstream 4 exValidatedGlobals exQuery
            = some r
          ∧ (r.g.respcache = exValidatedGlobals.respcache
              ∨ ∃ (rdata : Bytes) (dur : Int),
                  r.g.respcache
                    = exValidatedGlobals.respcache.Set (parsedReqKey stdLib exFlags exQuery)
                        rdata dur
                  ∧ r.g.respcache.Get (parsedReqKey stdLib exFlags exQuery) = some rdata
                  ∧ ∀ d, rdata ≠ [] →
                      stdLib.pack { stdLib.unpack rdata with Id := exQuery.Id } = some d →
                      (iteration stdLib exFlags exClient exUpstream
                          (enter r.g exQuery)).reqState = SEND_RESP
                        ∧ ∃ r2, proxyServe stdLib exFlags exClient exUpstream 4 r.g exQuery
                              = some r2
                            ∧ r2.written = [d]
                            ∧ r2.upstream = []
                            ∧ r2.g.respCacheHitCount
                                = AddUint64 r.g.respCacheHitCount 1))
      ∧ ((proxyServe stdLib exFlags exClient exUpstream 4 exValidatedGlobals exQuery).bind
          (fun r => (proxyServe stdLib exFlags exClient exUpstream 4 r.g exQuery).map
            (fun r2 => (r.g.respcache.items.length, r2.written.length, r2.upstream.length,
              r2.g.respCacheHitCount))))
        = some (1, 1, 0, 1) :=
  ⟨proxyServe_repeat_hit stdLib exFlags exClient exUpstream exValidatedGlobals exQuery 4
      (by decide) (by decide) (by decide) (by decide) (fun _ => by decide!) (by decide!)
      (by decide!) (by decide) (by decide),
    by decide!⟩

set_option maxRecDepth 100000 in
/-- C24 (counterexample). The validated client `exClient` sends `exNoRdQuery`, the query
`A example.com.` without recursion desired.  The key `generateReqKey` returns in
`PERFORM_DNS`, with recursion desired forced, differs from the key `PARSE_REQ` computes for
the query; the response is stored (one entry), nothing is found under the query's own key,
and the same query sent again is not a response-cache hit: the upstream is contacted again
and `respCacheHitCount` stays 0. -/
theorem proxyServe_repeat_miss_without_rd :
    (generateReqKey stdLib
          { parsedReq exFlags exNoRdQuery with RecursionDesired := true, Id := 0 }).map
        Prod.fst ≠ some (parsedReqKey stdLib exFlags exNoRdQuery)
      ∧ exNoRdServedGlobals.respcache.items.length = 1
      ∧ exNoRdServedGlobals.respcache.Get (parsedReqKey stdLib exFlags exNoRdQuery) = none
      ∧ (proxyServe stdLib exFlags exClient exUpstream 4 exNoRdServedGlobals exNoRdQuery).map
          (fun r => (r.written.length, r.upstream.length, r.g.respCacheHitCount))
        = some (1, 1, 0) := by
  refine ⟨?_, ?_, ?_, ?_⟩ <;> decide!

set_option maxRecDepth 100000 in
/-- C18 (counterexample). With the flag `-ttl=-1` the root query `A .` of an unvalidated
client is answered with one A record for `.` whose TTL is `uint32(-1) = 4294967295`, not the
configured `-1`. -/
theorem proxyServe_root_sentinel_negative_ttl :
    exNegTtlFlags.ttl = -1
      ∧ (replyOf stdLib exNegTtlFlags exClient exRootQuery).Answer
          = [RR.A { Name := ".", Rrtype := TypeA, Class := ClassINET, Ttl := 4294967295,
                    Rdlength := 0 } "10.40.221.132"]
      ∧ (proxyServe stdLib exNegTtlFlags exClient exUpstream 3 exGlobals exRootQuery).map
          (fun r => r.written.map (fun d =>
            (stdLib.unpack d).Answer.map (fun a => (a.Header.Name, a.Header.Ttl))))
        = some [[(".", 4294967295)]]
      ∧ ((4294967295 : Nat) : Int) ≠ exNegTtlFlags.ttl := by
  refine ⟨rfl, ?_, ?_, ?_⟩ <;> decide!

end Sipahi
